import Mathlib

/-!
# Verification of the reporting-dashboard ingestion-and-aggregation pipeline

Shallow embedding of the core pipeline of `server/app` (metrics calculator,
transformer, aggregation step, dimension resolver, loader, ETL orchestrator,
rollup aggregator, recovery monitor) together with theorems settling the
spec claims against the embedded code.

Python `Decimal` values are modelled as unbounded rationals (`ℚ`); `quantize`
uses the default `ROUND_HALF_EVEN` context rounding.  Decimal division is
modelled exactly (the 28-significant-digit context rounding that precedes a
`quantize` never changes any value appearing in these claims).
-/

namespace Dashboard

/-- Floor of a rational as an integer (numerator floor-divided by
denominator). -/
def ratFloor (x : ℚ) : ℤ := x.num.fdiv x.den

/-- Round a rational to the nearest integer, ties to the even integer
(Python `decimal` default rounding `ROUND_HALF_EVEN`). -/
def roundHalfEven (x : ℚ) : ℤ :=
  let f : ℤ := ratFloor x
  let r : ℚ := x - f
  if r < 1/2 then f
  else if 1/2 < r then f + 1
  else if f % 2 = 0 then f else f + 1

/-- `Decimal.quantize` to `d` fractional digits with `ROUND_HALF_EVEN`. -/
def quantize (x : ℚ) (d : ℕ) : ℚ :=
  (roundHalfEven (x * (10 : ℚ) ^ d) : ℚ) / (10 : ℚ) ^ d

namespace MetricsCalculator

/-- `MetricsCalculator.calculate_spend`:
spend = (impressions / 1000) * cpm, quantized to 2 places;
returns `0.00` when impressions or cpm is zero. -/
def calculate_spend (impressions : ℤ) (cpm : ℚ) : ℚ :=
  if impressions = 0 ∨ cpm = 0 then 0
  else quantize ((impressions : ℚ) / 1000 * cpm) 2

/-- `MetricsCalculator.calculate_ctr`:
`None` when impressions is 0, otherwise `(clicks / impressions) * 100`
quantized to 6 places. -/
def calculate_ctr (impressions clicks : ℤ) : Option ℚ :=
  if impressions = 0 then none
  else some (quantize ((clicks : ℚ) / (impressions : ℚ) * 100) 6)

/-- `MetricsCalculator.calculate_cpc`:
`None` when clicks is 0, otherwise `spend / clicks` quantized to 4 places. -/
def calculate_cpc (spend : ℚ) (clicks : ℤ) : Option ℚ :=
  if clicks = 0 then none
  else some (quantize (spend / (clicks : ℚ)) 4)

/-- `MetricsCalculator.calculate_cpa`:
`None` when conversions is 0, otherwise `spend / conversions` quantized to
4 places. -/
def calculate_cpa (spend : ℚ) (conversions : ℤ) : Option ℚ :=
  if conversions = 0 then none
  else some (quantize (spend / (conversions : ℚ)) 4)

/-- `MetricsCalculator.calculate_roas`:
`None` when spend is 0, otherwise `revenue / spend` quantized to 4 places. -/
def calculate_roas (revenue spend : ℚ) : Option ℚ :=
  if spend = 0 then none
  else some (quantize (revenue / spend) 4)

/-- Result record of `MetricsCalculator.calculate_all_metrics`. -/
structure AllMetrics where
  spend : ℚ
  ctr : Option ℚ
  cpc : Option ℚ
  cpa : Option ℚ
  roas : Option ℚ
deriving DecidableEq

/-- `MetricsCalculator.calculate_all_metrics`. -/
def calculate_all_metrics (impressions clicks conversions : ℤ)
    (revenue cpm : ℚ) : AllMetrics :=
  let spend := calculate_spend impressions cpm
  { spend := spend
    ctr := calculate_ctr impressions clicks
    cpc := calculate_cpc spend clicks
    cpa := calculate_cpa spend conversions
    roas := calculate_roas revenue spend }

end MetricsCalculator

/-! ## Python dynamic values and primitive parsing

Raw CSV records map column names to string values; absent keys fall back to
the Python defaults used at each call site (`0`, `''`, `None`).  `PyVal`
models the dynamic values flowing through the transformer. -/

/-- A dynamic Python value as used by the transformer (`str`, `int`,
`float`, `None`).  Binary floats are modelled as exact rationals; none of
the claims depends on float rounding. -/
inductive PyVal where
  | str (s : String)
  | int (n : ℤ)
  | float (q : ℚ)
  | none
deriving DecidableEq

/-- Python exceptions relevant to the embedded code.  `invalidOperation`
(`decimal.InvalidOperation`) derives from `ArithmeticError`, not from
`ValueError`/`TypeError`. -/
inductive PyExc where
  | valueError
  | typeError
  | invalidOperation
  | validationError (msg : String)
deriving DecidableEq

/-- Decidable equality for `Except` results. -/
instance {ε α : Type} [DecidableEq ε] [DecidableEq α] : DecidableEq (Except ε α) :=
  fun a b =>
    match a, b with
    | .ok x, .ok y => decidable_of_iff (x = y) (by simp)
    | .error e, .error e' => decidable_of_iff (e = e') (by simp)
    | .ok _, .error _ => isFalse (by simp)
    | .error _, .ok _ => isFalse (by simp)

/-- Python `str.strip` whitespace (ASCII subset; the data never contains
other unicode whitespace). -/
def isPySpace (c : Char) : Bool :=
  c = ' ' ∨ c = '\t' ∨ c = '\n' ∨ c = '\r' ∨ c = '\x0b' ∨ c = '\x0c'

/-- `str.strip()` on a character list. -/
def pyStripList (cs : List Char) : List Char :=
  ((cs.dropWhile isPySpace).reverse.dropWhile isPySpace).reverse

/-- `str.strip()`. -/
def pyStrip (s : String) : String := String.mk (pyStripList s.toList)

/-- Replace each maximal run of whitespace by a single space
(`re.sub(r'\s+', ' ', ·)`). -/
def collapseWs : List Char → List Char
  | [] => []
  | [c] => if isPySpace c then [' '] else [c]
  | c1 :: c2 :: rest =>
    if isPySpace c1 ∧ isPySpace c2 then collapseWs (c2 :: rest)
    else (if isPySpace c1 then ' ' else c1) :: collapseWs (c2 :: rest)

/-- Numeric value of a digit list (most significant first). -/
def digitsToNat (ds : List Char) : ℕ :=
  ds.foldl (fun a c => a * 10 + (c.toNat - 48)) 0

/-- Leading optional sign; returns (isNegative, rest). -/
def parseSign : List Char → Bool × List Char
  | '-' :: rest => (true, rest)
  | '+' :: rest => (false, rest)
  | cs => (false, cs)

/-- Exponent tail of a numeric literal: `[sign] digits`, consuming all
input. -/
def parseExpTail (cs : List Char) : Option ℤ :=
  let (neg, cs1) := parseSign cs
  let ds := cs1.takeWhile Char.isDigit
  let rest := cs1.dropWhile Char.isDigit
  if ds = [] ∨ rest ≠ [] then Option.none
  else Option.some (if neg then -(digitsToNat ds : ℤ) else (digitsToNat ds : ℤ))

/-- Core numeric-literal grammar shared by CPython's `float()` and
`Decimal()` constructors: `[sign] (digits [. digits] | . digits)
[(e|E) [sign] digits]`, matching the whole input.  The special values
(`inf`, `nan`) are outside the model: they are not representable in `ℚ`
and occur in none of the data handled by the claims. -/
def numCore (cs : List Char) : Option ℚ :=
  let (neg, cs1) := parseSign cs
  let ip := cs1.takeWhile Char.isDigit
  let cs2 := cs1.dropWhile Char.isDigit
  let (fp, cs3) :=
    match cs2 with
    | '.' :: rest => (rest.takeWhile Char.isDigit, rest.dropWhile Char.isDigit)
    | _ => ([], cs2)
  if ip = [] ∧ fp = [] then Option.none
  else
    let mant : ℚ := (digitsToNat (ip ++ fp) : ℚ) / (10 : ℚ) ^ fp.length
    let signed := if neg then -mant else mant
    match cs3 with
    | [] => Option.some signed
    | 'e' :: rest => (parseExpTail rest).map (fun e => signed * (10 : ℚ) ^ e)
    | 'E' :: rest => (parseExpTail rest).map (fun e => signed * (10 : ℚ) ^ e)
    | _ => Option.none

/-- CPython `Decimal(str)`: strip surrounding whitespace, drop `_`
separators, then match the numeric grammar; `Option.none` models the
`decimal.InvalidOperation` raised on a failed match. -/
def decFromStr (s : String) : Option ℚ :=
  numCore ((pyStripList s.toList).filter (fun c => c ≠ '_'))

/-- CPython `float(str)` for finite literals (same core grammar). -/
def floatOfStr (s : String) : Option ℚ :=
  numCore ((pyStripList s.toList).filter (fun c => c ≠ '_'))

/-- Python `int()` truncation toward zero of a (modelled) float. -/
def truncToInt (q : ℚ) : ℤ :=
  if q < 0 then -(ratFloor (-q)) else ratFloor q

/-! ## TransformerService primitive parsers -/

namespace TransformerService

/-- `TransformerService.normalize_string`: trim and collapse internal
whitespace; falsy input gives `""`. -/
def normalize_string (s : String) : String :=
  if s = "" then ""
  else String.mk (collapseWs (pyStripList s.toList))

/-- `TransformerService.parse_number`: default on `None`/`''`; strings get
commas stripped and are parsed with `int(float(·))`; a parse failure
(`ValueError`) is caught and yields the default. -/
def parse_number (value : PyVal) (default : ℤ) : ℤ :=
  match value with
  | .none => default
  | .str s =>
    if s = "" then default
    else
      match floatOfStr (pyStrip (String.mk (s.toList.filter (fun c => c ≠ ',')))) with
      | Option.some q => truncToInt q
      | Option.none => default
  | .int n => n
  | .float q => truncToInt q

/-- The `try` block of `TransformerService.parse_decimal`: special zero
forms, currency cleaning, then `Decimal(str(value))`, whose failure raises
`decimal.InvalidOperation`. -/
def parse_decimal_try (value : PyVal) : Except PyExc ℚ :=
  match value with
  | .str s =>
    let s1 := pyStrip s
    if s1 = "-" ∨ s1 = "$ -" ∨ s1 = "$-" then .ok 0
    else
      let s2 := pyStrip (String.mk (s1.toList.filter (fun c => c ≠ ',' ∧ c ≠ '$')))
      if s2 = "" ∨ s2 = "-" then .ok 0
      else
        match decFromStr s2 with
        | Option.some q => .ok q
        | Option.none => .error .invalidOperation
  | .int n => .ok (n : ℚ)
  | .float q => .ok q
  | .none => .error .invalidOperation

/-- `TransformerService.parse_decimal`: `None`/`''` give the default; the
`except (ValueError, TypeError)` handler returns the default, but it does
not catch `decimal.InvalidOperation`, which therefore propagates. -/
def parse_decimal (value : PyVal) (default : ℚ) : Except PyExc ℚ :=
  if value = PyVal.none ∨ value = PyVal.str "" then .ok default
  else
    match parse_decimal_try value with
    | .error e =>
      if e = PyExc.valueError ∨ e = PyExc.typeError then .ok default else .error e
    | .ok q => .ok q

end TransformerService

/-! ## Calendar dates -/

/-- A calendar date (`datetime.date`). -/
structure Date where
  y : ℕ
  m : ℕ
  d : ℕ
deriving DecidableEq

/-- Gregorian leap year. -/
def isLeap (y : ℕ) : Bool := y % 4 = 0 ∧ (y % 100 ≠ 0 ∨ y % 400 = 0)

/-- Days in a month. -/
def daysInMonth (y m : ℕ) : ℕ :=
  if m = 2 then (if isLeap y then 29 else 28)
  else if m = 4 ∨ m = 6 ∨ m = 9 ∨ m = 11 then 30
  else 31

/-- Date comparison (lexicographic `≤`). -/
def dle (a b : Date) : Bool :=
  a.y < b.y ∨ (a.y = b.y ∧ (a.m < b.m ∨ (a.m = b.m ∧ a.d ≤ b.d)))

/-- The next calendar day. -/
def succDay (dt : Date) : Date :=
  if dt.d < daysInMonth dt.y dt.m then ⟨dt.y, dt.m, dt.d + 1⟩
  else if dt.m < 12 then ⟨dt.y, dt.m + 1, 1⟩
  else ⟨dt.y + 1, 1, 1⟩

/-- The previous calendar day. -/
def predDay (dt : Date) : Date :=
  if dt.d = 1 then
    (if dt.m = 1 then ⟨dt.y - 1, 12, 31⟩
     else ⟨dt.y, dt.m - 1, daysInMonth dt.y (dt.m - 1)⟩)
  else ⟨dt.y, dt.m, dt.d - 1⟩

/-- `date + timedelta(days := n)`. -/
def addDays (dt : Date) : ℕ → Date
  | 0 => dt
  | n + 1 => succDay (addDays dt n)

/-- Split a character list on a separator character (like `str.split(sep)`
for a single-character separator). -/
def splitOnChar (c : Char) : List Char → List (List Char)
  | [] => [[]]
  | x :: rest =>
    match splitOnChar c rest with
    | [] => [[x]]
    | g :: gs => if x = c then [] :: g :: gs else (x :: g) :: gs

/-- `strptime` `%Y` token: exactly four digits. -/
def tokYear (t : List Char) : Option ℕ :=
  if t.length = 4 ∧ t.all Char.isDigit then Option.some (digitsToNat t)
  else Option.none

/-- `strptime` `%m`/`%d` token: one or two digits, value between 1 and
`hi`. -/
def tokMD (t : List Char) (hi : ℕ) : Option ℕ :=
  if (t.length = 1 ∨ t.length = 2) ∧ t.all Char.isDigit then
    let v := digitsToNat t
    if 1 ≤ v ∧ v ≤ hi then Option.some v else Option.none
  else Option.none

/-- Constructor validation of `datetime.date`. -/
def mkValidDate (y m d : ℕ) : Option Date :=
  if 1 ≤ y ∧ d ≤ daysInMonth y m then Option.some ⟨y, m, d⟩ else Option.none

/-- One `strptime` attempt in year-month-day order. -/
def tryYMD (s : String) (sep : Char) : Option Date :=
  match splitOnChar sep s.toList with
  | [ys, ms, ds] => do
    let y ← tokYear ys
    let m ← tokMD ms 12
    let d ← tokMD ds 31
    mkValidDate y m d
  | _ => Option.none

/-- One `strptime` attempt in month/day/year order. -/
def tryMDY (s : String) : Option Date :=
  match splitOnChar '/' s.toList with
  | [ms, ds, ys] => do
    let m ← tokMD ms 12
    let d ← tokMD ds 31
    let y ← tokYear ys
    mkValidDate y m d
  | _ => Option.none

/-- One `strptime` attempt in day/month/year order. -/
def tryDMY (s : String) : Option Date :=
  match splitOnChar '/' s.toList with
  | [ds, ms, ys] => do
    let d ← tokMD ds 31
    let m ← tokMD ms 12
    let y ← tokYear ys
    mkValidDate y m d
  | _ => Option.none

namespace TransformerService

/-- `TransformerService.parse_date`: tries the formats `%Y-%m-%d`,
`%m/%d/%Y`, `%d/%m/%Y`, `%Y/%m/%d` in order; a non-string, non-date input
raises `ValidationError`. -/
def parse_date (value : PyVal) : Except PyExc Date :=
  match value with
  | .str s =>
    match tryYMD s '-' <|> tryMDY s <|> tryDMY s <|> tryYMD s '/' with
    | Option.some dt => .ok dt
    | Option.none => .error (.validationError ("Unable to parse date: " ++ s))
  | _ => .error (.validationError "Invalid date type")

end TransformerService

/-! ## Normalized records and the transformer -/

/-- A raw CSV record: column name to string value (as produced by the
Surfside CSV reader). -/
def RawRecord := List (String × String)

instance : DecidableEq RawRecord := fun a b => List.hasDecEq a b

/-- `raw_record.get(key, default)` with a string default. -/
def rawGetS (r : RawRecord) (k : String) (dflt : String) : String :=
  match r.find? (fun p => decide (p.1 = k)) with
  | Option.some p => p.2
  | Option.none => dflt

/-- `raw_record.get(key, default)` as a dynamic value. -/
def rawGetV (r : RawRecord) (k : String) (dflt : PyVal) : PyVal :=
  match r.find? (fun p => decide (p.1 = k)) with
  | Option.some p => PyVal.str p.2
  | Option.none => dflt

/-- Python `a or b` for strings (empty string is falsy). -/
def orDefault (s dflt : String) : String := if s = "" then dflt else s

/-- A record in the normalized standard format produced by the
transformer. -/
structure NRec where
  date : Date
  campaign_name : String
  strategy_name : String
  placement_name : String
  creative_name : String
  impressions : ℤ
  clicks : ℤ
  conversions : ℤ
  conversion_revenue : ℚ
  ctr : Option ℚ
  region_name : Option String := Option.none
deriving DecidableEq

/-- An entry of the invalid-records list built by `validate_and_transform`. -/
structure InvalidRecord where
  record_index : ℕ
  error : String
  raw_data : RawRecord
deriving DecidableEq

namespace TransformerService

/-- `TransformerService.transform_surfside_record`: Surfside column
mapping; `Strategy Name` feeds both campaign and strategy; empty names
default to the `General …` placeholders; the pre-computed `ctr` is a
Python float, modelled as an exact rational. -/
def transform_surfside_record (r : RawRecord) : Except PyExc NRec := do
  let strategy_name := normalize_string (rawGetS r "Strategy Name" "")
  let impressions := parse_number (rawGetV r "Impressions" (.int 0)) 0
  let clicks := parse_number (rawGetV r "Clicks" (.int 0)) 0
  let ctr : ℚ := if 0 < impressions then (clicks : ℚ) / (impressions : ℚ) * 100 else 0
  let d ← parse_date (rawGetV r "Event Date" .none)
  let rev ← parse_decimal (rawGetV r "Conversion Value" (.int 0)) 0
  pure
    { date := d
      campaign_name := orDefault strategy_name "Surfside Campaign"
      strategy_name := orDefault strategy_name "General Strategy"
      placement_name :=
        orDefault (normalize_string (rawGetS r "Placement Name" "")) "General Placement"
      creative_name :=
        orDefault (normalize_string (rawGetS r "Creative Name" "")) "General Creative"
      impressions := impressions
      clicks := clicks
      conversions := parse_number (rawGetV r "Conversions" (.int 0)) 0
      conversion_revenue := rev
      ctr := Option.some ctr }

/-- The required-field check of `TransformerService.validate_record` on a
transformed record (`date` is a parsed date and can no longer be missing;
a name field is missing when it is the empty string). -/
def missing_fields (rec : NRec) : List String :=
  (if rec.campaign_name = "" then ["campaign_name"] else []) ++
  (if rec.strategy_name = "" then ["strategy_name"] else []) ++
  (if rec.placement_name = "" then ["placement_name"] else []) ++
  (if rec.creative_name = "" then ["creative_name"] else [])

/-- `TransformerService.validate_record` restricted to the required fields
used by the pipeline. -/
def validate_record (rec : NRec) : Bool × String :=
  match missing_fields rec with
  | [] => (true, "")
  | ms => (false, "Missing required fields: " ++ String.intercalate ", " ms)

/-- `TransformerService.validate_and_transform` for source `'surfside'`:
transform each record, validate the required fields, and split the batch
into valid and invalid records (an exception during transformation makes
the record invalid). -/
def validate_and_transform (records : List RawRecord) :
    List NRec × List InvalidRecord :=
  let step := fun (acc : List NRec × List InvalidRecord × ℕ) (raw : RawRecord) =>
    let (valid, invalid, idx) := acc
    match transform_surfside_record raw with
    | .ok rec =>
      match validate_record rec with
      | (true, _) => (valid ++ [rec], invalid, idx + 1)
      | (false, msg) =>
        (valid, invalid ++ [{ record_index := idx, error := msg, raw_data := raw }], idx + 1)
    | .error e =>
      let msg :=
        match e with
        | .validationError m => m
        | _ => "transform error"
      (valid, invalid ++ [{ record_index := idx, error := msg, raw_data := raw }], idx + 1)
  let out := records.foldl step ([], [], 0)
  (out.1, out.2.1)

/-- The grouping key of `TransformerService.aggregate_records`
(`str(date)` is injective on dates, so the date itself is used). -/
def aggKey (r : NRec) : Date × String × String × String × String :=
  (r.date, r.campaign_name, r.strategy_name, r.placement_name, r.creative_name)

/-- Fold one record into the per-key accumulator of `aggregate_records`:
counts and revenue are added; the dimension fields are (re)written and
`ctr` is reset to `None`. -/
def aggInsert (acc : List NRec) (r : NRec) : List NRec :=
  match acc with
  | [] =>
    [{ r with ctr := Option.none, region_name := Option.none }]
  | a :: rest =>
    if aggKey a = aggKey r then
      { a with
        impressions := a.impressions + r.impressions
        clicks := a.clicks + r.clicks
        conversions := a.conversions + r.conversions
        conversion_revenue := a.conversion_revenue + r.conversion_revenue
        date := r.date
        campaign_name := r.campaign_name
        strategy_name := r.strategy_name
        placement_name := r.placement_name
        creative_name := r.creative_name
        ctr := Option.none } :: rest
    else a :: aggInsert rest r

/-- `TransformerService.aggregate_records`: group the batch by
(date, campaign, strategy, placement, creative), summing counts and
revenue; output order is first-occurrence order of the keys, matching the
Python insertion-ordered dict. -/
def aggregate_records (records : List NRec) : List NRec :=
  records.foldl aggInsert []

/-- The summed numeric fields of a normalized record. -/
def counts (r : NRec) : ℤ × ℤ × ℤ × ℚ :=
  (r.impressions, r.clicks, r.conversions, r.conversion_revenue)

/-- Number of records carrying a given aggregation key. -/
def keyCount (k : Date × String × String × String × String) (rs : List NRec) : ℕ :=
  rs.countP (fun r => decide (aggKey r = k))

/-- Componentwise sums of the records carrying a given aggregation key. -/
def keySums (k : Date × String × String × String × String) (rs : List NRec) :
    ℤ × ℤ × ℤ × ℚ :=
  ((rs.filter (fun r => decide (aggKey r = k))).map counts).sum

/-- Componentwise grand totals of a record list. -/
def totalSums (rs : List NRec) : ℤ × ℤ × ℤ × ℚ := (rs.map counts).sum

end TransformerService

/-! ## Data model

Entity ids are modelled as naturals drawn from a `nextId` counter in the
database state (the code uses client-side `uuid4`; only freshness
matters).  Database writes go through the shared SQLAlchemy session;
constraint enforcement by the storage engine is an external collaborator
and is not modelled. -/

/-- `campaigns` row. -/
structure Campaign where
  id : ℕ
  client_id : ℕ
  name : String
  source : String
deriving DecidableEq

/-- `strategies` row. -/
structure Strategy where
  id : ℕ
  campaign_id : ℕ
  name : String
deriving DecidableEq

/-- `placements` row. -/
structure Placement where
  id : ℕ
  strategy_id : ℕ
  name : String
deriving DecidableEq

/-- `creatives` row (owned by either a placement or a campaign). -/
structure Creative where
  id : ℕ
  placement_id : Option ℕ
  campaign_id : Option ℕ
  name : String
deriving DecidableEq

/-- `regions` row (flat namespace). -/
structure Region where
  id : ℕ
  name : String
deriving DecidableEq

/-- `daily_metrics` row.  The derived columns are declared NOT NULL in the
schema but the loader assigns the calculator's optional results to them;
the session-level model stores what the loader wrote. -/
structure Fact where
  id : ℕ
  client_id : ℕ
  date : Date
  campaign_id : Option ℕ
  strategy_id : Option ℕ
  placement_id : Option ℕ
  creative_id : ℕ
  region_id : Option ℕ
  source : String
  impressions : ℤ
  clicks : ℤ
  conversions : ℤ
  conversion_revenue : ℚ
  ctr : Option ℚ
  spend : ℚ
  cpc : Option ℚ
  cpa : Option ℚ
  roas : Option ℚ
deriving DecidableEq

/-- `client_settings` row used by the CPM lookup. -/
structure CpmSetting where
  client_id : ℕ
  source : String
  cpm : ℚ
  effective_date : ℤ
deriving DecidableEq

/-- Snapshot entry of the top-N structures stored on a summary row
(`int(conversions)`, `float(revenue)`, `float(spend)` modelled exactly). -/
structure TopEntry where
  name : String
  conversions : ℤ
  revenue : ℚ
  spend : ℚ
deriving DecidableEq

/-- The `by_conversions` / `by_revenue` snapshot pair. -/
structure TopData where
  by_conversions : List TopEntry
  by_revenue : List TopEntry
deriving DecidableEq

/-- `weekly_summaries` row. -/
structure WeeklySummary where
  id : ℕ
  client_id : ℕ
  week_start : Date
  week_end : Date
  impressions : ℤ
  clicks : ℤ
  conversions : ℤ
  revenue : ℚ
  spend : ℚ
  ctr : Option ℚ
  cpc : Option ℚ
  cpa : Option ℚ
  roas : Option ℚ
  top_campaigns : TopData
  top_creatives : TopData
deriving DecidableEq

/-- `monthly_summaries` row. -/
structure MonthlySummary where
  id : ℕ
  client_id : ℕ
  month_start : Date
  month_end : Date
  impressions : ℤ
  clicks : ℤ
  conversions : ℤ
  revenue : ℚ
  spend : ℚ
  ctr : Option ℚ
  cpc : Option ℚ
  cpa : Option ℚ
  roas : Option ℚ
  top_campaigns : TopData
  top_creatives : TopData
deriving DecidableEq

/-- The database state seen through the session.  `now` is the current
time used by the CPM lookup (`datetime.utcnow()`); `nextId` supplies
fresh entity ids. -/
structure DB where
  campaigns : List Campaign
  strategies : List Strategy
  placements : List Placement
  creatives : List Creative
  regions : List Region
  facts : List Fact
  cpms : List CpmSetting
  weekly : List WeeklySummary
  monthly : List MonthlySummary
  staging : List NRec
  now : ℤ
  nextId : ℕ
deriving DecidableEq

/-- Replace the first list element satisfying `p` by `f` of it. -/
def updateFirst (p : α → Bool) (f : α → α) : List α → List α
  | [] => []
  | x :: xs => if p x then f x :: xs else x :: updateFirst p f xs

/-- The session fields that dimension resolution never touches. -/
def CoreFrame (db' db : DB) : Prop :=
  db'.facts = db.facts ∧ db'.staging = db.staging ∧ db'.cpms = db.cpms ∧ db'.now = db.now

/-- The dimension tables only grow, by appends at the end, under
resolution and loading; facts, staging and counters may change freely. -/
def DimExt (db' db : DB) : Prop :=
  (∃ e, db'.campaigns = db.campaigns ++ e) ∧
  (∃ e, db'.strategies = db.strategies ++ e) ∧
  (∃ e, db'.placements = db.placements ++ e) ∧
  (∃ e, db'.creatives = db.creatives ++ e) ∧
  (∃ e, db'.regions = db.regions ++ e)

/-! ## CampaignService and ClientService -/

namespace CampaignService

/-- `CampaignService.find_or_create_region`: look up by name (flat
namespace), create on miss. -/
def find_or_create_region (db : DB) (region_name : String) : Region × DB :=
  match db.regions.find? (fun rg => decide (rg.name = region_name)) with
  | Option.some rg => (rg, db)
  | Option.none =>
    let rg : Region := { id := db.nextId, name := region_name }
    (rg, { db with regions := db.regions ++ [rg], nextId := db.nextId + 1 })

/-- `CampaignService.find_or_create_campaign`: look up by
(client, name, source), create on miss. -/
def find_or_create_campaign (db : DB) (client_id : ℕ) (campaign_name : String)
    (source : String) : Campaign × DB :=
  match db.campaigns.find?
      (fun c => decide (c.client_id = client_id) && decide (c.name = campaign_name) &&
        decide (c.source = source)) with
  | Option.some c => (c, db)
  | Option.none =>
    let c : Campaign :=
      { id := db.nextId, client_id := client_id, name := campaign_name, source := source }
    (c, { db with campaigns := db.campaigns ++ [c], nextId := db.nextId + 1 })

/-- `CampaignService.find_or_create_strategy`: look up by
(campaign, name), create on miss. -/
def find_or_create_strategy (db : DB) (campaign_id : ℕ) (strategy_name : String) :
    Strategy × DB :=
  match db.strategies.find?
      (fun s => decide (s.campaign_id = campaign_id) && decide (s.name = strategy_name)) with
  | Option.some s => (s, db)
  | Option.none =>
    let s : Strategy := { id := db.nextId, campaign_id := campaign_id, name := strategy_name }
    (s, { db with strategies := db.strategies ++ [s], nextId := db.nextId + 1 })

/-- `CampaignService.find_or_create_placement`: look up by
(strategy, name), create on miss. -/
def find_or_create_placement (db : DB) (strategy_id : ℕ) (placement_name : String) :
    Placement × DB :=
  match db.placements.find?
      (fun p => decide (p.strategy_id = strategy_id) && decide (p.name = placement_name)) with
  | Option.some p => (p, db)
  | Option.none =>
    let p : Placement := { id := db.nextId, strategy_id := strategy_id, name := placement_name }
    (p, { db with placements := db.placements ++ [p], nextId := db.nextId + 1 })

/-- `CampaignService.find_or_create_creative`: the query filters by name
and by whichever of placement/campaign is supplied; raises
`ValidationError` when neither is (UUIDs are always truthy, so the
`if placement_id:` / `if campaign_id:` guards test presence). -/
def find_or_create_creative (db : DB) (creative_name : String)
    (placement_id campaign_id : Option ℕ) : Except PyExc (Creative × DB) :=
  if placement_id = Option.none ∧ campaign_id = Option.none then
    .error (.validationError "Creative must be linked to either a Placement or a Campaign")
  else
    match db.creatives.find?
        (fun cr => decide (cr.name = creative_name) &&
          (decide (placement_id = Option.none) || decide (cr.placement_id = placement_id)) &&
          (decide (campaign_id = Option.none) || decide (cr.campaign_id = campaign_id))) with
    | Option.some cr => .ok (cr, db)
    | Option.none =>
      let cr : Creative :=
        { id := db.nextId, placement_id := placement_id, campaign_id := campaign_id,
          name := creative_name }
      .ok (cr, { db with creatives := db.creatives ++ [cr], nextId := db.nextId + 1 })

/-- Python truthiness of an optional string argument. -/
def truthy : Option String → Bool
  | Option.some s => s ≠ ""
  | Option.none => false

/-- The entity tuple returned by `create_hierarchy`. -/
structure Hier where
  campaign : Option Campaign
  strategy : Option Strategy
  placement : Option Placement
  creative : Creative
  region : Option Region
deriving DecidableEq

/-- `CampaignService.create_hierarchy`: source-specific hierarchy
assembly.  An exception abandons the session changes (the caller rolls
back), so the error carries no database state. -/
def create_hierarchy (db : DB) (client_id : ℕ) (source : String)
    (creative_name : String)
    (campaign_name strategy_name placement_name region_name : Option String) :
    Except PyExc (Hier × DB) :=
  let (region, db) :=
    match region_name with
    | Option.some rn =>
      if rn ≠ "" then
        let (rg, db') := find_or_create_region db rn
        (Option.some rg, db')
      else (Option.none, db)
    | Option.none => (Option.none, db)
  if source = "facebook" then
    if ¬ truthy campaign_name then
      .error (.validationError "Facebook data requires campaign_name")
    else
      let (camp, db) := find_or_create_campaign db client_id (campaign_name.getD "") source
      match find_or_create_creative db creative_name Option.none (Option.some camp.id) with
      | .error e => .error e
      | .ok (cr, db) =>
        .ok ({ campaign := Option.some camp, strategy := Option.none,
               placement := Option.none, creative := cr, region := region }, db)
  else if source = "surfside" then
    let sname := if ¬ truthy strategy_name then "Unknown Strategy" else strategy_name.getD ""
    let pname := if ¬ truthy placement_name then "Unknown Placement" else placement_name.getD ""
    let (dummy, db) := find_or_create_campaign db client_id "Surfside General" source
    let (strat, db) := find_or_create_strategy db dummy.id sname
    let (plc, db) := find_or_create_placement db strat.id pname
    match find_or_create_creative db creative_name (Option.some plc.id) Option.none with
    | .error e => .error e
    | .ok (cr, db) =>
      .ok ({ campaign := Option.none, strategy := Option.some strat,
             placement := Option.some plc, creative := cr, region := region }, db)
  else
    if truthy campaign_name then
      let (camp, db) := find_or_create_campaign db client_id (campaign_name.getD "") source
      if truthy strategy_name then
        let (strat, db) := find_or_create_strategy db camp.id (strategy_name.getD "")
        if truthy placement_name then
          let (plc, db) := find_or_create_placement db strat.id (placement_name.getD "")
          match find_or_create_creative db creative_name (Option.some plc.id) Option.none with
          | .error e => .error e
          | .ok (cr, db) =>
            .ok ({ campaign := Option.some camp, strategy := Option.some strat,
                   placement := Option.some plc, creative := cr, region := region }, db)
        else .error (.validationError ("Could not construct hierarchy for source " ++ source))
      else .error (.validationError ("Could not construct hierarchy for source " ++ source))
    else .error (.validationError ("Could not construct hierarchy for source " ++ source))

end CampaignService

namespace ClientService

/-- `ClientService.get_current_cpm`: among the settings for the client and
source effective no later than now, pick the one with the latest
effective date (the database resolves ties arbitrarily; the model keeps
the earliest-listed maximal entry). -/
def get_current_cpm (db : DB) (client_id : ℕ) (source : String) : Option CpmSetting :=
  (db.cpms.filter
      (fun s => decide (s.client_id = client_id) && decide (s.source = source) &&
        decide (s.effective_date ≤ db.now))).foldl
    (fun best s =>
      match best with
      | Option.none => Option.some s
      | Option.some b => if b.effective_date < s.effective_date then Option.some s else Option.some b)
    Option.none

end ClientService

/-! ## LoaderService -/

namespace LoaderService

/-- The duplicate-detection filter of `LoaderService.load_daily_metrics`:
client, date, creative and source always; campaign/strategy/placement/
region filtered on their id when the entity was resolved and on `IS NULL`
otherwise. -/
def factKeyPred (client_id : ℕ) (date : Date) (creative_id : ℕ) (source : String)
    (campaign_id strategy_id placement_id region_id : Option ℕ) (f : Fact) : Bool :=
  decide (f.client_id = client_id) && decide (f.date = date) &&
    decide (f.creative_id = creative_id) && decide (f.source = source) &&
    decide (f.campaign_id = campaign_id) && decide (f.strategy_id = strategy_id) &&
    decide (f.placement_id = placement_id) && decide (f.region_id = region_id)

/-- The effective CPM used by the loader: the configured setting for the
client and source, or the documented `$17` default. -/
def cpmOf (db : DB) (client_id : ℕ) (source : String) : ℚ :=
  match ClientService.get_current_cpm db client_id source with
  | Option.some st => st.cpm
  | Option.none => 17

/-- The field overwrite applied to an existing fact row found by the
uniqueness key: every metric column is replaced, the key columns and the
row id are untouched. -/
def factUpdate (r : NRec) (m : MetricsCalculator.AllMetrics) : Fact → Fact :=
  fun f =>
    { f with
      impressions := r.impressions, clicks := r.clicks,
      conversions := r.conversions, conversion_revenue := r.conversion_revenue,
      ctr := m.ctr, spend := m.spend, cpc := m.cpc, cpa := m.cpa, roas := m.roas }

/-- The fact row inserted when no row matches the uniqueness key. -/
def mkFact (id client_id : ℕ) (r : NRec) (m : MetricsCalculator.AllMetrics)
    (campaign_id strategy_id placement_id region_id : Option ℕ) (creative_id : ℕ)
    (source : String) : Fact :=
  { id := id, client_id := client_id, date := r.date,
    campaign_id := campaign_id, strategy_id := strategy_id,
    placement_id := placement_id, creative_id := creative_id,
    region_id := region_id, source := source,
    impressions := r.impressions, clicks := r.clicks, conversions := r.conversions,
    conversion_revenue := r.conversion_revenue,
    ctr := m.ctr, spend := m.spend, cpc := m.cpc, cpa := m.cpa, roas := m.roas }

/-- The condition of the loader's verbose per-record print block:
`idx < 3 or (idx + 1) % 10 == 0`. -/
def verbosePrinted (idx : ℕ) : Bool :=
  decide (idx < 3) || decide ((idx + 1) % 10 = 0)

/-- Process one record of `load_daily_metrics`: CPM lookup (documented
default `$17` when no setting qualifies), hierarchy resolution, metric
calculation, the verbose print block, then update-or-insert of the fact
row keyed by the full uniqueness tuple.  The print block formats
`metrics['ctr']` with `:.6f` and `metrics['cpc']` with `:.4f`; when the
metric is `None` (zero impressions / zero clicks) this raises
`TypeError`, caught by the per-record handler (the CPA and ROAS lines
guard against `None`, these two do not). -/
def load_one (db : DB) (client_id idx : ℕ) (r : NRec) (source : String) : Except PyExc DB :=
  let cpm : ℚ := cpmOf db client_id source
  match CampaignService.create_hierarchy db client_id source r.creative_name
      (Option.some r.campaign_name) (Option.some r.strategy_name)
      (Option.some r.placement_name) r.region_name with
  | .error e => .error e
  | .ok (h, db1) =>
    let m := MetricsCalculator.calculate_all_metrics r.impressions r.clicks r.conversions
      r.conversion_revenue cpm
    if verbosePrinted idx &&
        (decide (m.ctr = Option.none) || decide (m.cpc = Option.none)) then
      .error .typeError
    else
    let cid := h.campaign.map Campaign.id
    let sid := h.strategy.map Strategy.id
    let pid := h.placement.map Placement.id
    let rid := h.region.map Region.id
    let p := factKeyPred client_id r.date h.creative.id source cid sid pid rid
    match db1.facts.find? p with
    | Option.some _ =>
      .ok { db1 with facts := updateFirst p (factUpdate r m) db1.facts }
    | Option.none =>
      let f : Fact := mkFact db1.nextId client_id r m cid sid pid rid h.creative.id source
      .ok { db1 with facts := db1.facts ++ [f], nextId := db1.nextId + 1 }

/-- Result of `load_daily_metrics`. -/
structure LoadResult where
  db : DB
  loaded : ℕ
  failed : ℕ
deriving DecidableEq

/-- One iteration of the loader's record loop (over `enumerate(records)`
pairs): a success advances the session state and the loaded count; a
failure increments the failed count and rolls the session back to its
last-commit state `base`. -/
def loadStep (base : DB) (client_id : ℕ) (source : String) (acc : LoadResult)
    (ir : ℕ × NRec) : LoadResult :=
  match load_one acc.db client_id ir.1 ir.2 source with
  | .ok db' => { acc with db := db', loaded := acc.loaded + 1 }
  | .error _ => { db := base, loaded := acc.loaded, failed := acc.failed + 1 }

/-- `LoaderService.load_daily_metrics`: iterates `enumerate(records)`;
per-record failures are counted and trigger `db.rollback()`, which resets
the session to its state at the last commit (`base`); the final commit
persists the session state. -/
def load_daily_metrics (db : DB) (base : DB) (client_id : ℕ) (records : List NRec)
    (source : String) : LoadResult :=
  records.enum.foldl (loadStep base client_id source) { db := db, loaded := 0, failed := 0 }

/-- The full fact uniqueness key: client, date, creative, source, and the
optional campaign/strategy/placement/region ids. -/
structure FactKey where
  client_id : ℕ
  date : Date
  creative_id : ℕ
  source : String
  campaign_id : Option ℕ
  strategy_id : Option ℕ
  placement_id : Option ℕ
  region_id : Option ℕ
deriving DecidableEq

/-- The uniqueness-key columns of a fact row. -/
def keyOfFact (f : Fact) : FactKey :=
  { client_id := f.client_id, date := f.date, creative_id := f.creative_id,
    source := f.source, campaign_id := f.campaign_id, strategy_id := f.strategy_id,
    placement_id := f.placement_id, region_id := f.region_id }

/-- Membership test of a fact row against a uniqueness key. -/
def keyPredOf (k : FactKey) : Fact → Bool := fun f => decide (keyOfFact f = k)

/-- The hierarchy a surfside record resolves to, read back without the
session changes (resolution is a pure lookup once the entities exist). -/
def resolveHier (db : DB) (client_id : ℕ) (r : NRec) : CampaignService.Hier :=
  match CampaignService.create_hierarchy db client_id "surfside" r.creative_name
      (Option.some r.campaign_name) (Option.some r.strategy_name)
      (Option.some r.placement_name) r.region_name with
  | .ok (h, _) => h
  | .error _ =>
    { campaign := Option.none, strategy := Option.none, placement := Option.none,
      creative := { id := 0, placement_id := Option.none, campaign_id := Option.none,
                    name := "" },
      region := Option.none }

/-- The uniqueness key a surfside record targets in a given session. -/
def factKeyT (db : DB) (client_id : ℕ) (r : NRec) : FactKey :=
  { client_id := client_id, date := r.date,
    creative_id := (resolveHier db client_id r).creative.id, source := "surfside",
    campaign_id := (resolveHier db client_id r).campaign.map Campaign.id,
    strategy_id := (resolveHier db client_id r).strategy.map Strategy.id,
    placement_id := (resolveHier db client_id r).placement.map Placement.id,
    region_id := (resolveHier db client_id r).region.map Region.id }

/-- The metric values a surfside record writes in a given session. -/
def metricsOf (db : DB) (client_id : ℕ) (r : NRec) : MetricsCalculator.AllMetrics :=
  MetricsCalculator.calculate_all_metrics r.impressions r.clicks r.conversions
    r.conversion_revenue (cpmOf db client_id "surfside")

/-- Relation between a fact table mid-way through a repeated load and the
already-committed fact table: key columns and row ids agree row by row,
and a row may differ (in its metric columns) only while a remaining
record of the batch targets the committed row and will overwrite it. -/
def FactsRel {α : Type} (resfacts : List Fact) (kT : α → FactKey) (rest : List α)
    (a b : Fact) : Prop :=
  keyOfFact a = keyOfFact b ∧ a.id = b.id ∧
    (a = b ∨ ∃ r' ∈ rest, resfacts.find? (keyPredOf (kT r')) = some b)

end LoaderService

/-! ## ETLOrchestrator -/

namespace ETLOrchestrator

/-- Outcome of one pipeline run: the fields of the ingestion log that the
run writes, plus the resulting database state. -/
structure RunResult where
  status : String
  message : String
  records_loaded : ℕ
  records_failed : ℕ
  db : DB
deriving DecidableEq

/-- `ETLOrchestrator.run_etl_pipeline` for source `'surfside'`:
validate+transform, aggregate same-key records, stage, load, then set the
ingestion-log status.  The `Step 4` immediate aggregation calls
`AggregatorService.aggregate_date_range`, which does not exist; the
resulting `AttributeError` is caught by the surrounding `try/except` and
only logged, so it never changes state.  An empty valid-record list raises
`No valid records to process`, caught by the outer handler, which marks
the run failed with all raw records counted as failed. -/
def run_etl_pipeline (db : DB) (client_id : ℕ) (raw_records : List RawRecord) : RunResult :=
  let vt := TransformerService.validate_and_transform raw_records
  let valid := vt.1
  let invalid := vt.2
  if valid = [] then
    { status := "failed", message := "No valid records to process",
      records_loaded := 0, records_failed := raw_records.length, db := db }
  else
    let agg := TransformerService.aggregate_records valid
    let db1 := { db with staging := db.staging ++ agg }
    let res := LoaderService.load_daily_metrics db1 db client_id agg "surfside"
    let total_failed := res.failed + invalid.length
    if res.failed = 0 ∧ invalid.length = 0 then
      { status := "success",
        message := "Successfully processed " ++ toString res.loaded ++ " records",
        records_loaded := res.loaded, records_failed := total_failed, db := res.db }
    else if 0 < res.loaded then
      { status := "partial",
        message := "Processed " ++ toString res.loaded ++ " records, " ++
          toString total_failed ++ " failed",
        records_loaded := res.loaded, records_failed := total_failed, db := res.db }
    else
      { status := "failed", message := "All records failed to process",
        records_loaded := res.loaded, records_failed := total_failed, db := res.db }

end ETLOrchestrator

/-! ## AggregatorService -/

namespace AggregatorService

/-- The fact rows of one client in a date period (the WHERE clause shared
by every aggregator query). -/
def factsInRange (db : DB) (client_id : ℕ) (lo hi : Date) : List Fact :=
  db.facts.filter (fun f => decide (f.client_id = client_id) && dle lo f.date && dle f.date hi)

/-- `SUM(impressions)` over a fact list. -/
def sumImpressions (fs : List Fact) : ℤ := (fs.map Fact.impressions).sum

/-- `SUM(clicks)` over a fact list. -/
def sumClicks (fs : List Fact) : ℤ := (fs.map Fact.clicks).sum

/-- `SUM(conversions)` over a fact list. -/
def sumConversions (fs : List Fact) : ℤ := (fs.map Fact.conversions).sum

/-- `SUM(conversion_revenue)` over a fact list. -/
def sumRevenue (fs : List Fact) : ℚ := (fs.map Fact.conversion_revenue).sum

/-- `SUM(spend)` over a fact list. -/
def sumSpend (fs : List Fact) : ℚ := (fs.map Fact.spend).sum

/-- The inner join of fact rows with the campaign table on
`DailyMetrics.campaign_id == Campaign.id`: fact rows with a NULL campaign
id never join. -/
def campaignJoin (db : DB) (fs : List Fact) : List (String × Fact) :=
  fs.filterMap (fun f =>
    match f.campaign_id with
    | Option.none => Option.none
    | Option.some cid =>
      (db.campaigns.find? (fun c => decide (c.id = cid))).map (fun c => (c.name, f)))

/-- The inner join of fact rows with the creative table. -/
def creativeJoin (db : DB) (fs : List Fact) : List (String × Fact) :=
  fs.filterMap (fun f =>
    (db.creatives.find? (fun c => decide (c.id = f.creative_id))).map (fun c => (c.name, f)))

/-- `GROUP BY name`: the distinct names in first-occurrence order. -/
def groupNames (rows : List (String × Fact)) : List String :=
  rows.foldl (fun acc nf => if acc.contains nf.1 then acc else acc ++ [nf.1]) []

/-- The aggregate row of one name group. -/
def groupEntry (rows : List (String × Fact)) (n : String) : TopEntry :=
  let g := (rows.filter (fun nf => decide (nf.1 = n))).map Prod.snd
  { name := n, conversions := sumConversions g, revenue := sumRevenue g,
    spend := sumSpend g }

/-- Insert into a list sorted by `le` (used to model `ORDER BY … DESC`;
ties are returned in an order the database leaves unspecified). -/
def insertSorted (le : α → α → Bool) (x : α) : List α → List α
  | [] => [x]
  | y :: ys => if le x y then x :: y :: ys else y :: insertSorted le x ys

/-- Sort by `le` (insertion sort). -/
def sortByB (le : α → α → Bool) : List α → List α
  | [] => []
  | x :: xs => insertSorted le x (sortByB le xs)

/-- One `ORDER BY sum DESC LIMIT 5` result over joined rows. -/
def top5By (rows : List (String × Fact)) (key : TopEntry → TopEntry → Bool) :
    List TopEntry :=
  ((sortByB key) ((groupNames rows).map (groupEntry rows))).take 5

/-- The top-campaigns snapshot of a period. -/
def top_campaigns_data (db : DB) (fs : List Fact) : TopData :=
  let rows := campaignJoin db fs
  { by_conversions := top5By rows (fun a b => decide (b.conversions ≤ a.conversions))
    by_revenue := top5By rows (fun a b => decide (b.revenue ≤ a.revenue)) }

/-- The top-creatives snapshot of a period. -/
def top_creatives_data (db : DB) (fs : List Fact) : TopData :=
  let rows := creativeJoin db fs
  { by_conversions := top5By rows (fun a b => decide (b.conversions ≤ a.conversions))
    by_revenue := top5By rows (fun a b => decide (b.revenue ≤ a.revenue)) }

/-- The upsert filter of `aggregate_week`: client and week_start. -/
def wpred (client_id : ℕ) (week_start : Date) : WeeklySummary → Bool :=
  fun w => decide (w.client_id = client_id) && decide (w.week_start = week_start)

/-- The field update applied to a found weekly summary row: every metric
field is overwritten with the freshly computed value (the identifying
fields are left as they are). -/
def weekSummaryOf (db : DB) (client_id : ℕ) (week_start : Date)
    (w0 : WeeklySummary) : WeeklySummary :=
  let fs := factsInRange db client_id week_start (addDays week_start 6)
  { w0 with
    impressions := sumImpressions fs, clicks := sumClicks fs,
    conversions := sumConversions fs, revenue := sumRevenue fs,
    spend := sumSpend fs,
    ctr := MetricsCalculator.calculate_ctr (sumImpressions fs) (sumClicks fs),
    cpc := MetricsCalculator.calculate_cpc (sumSpend fs) (sumClicks fs),
    cpa := MetricsCalculator.calculate_cpa (sumSpend fs) (sumConversions fs),
    roas := MetricsCalculator.calculate_roas (sumRevenue fs) (sumSpend fs),
    top_campaigns := top_campaigns_data db fs,
    top_creatives := top_creatives_data db fs }

/-- The weekly summary row created when none exists for the key. -/
def newWeekSummary (db : DB) (client_id : ℕ) (week_start : Date) : WeeklySummary :=
  let fs := factsInRange db client_id week_start (addDays week_start 6)
  { id := db.nextId, client_id := client_id, week_start := week_start,
    week_end := addDays week_start 6,
    impressions := sumImpressions fs, clicks := sumClicks fs,
    conversions := sumConversions fs, revenue := sumRevenue fs,
    spend := sumSpend fs,
    ctr := MetricsCalculator.calculate_ctr (sumImpressions fs) (sumClicks fs),
    cpc := MetricsCalculator.calculate_cpc (sumSpend fs) (sumClicks fs),
    cpa := MetricsCalculator.calculate_cpa (sumSpend fs) (sumConversions fs),
    roas := MetricsCalculator.calculate_roas (sumRevenue fs) (sumSpend fs),
    top_campaigns := top_campaigns_data db fs,
    top_creatives := top_creatives_data db fs }

/-- `AggregatorService.aggregate_week`: sum the client's fact rows of the
week; `if not result or not result.impressions` returns `None` (the SQL
`SUM` is NULL with zero rows and `0` is falsy); otherwise compute derived
ratios from the summed totals, build the top-5 snapshots and upsert the
summary row keyed on (client, week_start). -/
def aggregate_week (db : DB) (client_id : ℕ) (week_start : Date) :
    Option WeeklySummary × DB :=
  if sumImpressions (factsInRange db client_id week_start (addDays week_start 6)) = 0 then
    (Option.none, db)
  else
    match db.weekly.find? (wpred client_id week_start) with
    | Option.some w0 =>
      (Option.some (weekSummaryOf db client_id week_start w0),
       { db with weekly := updateFirst (wpred client_id week_start)
                             (fun _ => weekSummaryOf db client_id week_start w0)
                             db.weekly })
    | Option.none =>
      (Option.some (newWeekSummary db client_id week_start),
       { db with weekly := db.weekly ++ [newWeekSummary db client_id week_start],
                 nextId := db.nextId + 1 })

/-- The last day of month `year`/`month` as computed by the code
(`date(y, m+1, 1) - timedelta(days=1)`, December rolling into January). -/
def monthEndOf (year month : ℕ) : Date :=
  if month = 12 then predDay ⟨year + 1, 1, 1⟩ else predDay ⟨year, month + 1, 1⟩

/-- The upsert filter of `aggregate_month`: client and month_start. -/
def mpred (client_id : ℕ) (month_start : Date) : MonthlySummary → Bool :=
  fun w => decide (w.client_id = client_id) && decide (w.month_start = month_start)

/-- The field update applied to a found monthly summary row. -/
def monthSummaryOf (db : DB) (client_id : ℕ) (year month : ℕ)
    (w0 : MonthlySummary) : MonthlySummary :=
  let fs := factsInRange db client_id ⟨year, month, 1⟩ (monthEndOf year month)
  { w0 with
    impressions := sumImpressions fs, clicks := sumClicks fs,
    conversions := sumConversions fs, revenue := sumRevenue fs,
    spend := sumSpend fs,
    ctr := MetricsCalculator.calculate_ctr (sumImpressions fs) (sumClicks fs),
    cpc := MetricsCalculator.calculate_cpc (sumSpend fs) (sumClicks fs),
    cpa := MetricsCalculator.calculate_cpa (sumSpend fs) (sumConversions fs),
    roas := MetricsCalculator.calculate_roas (sumRevenue fs) (sumSpend fs),
    top_campaigns := top_campaigns_data db fs,
    top_creatives := top_creatives_data db fs }

/-- The monthly summary row created when none exists for the key. -/
def newMonthSummary (db : DB) (client_id : ℕ) (year month : ℕ) : MonthlySummary :=
  let fs := factsInRange db client_id ⟨year, month, 1⟩ (monthEndOf year month)
  { id := db.nextId, client_id := client_id, month_start := ⟨year, month, 1⟩,
    month_end := monthEndOf year month,
    impressions := sumImpressions fs, clicks := sumClicks fs,
    conversions := sumConversions fs, revenue := sumRevenue fs,
    spend := sumSpend fs,
    ctr := MetricsCalculator.calculate_ctr (sumImpressions fs) (sumClicks fs),
    cpc := MetricsCalculator.calculate_cpc (sumSpend fs) (sumClicks fs),
    cpa := MetricsCalculator.calculate_cpa (sumSpend fs) (sumConversions fs),
    roas := MetricsCalculator.calculate_roas (sumRevenue fs) (sumSpend fs),
    top_campaigns := top_campaigns_data db fs,
    top_creatives := top_creatives_data db fs }

/-- `AggregatorService.aggregate_month`: as `aggregate_week` for the
calendar month `year`/`month`, upserting the summary keyed on
(client, month_start). -/
def aggregate_month (db : DB) (client_id : ℕ) (year month : ℕ) :
    Option MonthlySummary × DB :=
  if sumImpressions (factsInRange db client_id ⟨year, month, 1⟩ (monthEndOf year month)) = 0 then
    (Option.none, db)
  else
    match db.monthly.find? (mpred client_id ⟨year, month, 1⟩) with
    | Option.some w0 =>
      (Option.some (monthSummaryOf db client_id year month w0),
       { db with monthly := updateFirst (mpred client_id ⟨year, month, 1⟩)
                              (fun _ => monthSummaryOf db client_id year month w0)
                              db.monthly })
    | Option.none =>
      (Option.some (newMonthSummary db client_id year month),
       { db with monthly := db.monthly ++ [newMonthSummary db client_id year month],
                 nextId := db.nextId + 1 })

end AggregatorService

/-! ## Recovery Monitor module bindings

`app/jobs/ingestion_monitor.py` binds names at import time.  The lists
below transcribe the `from … import …` statements of that module and the
module-level definitions of the modules it imports from; an imported name
absent from its source module raises `ImportError` when the monitor module
is loaded. -/

namespace IngestionMonitor

/-- The `from module import name` statements at the top of
`app/jobs/ingestion_monitor.py`. -/
def monitor_from_imports : List (String × String) :=
  [("app.core.database", "SessionLocal"),
   ("app.metrics.models", "IngestionLog"),
   ("app.facebook.models", "UploadedFile"),
   ("app.clients.models", "Client"),
   ("app.auth.models", "User"),
   ("app.core.logging", "logger"),
   ("app.facebook.upload_handler", "process_facebook_upload_background"),
   ("app.surfside.upload_handler", "process_surfside_upload_background")]

/-- The module-level names defined in `app/surfside/upload_handler.py`
(its imports aside): the single class `SurfsideUploadHandler`; no
`process_surfside_upload_background` function exists anywhere in the
repository. -/
def surfside_upload_handler_defs : List String :=
  ["SurfsideUploadHandler"]

/-- The module-level names defined in `app/facebook/upload_handler.py`
(its imports aside). -/
def facebook_upload_handler_defs : List String :=
  ["process_facebook_upload_background", "FacebookUploadHandler"]

end IngestionMonitor

/-! ## Theorems -/

open MetricsCalculator TransformerService CampaignService ClientService
open LoaderService ETLOrchestrator AggregatorService

/-! ### Shared helper lemmas about the embedded services -/

namespace TransformerService

theorem aggInsert_keyCount (acc : List NRec) (r : NRec)
    (k : Date × String × String × String × String) :
    keyCount k (aggInsert acc r) =
      if aggKey r = k then (if keyCount k acc = 0 then 1 else keyCount k acc)
      else keyCount k acc := by
  induction acc with
  | nil =>
    by_cases hk : aggKey r = k <;>
      simp [aggInsert, keyCount, List.countP_cons, aggKey, hk]
  | cons a rest ih =>
    by_cases ha : aggKey a = aggKey r
    · have hupd : aggKey ({ a with
          impressions := a.impressions + r.impressions,
          clicks := a.clicks + r.clicks,
          conversions := a.conversions + r.conversions,
          conversion_revenue := a.conversion_revenue + r.conversion_revenue,
          date := r.date, campaign_name := r.campaign_name,
          strategy_name := r.strategy_name, placement_name := r.placement_name,
          creative_name := r.creative_name, ctr := Option.none } : NRec) = aggKey r := by
        simp [aggKey]
      by_cases hk : aggKey r = k
      · have hak : aggKey a = k := by rw [ha, hk]
        simp [aggInsert, ha, keyCount, List.countP_cons, hupd, hk, hak]
      · have hak : ¬ aggKey a = k := by rw [ha]; exact hk
        simp [aggInsert, ha, keyCount, List.countP_cons, hupd, hk, hak]
    · by_cases hk : aggKey r = k
      · have hak : ¬ aggKey a = k := by rw [← hk]; exact ha
        simp only [aggInsert, if_neg ha, keyCount, List.countP_cons] at *
        simp [hak, ih, hk]
      · simp only [aggInsert, if_neg ha, keyCount, List.countP_cons] at *
        simp [ih, hk]

theorem counts_add (a r : NRec) :
    counts ({ a with
      impressions := a.impressions + r.impressions,
      clicks := a.clicks + r.clicks,
      conversions := a.conversions + r.conversions,
      conversion_revenue := a.conversion_revenue + r.conversion_revenue,
      date := r.date, campaign_name := r.campaign_name,
      strategy_name := r.strategy_name, placement_name := r.placement_name,
      creative_name := r.creative_name, ctr := Option.none } : NRec) =
      counts a + counts r := by
  simp [counts, Prod.mk_add_mk]

theorem aggInsert_keySums (acc : List NRec) (r : NRec)
    (k : Date × String × String × String × String) :
    keySums k (aggInsert acc r) =
      keySums k acc + (if aggKey r = k then counts r else 0) := by
  induction acc with
  | nil =>
    have hfr : aggKey ({ r with ctr := Option.none, region_name := Option.none } : NRec)
        = aggKey r := rfl
    have hcr : counts ({ r with ctr := Option.none, region_name := Option.none } : NRec)
        = counts r := rfl
    by_cases hk : aggKey r = k
    · simp [aggInsert, keySums, List.filter_cons, hfr, hk, hcr]
    · simp [aggInsert, keySums, List.filter_cons, hfr, hk, hcr]
  | cons a rest ih =>
    by_cases ha : aggKey a = aggKey r
    · have hupd : aggKey ({ a with
          impressions := a.impressions + r.impressions,
          clicks := a.clicks + r.clicks,
          conversions := a.conversions + r.conversions,
          conversion_revenue := a.conversion_revenue + r.conversion_revenue,
          date := r.date, campaign_name := r.campaign_name,
          strategy_name := r.strategy_name, placement_name := r.placement_name,
          creative_name := r.creative_name, ctr := Option.none } : NRec) = aggKey r := by
        simp [aggKey]
      by_cases hk : aggKey r = k
      · have hak : aggKey a = k := by rw [ha, hk]
        simp only [aggInsert, if_pos ha, keySums, List.filter_cons, hupd, hk, hak,
          decide_eq_true_eq, if_pos, List.map_cons, List.sum_cons, counts_add, if_true,
          decide_eq_true_iff]
        simp only [show keySums k rest
            = ((rest.filter (fun x => decide (aggKey x = k))).map counts).sum from rfl] at *
        abel
      · have hak : ¬ aggKey a = k := by rw [ha]; exact hk
        simp [aggInsert, ha, keySums, List.filter_cons, hupd, hk, hak]
    · have hstep : aggInsert (a :: rest) r = a :: aggInsert rest r := by
        simp [aggInsert, ha]
      rw [hstep]
      by_cases h2 : aggKey a = k
      · have e1 : keySums k (a :: aggInsert rest r)
            = counts a + keySums k (aggInsert rest r) := by
          simp [keySums, List.filter_cons, h2]
        have e2 : keySums k (a :: rest) = counts a + keySums k rest := by
          simp [keySums, List.filter_cons, h2]
        rw [e1, e2, ih]
        abel
      · have e1 : keySums k (a :: aggInsert rest r) = keySums k (aggInsert rest r) := by
          simp [keySums, List.filter_cons, h2]
        have e2 : keySums k (a :: rest) = keySums k rest := by
          simp [keySums, List.filter_cons, h2]
        rw [e1, e2, ih]

theorem aggInsert_totalSums (acc : List NRec) (r : NRec) :
    totalSums (aggInsert acc r) = totalSums acc + counts r := by
  induction acc with
  | nil =>
    have hcr : counts ({ r with ctr := Option.none, region_name := Option.none } : NRec)
        = counts r := rfl
    simp [aggInsert, totalSums, hcr]
  | cons a rest ih =>
    by_cases ha : aggKey a = aggKey r
    · simp only [aggInsert, if_pos ha, totalSums, List.map_cons, List.sum_cons, counts_add]
      abel
    · have hstep : aggInsert (a :: rest) r = a :: aggInsert rest r := by
        simp [aggInsert, ha]
      rw [hstep]
      simp only [totalSums, List.map_cons, List.sum_cons] at *
      rw [ih]
      abel

/-- `aggInsert` never empties its accumulator. -/
theorem aggInsert_ne_nil (acc : List NRec) (r : NRec) : aggInsert acc r ≠ [] := by
  cases acc with
  | nil => simp [aggInsert]
  | cons a rest =>
    by_cases ha : aggKey a = aggKey r <;> simp [aggInsert, ha]

theorem foldl_aggInsert_keyCount (rs : List NRec) :
    ∀ (acc : List NRec) (k : Date × String × String × String × String),
      keyCount k (rs.foldl aggInsert acc) =
        if keyCount k acc = 0 then min 1 (keyCount k rs) else keyCount k acc := by
  induction rs with
  | nil =>
    intro acc k
    show keyCount k acc = if keyCount k acc = 0 then min 1 (keyCount k []) else keyCount k acc
    by_cases hz : keyCount k acc = 0
    · rw [if_pos hz, hz]
      simp [keyCount]
    · rw [if_neg hz]
  | cons r rest ih =>
    intro acc k
    have hstep : ((r :: rest).foldl aggInsert acc) = rest.foldl aggInsert (aggInsert acc r) := rfl
    rw [hstep, ih, aggInsert_keyCount]
    have hcons : keyCount k (r :: rest) =
        keyCount k rest + (if aggKey r = k then 1 else 0) := by
      by_cases hk : aggKey r = k <;> simp [keyCount, List.countP_cons, hk]
    rw [hcons]
    split_ifs <;> simp_all

theorem foldl_aggInsert_keySums (rs : List NRec) :
    ∀ (acc : List NRec) (k : Date × String × String × String × String),
      keySums k (rs.foldl aggInsert acc) = keySums k acc + keySums k rs := by
  induction rs with
  | nil =>
    intro acc k
    simp [keySums]
  | cons r rest ih =>
    intro acc k
    have hstep : ((r :: rest).foldl aggInsert acc) = rest.foldl aggInsert (aggInsert acc r) := rfl
    rw [hstep, ih, aggInsert_keySums]
    have hcons : keySums k (r :: rest) =
        (if aggKey r = k then counts r else 0) + keySums k rest := by
      by_cases hk : aggKey r = k <;> simp [keySums, List.filter_cons, hk]
    rw [hcons]
    abel

theorem foldl_aggInsert_totalSums (rs : List NRec) :
    ∀ (acc : List NRec), totalSums (rs.foldl aggInsert acc) = totalSums acc + totalSums rs := by
  induction rs with
  | nil =>
    intro acc
    simp [totalSums]
  | cons r rest ih =>
    intro acc
    have hstep : ((r :: rest).foldl aggInsert acc) = rest.foldl aggInsert (aggInsert acc r) := rfl
    rw [hstep, ih, aggInsert_totalSums]
    have hcons : totalSums (r :: rest) = counts r + totalSums rest := by
      simp [totalSums]
    rw [hcons]
    abel

theorem foldl_aggInsert_ne_nil (rs : List NRec) :
    ∀ (acc : List NRec), acc ≠ [] → rs.foldl aggInsert acc ≠ [] := by
  induction rs with
  | nil => intro acc h; simpa using h
  | cons r rest ih =>
    intro acc h
    exact ih (aggInsert acc r) (aggInsert_ne_nil acc r)

theorem aggregate_records_ne_nil (rs : List NRec) (h : rs ≠ []) :
    aggregate_records rs ≠ [] := by
  cases rs with
  | nil => exact absurd rfl h
  | cons r rest =>
    show (rest.foldl aggInsert (aggInsert [] r)) ≠ []
    exact foldl_aggInsert_ne_nil rest _ (aggInsert_ne_nil [] r)

end TransformerService

theorem coreFrame_refl (db : DB) : CoreFrame db db := ⟨rfl, rfl, rfl, rfl⟩

theorem coreFrame_trans {db1 db2 db3 : DB} (h1 : CoreFrame db1 db2) (h2 : CoreFrame db2 db3) :
    CoreFrame db1 db3 :=
  ⟨h1.1.trans h2.1, h1.2.1.trans h2.2.1, h1.2.2.1.trans h2.2.2.1, h1.2.2.2.trans h2.2.2.2⟩

namespace CampaignService

theorem find_or_create_region_frame (db : DB) (rn : String) :
    CoreFrame (find_or_create_region db rn).2 db := by
  unfold find_or_create_region
  cases db.regions.find? (fun rg => decide (rg.name = rn)) <;> simp [CoreFrame]

theorem find_or_create_campaign_frame (db : DB) (cid : ℕ) (n s : String) :
    CoreFrame (find_or_create_campaign db cid n s).2 db := by
  unfold find_or_create_campaign
  cases db.campaigns.find? (fun c => decide (c.client_id = cid) && decide (c.name = n) &&
    decide (c.source = s)) <;> simp [CoreFrame]

theorem find_or_create_strategy_frame (db : DB) (cid : ℕ) (n : String) :
    CoreFrame (find_or_create_strategy db cid n).2 db := by
  unfold find_or_create_strategy
  cases db.strategies.find? (fun st => decide (st.campaign_id = cid) && decide (st.name = n)) <;>
    simp [CoreFrame]

theorem find_or_create_placement_frame (db : DB) (sid : ℕ) (n : String) :
    CoreFrame (find_or_create_placement db sid n).2 db := by
  unfold find_or_create_placement
  cases db.placements.find? (fun p => decide (p.strategy_id = sid) && decide (p.name = n)) <;>
    simp [CoreFrame]

theorem find_or_create_creative_placement_ok (db : DB) (n : String) (pid : ℕ) :
    ∃ cr db', find_or_create_creative db n (Option.some pid) Option.none = .ok (cr, db') ∧
      CoreFrame db' db := by
  unfold find_or_create_creative
  rw [if_neg (by simp)]
  split
  · exact ⟨_, db, rfl, coreFrame_refl db⟩
  · exact ⟨_, _, rfl, ⟨rfl, rfl, rfl, rfl⟩⟩

theorem create_hierarchy_surfside_ok (db : DB) (cid : ℕ) (crn : String)
    (cn sn pn rn : Option String) :
    ∃ h db1, create_hierarchy db cid "surfside" crn cn sn pn rn = .ok (h, db1) ∧
      h.campaign = Option.none ∧ CoreFrame db1 db := by
  unfold create_hierarchy
  cases rn with
  | none =>
    dsimp only
    rw [if_neg (by decide : ¬ ("surfside" : String) = "facebook"), if_pos rfl]
    obtain ⟨cr, db', heq, hfr⟩ := find_or_create_creative_placement_ok _ crn _
    rw [heq]
    refine ⟨_, db', rfl, rfl, ?_⟩
    exact coreFrame_trans hfr (coreFrame_trans (find_or_create_placement_frame _ _ _)
      (coreFrame_trans (find_or_create_strategy_frame _ _ _)
        (find_or_create_campaign_frame _ _ _ _)))
  | some s =>
    by_cases hs : s ≠ ""
    · simp only [hs, if_true]
      rw [if_pos hs]
      obtain ⟨cr, db', heq, hfr⟩ := find_or_create_creative_placement_ok _ crn _
      rw [heq]
      refine ⟨_, db', rfl, rfl, ?_⟩
      exact coreFrame_trans hfr (coreFrame_trans (find_or_create_placement_frame _ _ _)
        (coreFrame_trans (find_or_create_strategy_frame _ _ _)
          (coreFrame_trans (find_or_create_campaign_frame _ _ _ _)
            (find_or_create_region_frame _ _))))
    · simp only [hs, if_false, Bool.false_eq_true]
      rw [if_neg (by decide : ¬ ("surfside" : String) = "facebook")]
      simp only [if_true]
      obtain ⟨cr, db', heq, hfr⟩ := find_or_create_creative_placement_ok _ crn _
      rw [heq]
      refine ⟨_, db', rfl, rfl, ?_⟩
      exact coreFrame_trans hfr (coreFrame_trans (find_or_create_placement_frame _ _ _)
        (coreFrame_trans (find_or_create_strategy_frame _ _ _)
          (find_or_create_campaign_frame _ _ _ _)))

theorem find_or_create_campaign_name (db : DB) (cid : ℕ) (n s : String) :
    ((find_or_create_campaign db cid n s).1).name = n := by
  unfold find_or_create_campaign
  cases hf : db.campaigns.find? (fun c => decide (c.client_id = cid) && decide (c.name = n) &&
      decide (c.source = s)) with
  | none => rfl
  | some c =>
    have := List.find?_some hf
    simp only [Bool.and_eq_true, decide_eq_true_eq] at this
    exact this.1.2

theorem find_or_create_campaign_mem (db : DB) (cid : ℕ) (n s : String) :
    (find_or_create_campaign db cid n s).1 ∈ ((find_or_create_campaign db cid n s).2).campaigns := by
  unfold find_or_create_campaign
  cases hf : db.campaigns.find? (fun c => decide (c.client_id = cid) && decide (c.name = n) &&
      decide (c.source = s)) with
  | none => simp
  | some c =>
    exact List.mem_of_find?_eq_some hf

theorem find_or_create_strategy_parent (db : DB) (k : ℕ) (n : String) :
    ((find_or_create_strategy db k n).1).campaign_id = k := by
  unfold find_or_create_strategy
  cases hf : db.strategies.find? (fun st => decide (st.campaign_id = k) && decide (st.name = n)) with
  | none => rfl
  | some st =>
    have := List.find?_some hf
    simp only [Bool.and_eq_true, decide_eq_true_eq] at this
    exact this.1

theorem find_or_create_strategy_campaigns (db : DB) (k : ℕ) (n : String) :
    ((find_or_create_strategy db k n).2).campaigns = db.campaigns := by
  unfold find_or_create_strategy
  cases db.strategies.find? (fun st => decide (st.campaign_id = k) && decide (st.name = n)) <;> rfl

theorem find_or_create_placement_campaigns (db : DB) (k : ℕ) (n : String) :
    ((find_or_create_placement db k n).2).campaigns = db.campaigns := by
  unfold find_or_create_placement
  cases db.placements.find? (fun p => decide (p.strategy_id = k) && decide (p.name = n)) <;> rfl

theorem find_or_create_creative_placement_campaigns (db : DB) (n : String) (pid : ℕ)
    {cr : Creative} {db' : DB}
    (h : find_or_create_creative db n (Option.some pid) Option.none = .ok (cr, db')) :
    db'.campaigns = db.campaigns := by
  unfold find_or_create_creative at h
  rw [if_neg (by simp)] at h
  revert h
  split
  · intro h
    cases h
    rfl
  · intro h
    cases h
    rfl


theorem create_hierarchy_surfside_parent (db : DB) (cid : ℕ) (crn : String)
    (cn sn pn rn : Option String) :
    ∃ strat plc cr rg db1,
      create_hierarchy db cid "surfside" crn cn sn pn rn =
        .ok ({ campaign := Option.none, strategy := Option.some strat,
               placement := Option.some plc, creative := cr, region := rg }, db1) ∧
      ∃ camp, camp ∈ db1.campaigns ∧ camp.id = strat.campaign_id ∧
        camp.name = "Surfside General" := by
  unfold create_hierarchy
  cases rn with
  | none =>
    dsimp only
    rw [if_neg (by decide : ¬ ("surfside" : String) = "facebook"), if_pos rfl]
    obtain ⟨cr, db', heq, hfr⟩ := find_or_create_creative_placement_ok _ crn _
    rw [heq]
    refine ⟨_, _, cr, _, db', rfl, ?_⟩
    refine ⟨(find_or_create_campaign db cid "Surfside General" "surfside").1, ?_,
      (find_or_create_strategy_parent _ _ _).symm, find_or_create_campaign_name _ cid _ _⟩
    rw [find_or_create_creative_placement_campaigns _ crn _ heq,
      find_or_create_placement_campaigns, find_or_create_strategy_campaigns]
    exact find_or_create_campaign_mem _ cid _ _
  | some s =>
    by_cases hs : s ≠ ""
    · simp only [hs, if_true]
      rw [if_pos hs]
      obtain ⟨cr, db', heq, hfr⟩ := find_or_create_creative_placement_ok _ crn _
      rw [heq]
      refine ⟨_, _, cr, _, db', rfl, ?_⟩
      refine ⟨(find_or_create_campaign (find_or_create_region db s).2 cid "Surfside General" "surfside").1, ?_,
        (find_or_create_strategy_parent _ _ _).symm, find_or_create_campaign_name _ cid _ _⟩
      rw [find_or_create_creative_placement_campaigns _ crn _ heq,
        find_or_create_placement_campaigns, find_or_create_strategy_campaigns]
      exact find_or_create_campaign_mem _ cid _ _
    · simp only [hs, if_false, Bool.false_eq_true]
      rw [if_neg (by decide : ¬ ("surfside" : String) = "facebook")]
      simp only [if_true]
      obtain ⟨cr, db', heq, hfr⟩ := find_or_create_creative_placement_ok _ crn _
      rw [heq]
      refine ⟨_, _, cr, _, db', rfl, ?_⟩
      refine ⟨(find_or_create_campaign db cid "Surfside General" "surfside").1, ?_,
        (find_or_create_strategy_parent _ _ _).symm, find_or_create_campaign_name _ cid _ _⟩
      rw [find_or_create_creative_placement_campaigns _ crn _ heq,
        find_or_create_placement_campaigns, find_or_create_strategy_campaigns]
      exact find_or_create_campaign_mem _ cid _ _

end CampaignService

theorem mem_updateFirst {α : Type} {p : α → Bool} {g : α → α} {l : List α} :
    ∀ x ∈ updateFirst p g l, x ∈ l ∨ ∃ y, y ∈ l ∧ p y = true ∧ x = g y := by
  induction l with
  | nil => simp [updateFirst]
  | cons a t ih =>
    intro x hx
    by_cases hpa : p a
    · simp only [updateFirst, if_pos hpa, List.mem_cons] at hx
      cases hx with
      | inl h => exact Or.inr ⟨a, List.mem_cons_self a t, hpa, h⟩
      | inr h => exact Or.inl (List.mem_cons_of_mem a h)
    · simp only [updateFirst, if_neg hpa, List.mem_cons] at hx
      cases hx with
      | inl h => exact Or.inl (h ▸ List.mem_cons_self a t)
      | inr h =>
        cases ih x h with
        | inl h2 => exact Or.inl (List.mem_cons_of_mem a h2)
        | inr h2 =>
          obtain ⟨y, hy, hpy, hxy⟩ := h2
          exact Or.inr ⟨y, List.mem_cons_of_mem a hy, hpy, hxy⟩

namespace LoaderService

theorem factKeyPred_campaign_id {client_id : ℕ} {date : Date} {creative_id : ℕ}
    {source : String} {campaign_id strategy_id placement_id region_id : Option ℕ}
    {f : Fact} (h : factKeyPred client_id date creative_id source campaign_id
      strategy_id placement_id region_id f = true) :
    f.campaign_id = campaign_id := by
  simp only [factKeyPred, Bool.and_eq_true, decide_eq_true_eq] at h
  exact h.1.1.1.2

theorem calculate_ctr_none_iff (i c : ℤ) : calculate_ctr i c = Option.none ↔ i = 0 := by
  unfold calculate_ctr
  split_ifs with h
  · simp [h]
  · simp [h]

theorem calculate_cpc_none_iff (s : ℚ) (c : ℤ) : calculate_cpc s c = Option.none ↔ c = 0 := by
  unfold calculate_cpc
  split_ifs with h
  · simp [h]
  · simp [h]

theorem fail_cond_iff (idx : ℕ) (r : NRec) (cpm : ℚ) :
    ((verbosePrinted idx &&
      (decide ((calculate_all_metrics r.impressions r.clicks r.conversions
          r.conversion_revenue cpm).ctr = Option.none) ||
        decide ((calculate_all_metrics r.impressions r.clicks r.conversions
          r.conversion_revenue cpm).cpc = Option.none))) = true) ↔
    (verbosePrinted idx = true ∧ (r.impressions = 0 ∨ r.clicks = 0)) := by
  rw [show (calculate_all_metrics r.impressions r.clicks r.conversions
      r.conversion_revenue cpm).ctr = calculate_ctr r.impressions r.clicks from rfl]
  rw [show (calculate_all_metrics r.impressions r.clicks r.conversions
      r.conversion_revenue cpm).cpc =
    calculate_cpc (calculate_spend r.impressions cpm) r.clicks from rfl]
  simp only [Bool.and_eq_true, Bool.or_eq_true, decide_eq_true_eq,
    calculate_ctr_none_iff, calculate_cpc_none_iff]

theorem fail_cond_neg (idx : ℕ) (r : NRec) (cpm : ℚ)
    (hok : verbosePrinted idx = true → r.impressions ≠ 0 ∧ r.clicks ≠ 0) :
    ¬ ((verbosePrinted idx &&
      (decide ((calculate_all_metrics r.impressions r.clicks r.conversions
          r.conversion_revenue cpm).ctr = Option.none) ||
        decide ((calculate_all_metrics r.impressions r.clicks r.conversions
          r.conversion_revenue cpm).cpc = Option.none))) = true) := by
  rw [fail_cond_iff]
  rintro ⟨hv, h0 | h0⟩
  · exact (hok hv).1 h0
  · exact (hok hv).2 h0

theorem load_one_surfside_ok (db : DB) (cid idx : ℕ) (r : NRec)
    (hok : verbosePrinted idx = true → r.impressions ≠ 0 ∧ r.clicks ≠ 0) :
    ∃ db', load_one db cid idx r "surfside" = .ok db' ∧
      db'.staging = db.staging ∧ db'.cpms = db.cpms ∧ db'.now = db.now ∧
      (∀ f, f ∈ db'.facts → f ∈ db.facts ∨ f.campaign_id = Option.none) := by
  unfold load_one
  obtain ⟨h, db1, heq, hcamp, hfr⟩ := CampaignService.create_hierarchy_surfside_ok db cid
    r.creative_name (Option.some r.campaign_name) (Option.some r.strategy_name)
    (Option.some r.placement_name) r.region_name
  rw [heq]
  dsimp only
  rw [if_neg (fail_cond_neg idx r _ hok)]
  rw [hcamp]
  cases hfind : db1.facts.find? (factKeyPred cid r.date h.creative.id "surfside"
      (Option.none.map Campaign.id) (h.strategy.map Strategy.id)
      (h.placement.map Placement.id) (h.region.map Region.id)) with
  | some f0 =>
    refine ⟨_, rfl, hfr.2.1, hfr.2.2.1, hfr.2.2.2, ?_⟩
    intro f hf
    have hmem := mem_updateFirst f hf
    cases hmem with
    | inl hm => exact Or.inl (hfr.1 ▸ hm)
    | inr hm =>
      obtain ⟨y, hy, hpy, hxy⟩ := hm
      right
      rw [hxy]
      show y.campaign_id = Option.none
      exact factKeyPred_campaign_id hpy
  | none =>
    refine ⟨_, rfl, hfr.2.1, hfr.2.2.1, hfr.2.2.2, ?_⟩
    intro f hf
    rw [List.mem_append] at hf
    cases hf with
    | inl hm => exact Or.inl (hfr.1 ▸ hm)
    | inr hm =>
      right
      simp only [List.mem_singleton] at hm
      rw [hm]
      rfl

theorem load_one_ok_not_fail {db : DB} {cid idx : ℕ} {r : NRec} {db' : DB}
    (heq : load_one db cid idx r "surfside" = .ok db') :
    verbosePrinted idx = true → r.impressions ≠ 0 ∧ r.clicks ≠ 0 := by
  intro hv
  by_contra hcon
  rw [not_and_or, not_not, not_not] at hcon
  unfold load_one at heq
  obtain ⟨h, db1, hch, hcamp, hfr⟩ := CampaignService.create_hierarchy_surfside_ok db cid
    r.creative_name (Option.some r.campaign_name) (Option.some r.strategy_name)
    (Option.some r.placement_name) r.region_name
  rw [hch] at heq
  dsimp only at heq
  rw [if_pos ((fail_cond_iff idx r _).mpr ⟨hv, hcon⟩)] at heq
  exact absurd heq (by simp)

theorem load_one_ok_facts {db : DB} {cid idx : ℕ} {r : NRec} {db' : DB}
    (heq : load_one db cid idx r "surfside" = .ok db') :
    db'.staging = db.staging ∧ db'.cpms = db.cpms ∧ db'.now = db.now ∧
    (∀ f ∈ db'.facts, f ∈ db.facts ∨ f.campaign_id = Option.none) := by
  obtain ⟨db2, heq2, hs, hc, hn, hf⟩ :=
    load_one_surfside_ok db cid idx r (load_one_ok_not_fail heq)
  cases heq.symm.trans heq2
  exact ⟨hs, hc, hn, hf⟩

theorem loader_surfside_fold (ps : List (ℕ × NRec)) :
    ∀ (a : LoadResult) (base : DB) (cid : ℕ),
      (∀ p ∈ ps, verbosePrinted p.1 = true → p.2.impressions ≠ 0 ∧ p.2.clicks ≠ 0) →
      (ps.foldl (loadStep base cid "surfside") a).loaded = a.loaded + ps.length ∧
      (ps.foldl (loadStep base cid "surfside") a).failed = a.failed ∧
      (ps.foldl (loadStep base cid "surfside") a).db.staging = a.db.staging ∧
      (ps.foldl (loadStep base cid "surfside") a).db.cpms = a.db.cpms ∧
      (ps.foldl (loadStep base cid "surfside") a).db.now = a.db.now ∧
      (∀ f ∈ (ps.foldl (loadStep base cid "surfside") a).db.facts,
        f ∈ a.db.facts ∨ f.campaign_id = Option.none) := by
  induction ps with
  | nil =>
    intro a base cid hok
    exact ⟨rfl, rfl, rfl, rfl, rfl, fun f hf => Or.inl hf⟩
  | cons p rest ih =>
    intro a base cid hok
    obtain ⟨db', heq, hs, hc, hn, hfacts⟩ := load_one_surfside_ok a.db cid p.1 p.2
      (hok p (List.mem_cons_self _ _))
    have hstep : loadStep base cid "surfside" a p
        = { a with db := db', loaded := a.loaded + 1 } := by
      simp [loadStep, heq]
    have hfold : ((p :: rest).foldl (loadStep base cid "surfside") a)
        = rest.foldl (loadStep base cid "surfside") ({ a with db := db', loaded := a.loaded + 1 }) := by
      rw [List.foldl_cons, hstep]
    rw [hfold]
    obtain ⟨i1, i2, i3, i4, i5, i6⟩ := ih { a with db := db', loaded := a.loaded + 1 } base cid
      (fun q hq => hok q (List.mem_cons_of_mem _ hq))
    refine ⟨?_, i2, ?_, ?_, ?_, ?_⟩
    · rw [i1]
      simp [List.length_cons]
      omega
    · rw [i3]
      exact hs
    · rw [i4]
      exact hc
    · rw [i5]
      exact hn
    · intro f hf
      cases i6 f hf with
      | inl hm =>
        cases hfacts f hm with
        | inl h2 => exact Or.inl h2
        | inr h2 => exact Or.inr h2
      | inr hm => exact Or.inr hm

theorem loader_surfside_facts (ps : List (ℕ × NRec)) :
    ∀ (a : LoadResult) (base : DB) (cid : ℕ),
      ∀ f ∈ (ps.foldl (loadStep base cid "surfside") a).db.facts,
        f ∈ a.db.facts ∨ f ∈ base.facts ∨ f.campaign_id = Option.none := by
  induction ps with
  | nil =>
    intro a base cid f hf
    exact Or.inl hf
  | cons p rest ih =>
    intro a base cid f hf
    rw [List.foldl_cons] at hf
    cases hload : load_one a.db cid p.1 p.2 "surfside" with
    | ok db' =>
      have hstep : loadStep base cid "surfside" a p
          = { a with db := db', loaded := a.loaded + 1 } := by
        simp [loadStep, hload]
      rw [hstep] at hf
      cases ih { a with db := db', loaded := a.loaded + 1 } base cid f hf with
      | inl hm =>
        cases (load_one_ok_facts hload).2.2.2 f hm with
        | inl h2 => exact Or.inl h2
        | inr h2 => exact Or.inr (Or.inr h2)
      | inr hm => exact Or.inr hm
    | error e =>
      have hstep : loadStep base cid "surfside" a p
          = { db := base, loaded := a.loaded, failed := a.failed + 1 } := by
        simp [loadStep, hload]
      rw [hstep] at hf
      cases ih { db := base, loaded := a.loaded, failed := a.failed + 1 } base cid f hf with
      | inl hm => exact Or.inr (Or.inl hm)
      | inr hm => exact Or.inr hm

theorem load_daily_metrics_surfside (db base : DB) (cid : ℕ) (rs : List NRec)
    (hok : ∀ p ∈ rs.enum, verbosePrinted p.1 = true →
      p.2.impressions ≠ 0 ∧ p.2.clicks ≠ 0) :
    (load_daily_metrics db base cid rs "surfside").loaded = rs.length ∧
    (load_daily_metrics db base cid rs "surfside").failed = 0 ∧
    (load_daily_metrics db base cid rs "surfside").db.staging = db.staging ∧
    (load_daily_metrics db base cid rs "surfside").db.cpms = db.cpms ∧
    (load_daily_metrics db base cid rs "surfside").db.now = db.now ∧
    (∀ f ∈ (load_daily_metrics db base cid rs "surfside").db.facts,
      f ∈ db.facts ∨ f.campaign_id = Option.none) := by
  have h := loader_surfside_fold rs.enum { db := db, loaded := 0, failed := 0 } base cid hok
  unfold load_daily_metrics
  simpa using h

theorem load_daily_metrics_facts (db base : DB) (cid : ℕ) (rs : List NRec) :
    ∀ f ∈ (load_daily_metrics db base cid rs "surfside").db.facts,
      f ∈ db.facts ∨ f ∈ base.facts ∨ f.campaign_id = Option.none := by
  have h := loader_surfside_facts rs.enum { db := db, loaded := 0, failed := 0 } base cid
  unfold load_daily_metrics
  exact h

end LoaderService

theorem run_etl_machine (db : DB) (cid : ℕ) (raws : List RawRecord) :
    ((validate_and_transform raws).1 = [] →
      (run_etl_pipeline db cid raws).status = "failed" ∧
      (run_etl_pipeline db cid raws).records_loaded = 0 ∧
      (run_etl_pipeline db cid raws).records_failed = raws.length) ∧
    ((validate_and_transform raws).1 ≠ [] →
      ((run_etl_pipeline db cid raws).status = "success" ↔
        (load_daily_metrics
        { db with staging := db.staging ++ aggregate_records (validate_and_transform raws).1 }
        db cid (aggregate_records (validate_and_transform raws).1) "surfside").failed = 0 ∧ (validate_and_transform raws).2.length = 0) ∧
      ((run_etl_pipeline db cid raws).status = "partial" ↔
        ¬ ((load_daily_metrics
        { db with staging := db.staging ++ aggregate_records (validate_and_transform raws).1 }
        db cid (aggregate_records (validate_and_transform raws).1) "surfside").failed = 0 ∧ (validate_and_transform raws).2.length = 0) ∧
        0 < (load_daily_metrics
        { db with staging := db.staging ++ aggregate_records (validate_and_transform raws).1 }
        db cid (aggregate_records (validate_and_transform raws).1) "surfside").loaded) ∧
      ((run_etl_pipeline db cid raws).status = "failed" ↔
        ¬ ((load_daily_metrics
        { db with staging := db.staging ++ aggregate_records (validate_and_transform raws).1 }
        db cid (aggregate_records (validate_and_transform raws).1) "surfside").failed = 0 ∧ (validate_and_transform raws).2.length = 0) ∧
        (load_daily_metrics
        { db with staging := db.staging ++ aggregate_records (validate_and_transform raws).1 }
        db cid (aggregate_records (validate_and_transform raws).1) "surfside").loaded = 0) ∧
      (run_etl_pipeline db cid raws).records_loaded = (load_daily_metrics
        { db with staging := db.staging ++ aggregate_records (validate_and_transform raws).1 }
        db cid (aggregate_records (validate_and_transform raws).1) "surfside").loaded ∧
      (run_etl_pipeline db cid raws).records_failed =
        (load_daily_metrics
        { db with staging := db.staging ++ aggregate_records (validate_and_transform raws).1 }
        db cid (aggregate_records (validate_and_transform raws).1) "surfside").failed + (validate_and_transform raws).2.length) := by
  constructor
  · intro hv
    unfold run_etl_pipeline
    dsimp only
    rw [if_pos hv]
    exact ⟨rfl, rfl, rfl⟩
  · intro hv
    unfold run_etl_pipeline
    dsimp only
    rw [if_neg hv]
    by_cases hc : (load_daily_metrics
        { db with staging := db.staging ++ aggregate_records (validate_and_transform raws).1 }
        db cid (aggregate_records (validate_and_transform raws).1) "surfside").failed = 0 ∧ (validate_and_transform raws).2.length = 0
    · rw [if_pos hc]
      refine ⟨iff_of_true rfl hc, iff_of_false ?_ (fun hco => hco.1 hc),
        iff_of_false ?_ (fun hco => hco.1 hc), rfl, rfl⟩
      · show ¬ "success" = "partial"
        decide
      · show ¬ "success" = "failed"
        decide
    · rw [if_neg hc]
      by_cases hl : 0 < (load_daily_metrics
        { db with staging := db.staging ++ aggregate_records (validate_and_transform raws).1 }
        db cid (aggregate_records (validate_and_transform raws).1) "surfside").loaded
      · rw [if_pos hl]
        refine ⟨iff_of_false ?_ (fun hco => hc hco),
          iff_of_true rfl ⟨hc, hl⟩,
          iff_of_false ?_ (fun hco => absurd (hco.2 ▸ hl) (lt_irrefl 0)),
          rfl, rfl⟩
        · show ¬ "partial" = "success"
          decide
        · show ¬ "partial" = "failed"
          decide
      · rw [if_neg hl]
        refine ⟨iff_of_false ?_ (fun hco => hc hco),
          iff_of_false ?_ (fun hco => hl hco.2),
          iff_of_true rfl ⟨hc, by omega⟩, rfl, rfl⟩
        · show ¬ "failed" = "success"
          decide
        · show ¬ "failed" = "partial"
          decide

/-- C1 (counterexample): the claim states CTR(1000, 20) = 0.020000 and
CTR(0, clicks) = 0.  The code computes `(clicks / impressions) * 100`,
giving `2.000000` at (1000, 20), and returns `None` (not 0) when
impressions = 0. -/
theorem c1_counterexample :
    calculate_ctr 1000 20 = Option.some 2 ∧
    (Option.some (2 : ℚ) ≠ Option.some ((2 : ℚ) / 100)) ∧
    calculate_ctr 0 20 = Option.none := by
  refine ⟨?_, by norm_num, by norm_num [calculate_ctr]⟩
  norm_num [calculate_ctr, quantize, roundHalfEven, ratFloor, Int.fdiv]

/-- C1 (amended): `calculate_ctr` returns `None` when impressions = 0 and
otherwise `(clicks ÷ impressions) × 100` rounded half-even to 6 decimal
places; in particular CTR(1000, 20) = 2.000000. -/
theorem c1_ctr_spec (impressions clicks : ℤ) :
    (impressions = 0 → calculate_ctr impressions clicks = Option.none) ∧
    (impressions ≠ 0 → calculate_ctr impressions clicks =
      Option.some (quantize ((clicks : ℚ) / (impressions : ℚ) * 100) 6)) ∧
    calculate_ctr 1000 20 = Option.some 2 := by
  refine ⟨fun h => by simp [calculate_ctr, h], fun h => by simp [calculate_ctr, h], ?_⟩
  norm_num [calculate_ctr, quantize, roundHalfEven, ratFloor, Int.fdiv]

/-- C1 (witness): the amended theorem applied at (0, 20) and (1000, 20). -/
theorem c1_ctr_spec_witness :
    calculate_ctr 0 20 = Option.none ∧
    calculate_ctr 1000 20 = Option.some (quantize ((20 : ℚ) / (1000 : ℚ) * 100) 6) :=
  ⟨(c1_ctr_spec 0 20).1 rfl, (c1_ctr_spec 1000 20).2.1 (by norm_num)⟩

/-- C2 (confirmed): the CPC, CPA and ROAS calculators are total functions
(never raise); each returns `None` exactly when its denominator — clicks,
conversions, spend respectively — is zero, and the quotient rounded to 4
decimal places otherwise. -/
theorem c2_cpc_cpa_roas_spec (spend revenue : ℚ) (clicks conversions : ℤ) :
    (calculate_cpc spend clicks = Option.none ↔ clicks = 0) ∧
    (clicks ≠ 0 → calculate_cpc spend clicks =
      Option.some (quantize (spend / (clicks : ℚ)) 4)) ∧
    (calculate_cpa spend conversions = Option.none ↔ conversions = 0) ∧
    (conversions ≠ 0 → calculate_cpa spend conversions =
      Option.some (quantize (spend / (conversions : ℚ)) 4)) ∧
    (calculate_roas revenue spend = Option.none ↔ spend = 0) ∧
    (spend ≠ 0 → calculate_roas revenue spend =
      Option.some (quantize (revenue / spend) 4)) := by
  unfold calculate_cpc calculate_cpa calculate_roas
  refine ⟨?_, fun h => by simp [h], ?_, fun h => by simp [h], ?_, fun h => by simp [h]⟩ <;>
    constructor <;> intro h <;> first
      | (simp [h])
      | (by_contra hne; simp [hne] at h)

/-- C2 (witness): the spec scenario values spend = 10.00, clicks = 20,
conversions = 2, revenue = 50.00. -/
theorem c2_cpc_cpa_roas_spec_witness :
    calculate_cpc 10 20 = Option.some (quantize ((10 : ℚ) / (20 : ℚ)) 4) ∧
    calculate_cpa 10 2 = Option.some (quantize ((10 : ℚ) / (2 : ℚ)) 4) ∧
    calculate_roas 50 10 = Option.some (quantize ((50 : ℚ) / (10 : ℚ)) 4) :=
  ⟨(c2_cpc_cpa_roas_spec 10 50 20 2).2.1 (by decide),
   (c2_cpc_cpa_roas_spec 10 50 20 2).2.2.2.1 (by decide),
   (c2_cpc_cpa_roas_spec 10 50 20 2).2.2.2.2.2 (by norm_num)⟩

/-- C8 (code evaluation): `parse_decimal` returns 0 for the literal `-`,
`$ -`, `$-` forms and for values empty after stripping commas and currency
symbols, and the default for `None`/`''`; but on a currency-like string
with stray punctuation, `Decimal(str(value))` raises
`decimal.InvalidOperation`, which the `except (ValueError, TypeError)`
handler does not catch, so the call raises instead of returning the
default. -/
theorem c8_parse_decimal_eval :
    parse_decimal (.str "$1.2.3") 0 = .error .invalidOperation ∧
    parse_decimal (.str "-") 0 = .ok 0 ∧
    parse_decimal (.str "$ -") 0 = .ok 0 ∧
    parse_decimal (.str "$-") 0 = .ok 0 ∧
    parse_decimal (.str " $ , ") 5 = .ok 0 ∧
    parse_decimal PyVal.none 7 = .ok 7 ∧
    parse_decimal (.str "") 7 = .ok 7 ∧
    parse_decimal (.str "$1,234.56") 0 = .ok (123456 / 100) := by
  refine ⟨by decide, by decide, by decide, by decide, by decide, by decide, by decide, ?_⟩
  simp +decide [parse_decimal, parse_decimal_try, decFromStr, numCore, pyStrip,
    pyStripList, parseSign, digitsToNat, parseExpTail]
  norm_num

/-- C9 (code evaluation): `app/jobs/ingestion_monitor.py` imports
`process_surfside_upload_background` from `app.surfside.upload_handler`,
but that module defines no such name (nor does any other module), so
importing the Recovery Monitor module raises `ImportError` and
`check_pending_uploads` can never run. -/
theorem c9_monitor_import_missing :
    ("app.surfside.upload_handler", "process_surfside_upload_background") ∈
      IngestionMonitor.monitor_from_imports ∧
    "process_surfside_upload_background" ∉ IngestionMonitor.surfside_upload_handler_defs ∧
    "process_facebook_upload_background" ∈ IngestionMonitor.facebook_upload_handler_defs := by
  decide

/-- C6 (counterexample): the claim states the aggregator returns none
exactly when zero fact rows exist in the period.  A period holding one
fact row whose impressions are 0 also yields none: `not
result.impressions` is true for a zero sum, not only for the NULL sum of
an empty period. -/
theorem c6_counterexample :
    let f : Fact := { id := 1, client_id := 1, date := Date.mk 2024 1 2,
                      campaign_id := Option.none, strategy_id := Option.none,
                      placement_id := Option.none, creative_id := 2,
                      region_id := Option.none, source := "surfside",
                      impressions := 0, clicks := 5, conversions := 1,
                      conversion_revenue := 0, ctr := Option.none, spend := 0,
                      cpc := Option.none, cpa := Option.none, roas := Option.none }
    let db : DB := { campaigns := [], strategies := [], placements := [],
                     creatives := [], regions := [], facts := [f], cpms := [],
                     weekly := [], monthly := [], staging := [], now := 0,
                     nextId := 3 }
    (factsInRange db 1 ⟨2024, 1, 1⟩ (addDays ⟨2024, 1, 1⟩ 6)).length = 1 ∧
    (aggregate_week db 1 ⟨2024, 1, 1⟩).1 = Option.none ∧
    (aggregate_month db 1 2024 1).1 = Option.none := by
  decide

/-- C6 (amended): `aggregate_week` / `aggregate_month` return none and
leave the database unchanged exactly when the period's fact rows sum to
zero impressions (in particular when zero fact rows exist); otherwise they
produce a summary whose raw fields equal the sums over the period's fact
rows. -/
theorem c6_aggregator_none_and_sums :
    (∀ (db : DB) (cid : ℕ) (ws : Date),
      ((aggregate_week db cid ws).1 = Option.none ↔
        sumImpressions (factsInRange db cid ws (addDays ws 6)) = 0) ∧
      (sumImpressions (factsInRange db cid ws (addDays ws 6)) = 0 →
        (aggregate_week db cid ws).2 = db) ∧
      (∀ s, (aggregate_week db cid ws).1 = Option.some s →
        s.impressions = sumImpressions (factsInRange db cid ws (addDays ws 6)) ∧
        s.clicks = sumClicks (factsInRange db cid ws (addDays ws 6)) ∧
        s.conversions = sumConversions (factsInRange db cid ws (addDays ws 6)) ∧
        s.revenue = sumRevenue (factsInRange db cid ws (addDays ws 6)) ∧
        s.spend = sumSpend (factsInRange db cid ws (addDays ws 6)))) ∧
    (∀ (db : DB) (cid : ℕ) (y m : ℕ),
      ((aggregate_month db cid y m).1 = Option.none ↔
        sumImpressions (factsInRange db cid ⟨y, m, 1⟩ (monthEndOf y m)) = 0) ∧
      (sumImpressions (factsInRange db cid ⟨y, m, 1⟩ (monthEndOf y m)) = 0 →
        (aggregate_month db cid y m).2 = db) ∧
      (∀ s, (aggregate_month db cid y m).1 = Option.some s →
        s.impressions = sumImpressions (factsInRange db cid ⟨y, m, 1⟩ (monthEndOf y m)) ∧
        s.clicks = sumClicks (factsInRange db cid ⟨y, m, 1⟩ (monthEndOf y m)) ∧
        s.conversions = sumConversions (factsInRange db cid ⟨y, m, 1⟩ (monthEndOf y m)) ∧
        s.revenue = sumRevenue (factsInRange db cid ⟨y, m, 1⟩ (monthEndOf y m)) ∧
        s.spend = sumSpend (factsInRange db cid ⟨y, m, 1⟩ (monthEndOf y m)))) := by
  constructor
  · intro db cid ws
    by_cases h : sumImpressions (factsInRange db cid ws (addDays ws 6)) = 0
    · refine ⟨by simp [aggregate_week, h], fun _ => by simp [aggregate_week, h], ?_⟩
      intro s hs
      simp [aggregate_week, h] at hs
    · cases hf : db.weekly.find? (wpred cid ws) with
      | none =>
        refine ⟨by simp [aggregate_week, h, hf], fun h0 => absurd h0 h, ?_⟩
        intro s hs
        simp only [aggregate_week, if_neg h, hf, Option.some.injEq] at hs
        subst hs
        exact ⟨rfl, rfl, rfl, rfl, rfl⟩
      | some w0 =>
        refine ⟨by simp [aggregate_week, h, hf], fun h0 => absurd h0 h, ?_⟩
        intro s hs
        simp only [aggregate_week, if_neg h, hf, Option.some.injEq] at hs
        subst hs
        exact ⟨rfl, rfl, rfl, rfl, rfl⟩
  · intro db cid y m
    by_cases h : sumImpressions (factsInRange db cid ⟨y, m, 1⟩ (monthEndOf y m)) = 0
    · refine ⟨by simp [aggregate_month, h], fun _ => by simp [aggregate_month, h], ?_⟩
      intro s hs
      simp [aggregate_month, h] at hs
    · cases hf : db.monthly.find? (mpred cid ⟨y, m, 1⟩) with
      | none =>
        refine ⟨by simp [aggregate_month, h, hf], fun h0 => absurd h0 h, ?_⟩
        intro s hs
        simp only [aggregate_month, if_neg h, hf, Option.some.injEq] at hs
        subst hs
        exact ⟨rfl, rfl, rfl, rfl, rfl⟩
      | some w0 =>
        refine ⟨by simp [aggregate_month, h, hf], fun h0 => absurd h0 h, ?_⟩
        intro s hs
        simp only [aggregate_month, if_neg h, hf, Option.some.injEq] at hs
        subst hs
        exact ⟨rfl, rfl, rfl, rfl, rfl⟩

/-! ### Helper lemmas for upsert idempotence -/

theorem find?_updateFirst_of_found {α : Type} {p : α → Bool} {f : α → α} {l : List α} {x : α}
    (h : l.find? p = some x) (hfx : p (f x) = true) :
    (updateFirst p f l).find? p = some (f x) := by
  induction l with
  | nil => simp at h
  | cons a t ih =>
    by_cases hpa : p a
    · simp [List.find?, hpa] at h
      subst h
      simp [updateFirst, hpa, List.find?, hfx]
    · simp only [List.find?, hpa] at h
      simp only [updateFirst, hpa, Bool.false_eq_true, if_false]
      simp [List.find?, hpa, ih h]

theorem updateFirst_of_self {α : Type} {p : α → Bool} {f : α → α} {l : List α} {x : α}
    (h : l.find? p = some x) (hf : f x = x) : updateFirst p f l = l := by
  induction l with
  | nil => simp at h
  | cons a t ih =>
    by_cases hpa : p a
    · simp [List.find?, hpa] at h
      subst h
      simp [updateFirst, hpa, hf]
    · simp only [List.find?, hpa] at h
      simp [updateFirst, hpa, ih h]

theorem find?_append_of_none {α : Type} {p : α → Bool} {l₁ l₂ : List α}
    (h : l₁.find? p = none) : (l₁ ++ l₂).find? p = l₂.find? p := by
  induction l₁ with
  | nil => simp
  | cons a t ih =>
    by_cases hpa : p a
    · simp [List.find?, hpa] at h
    · simp only [List.find?, hpa] at h
      simp [List.find?, hpa, ih h]

theorem find?_append_of_some {α : Type} {p : α → Bool} {l₁ l₂ : List α} {x : α}
    (h : l₁.find? p = some x) : (l₁ ++ l₂).find? p = some x := by
  induction l₁ with
  | nil => simp at h
  | cons a t ih =>
    by_cases hpa : p a
    · simp only [List.find?, hpa] at h
      simp [List.find?, hpa, h]
    · simp only [List.find?, hpa] at h
      simp [List.find?, hpa, ih h]

theorem updateFirst_append_left {α : Type} {p : α → Bool} {u : α → α} {l l' : List α}
    (h : (l.find? p).isSome) : updateFirst p u (l ++ l') = updateFirst p u l ++ l' := by
  induction l with
  | nil => simp at h
  | cons a t ih =>
    by_cases hpa : p a
    · simp [updateFirst, hpa]
    · simp only [List.find?, hpa, Bool.false_eq_true] at h
      simp [updateFirst, hpa, ih h]

theorem updateFirst_append_right {α : Type} {p : α → Bool} {u : α → α} {l l' : List α}
    (h : l.find? p = none) : updateFirst p u (l ++ l') = l ++ updateFirst p u l' := by
  induction l with
  | nil => simp [updateFirst]
  | cons a t ih =>
    by_cases hpa : p a
    · simp [List.find?, hpa] at h
    · simp only [List.find?, hpa, Bool.false_eq_true] at h
      simp [updateFirst, hpa, ih h]

theorem find?_isSome_updateFirst {α : Type} {p q : α → Bool} {v : α → α} {l : List α}
    (hq : ∀ f, p (v f) = p f) (h : (l.find? p).isSome) :
    ((updateFirst q v l).find? p).isSome := by
  induction l with
  | nil => simp at h
  | cons a t ih =>
    by_cases hqa : q a
    · simp only [updateFirst, hqa, if_true]
      by_cases hpa : p a
      · simp [List.find?, hq, hpa]
      · simp only [List.find?, hpa, Bool.false_eq_true] at h
        simp [List.find?, hq, hpa, h]
    · simp only [updateFirst, hqa, Bool.false_eq_true, if_false]
      by_cases hpa : p a
      · simp [List.find?, hpa]
      · simp only [List.find?, hpa, Bool.false_eq_true] at h
        simp [List.find?, hpa, ih h]

theorem updateFirst_comm {α : Type} {p q : α → Bool} {u v : α → α} {l : List α}
    (hdisj : ∀ f, ¬(p f = true ∧ q f = true)) (hup : ∀ f, q (u f) = q f)
    (hvp : ∀ f, p (v f) = p f) :
    updateFirst p u (updateFirst q v l) = updateFirst q v (updateFirst p u l) := by
  induction l with
  | nil => rfl
  | cons a t ih =>
    by_cases hpa : p a
    · have hqa : ¬ q a = true := fun hq2 => hdisj a ⟨hpa, hq2⟩
      simp [updateFirst, hpa, hqa, hup, hvp]
    · by_cases hqa : q a
      · simp [updateFirst, hpa, hqa, hup, hvp]
      · simp [updateFirst, hpa, hqa, ih]

theorem updateFirst_absorb {α : Type} {p : α → Bool} {u v : α → α} {l : List α}
    (hvp : ∀ f, p (v f) = p f) :
    updateFirst p u (updateFirst p v l) = updateFirst p (fun x => u (v x)) l := by
  induction l with
  | nil => rfl
  | cons a t ih =>
    by_cases hpa : p a
    · simp [updateFirst, hpa, hvp]
    · simp [updateFirst, hpa, ih]

theorem map_updateFirst {α β : Type} {p : α → Bool} {u : α → α} {g : α → β} {l : List α}
    (hg : ∀ f, g (u f) = g f) : (updateFirst p u l).map g = l.map g := by
  induction l with
  | nil => rfl
  | cons a t ih =>
    by_cases hpa : p a
    · simp [updateFirst, hpa, hg]
    · simp [updateFirst, hpa, ih]

namespace LoaderService

theorem keyOfFact_factUpdate (r : NRec) (m : MetricsCalculator.AllMetrics) (f : Fact) :
    keyOfFact (factUpdate r m f) = keyOfFact f := rfl

theorem keyPredOf_factUpdate (k : FactKey) (r : NRec) (m : MetricsCalculator.AllMetrics)
    (f : Fact) : keyPredOf k (factUpdate r m f) = keyPredOf k f := rfl

theorem keyOfFact_mkFact (id client : ℕ) (r : NRec) (m : MetricsCalculator.AllMetrics)
    (ca st pl rg : Option ℕ) (cr : ℕ) (s : String) :
    keyOfFact (mkFact id client r m ca st pl rg cr s) =
      { client_id := client, date := r.date, creative_id := cr, source := s,
        campaign_id := ca, strategy_id := st, placement_id := pl, region_id := rg } := rfl

theorem keyPredOf_iff {k : FactKey} {f : Fact} : keyPredOf k f = true ↔ keyOfFact f = k := by
  simp [keyPredOf]

theorem keyPredOf_disjoint {k k' : FactKey} (h : ¬ k = k') (f : Fact) :
    ¬ (keyPredOf k f = true ∧ keyPredOf k' f = true) := by
  intro ⟨h1, h2⟩
  rw [keyPredOf_iff] at h1 h2
  exact h (h1 ▸ h2)

theorem factKeyPred_eq_keyPredOf (c : ℕ) (d : Date) (cr : ℕ) (s : String)
    (ca st pl rg : Option ℕ) :
    factKeyPred c d cr s ca st pl rg =
      keyPredOf { client_id := c, date := d, creative_id := cr, source := s,
                  campaign_id := ca, strategy_id := st, placement_id := pl,
                  region_id := rg } := by
  funext f
  simp only [factKeyPred, keyPredOf, keyOfFact, FactKey.mk.injEq]
  rw [Bool.eq_iff_iff]
  simp only [Bool.and_eq_true, decide_eq_true_eq]
  tauto

theorem factUpdate_factUpdate (r : NRec) (m : MetricsCalculator.AllMetrics)
    (r' : NRec) (m' : MetricsCalculator.AllMetrics) (f : Fact) :
    factUpdate r m (factUpdate r' m' f) = factUpdate r m f := rfl

theorem factUpdate_eq_of_key {r : NRec} {m : MetricsCalculator.AllMetrics} {f g : Fact}
    (h : keyOfFact f = keyOfFact g) (hid : f.id = g.id) :
    factUpdate r m f = factUpdate r m g := by
  simp only [keyOfFact, FactKey.mk.injEq] at h
  obtain ⟨h1, h2, h3, h4, h5, h6, h7, h8⟩ := h
  simp only [factUpdate]
  rw [hid, h1, h2, h3, h4, h5, h6, h7, h8]

end LoaderService

theorem dimExt_refl (db : DB) : DimExt db db :=
  ⟨⟨[], by simp⟩, ⟨[], by simp⟩, ⟨[], by simp⟩, ⟨[], by simp⟩, ⟨[], by simp⟩⟩

theorem dimExt_trans {a b c : DB} (h1 : DimExt b a) (h2 : DimExt c b) : DimExt c a := by
  obtain ⟨⟨e1, k1⟩, ⟨e2, k2⟩, ⟨e3, k3⟩, ⟨e4, k4⟩, ⟨e5, k5⟩⟩ := h1
  obtain ⟨⟨g1, j1⟩, ⟨g2, j2⟩, ⟨g3, j3⟩, ⟨g4, j4⟩, ⟨g5, j5⟩⟩ := h2
  exact ⟨⟨e1 ++ g1, by rw [j1, k1, List.append_assoc]⟩,
    ⟨e2 ++ g2, by rw [j2, k2, List.append_assoc]⟩,
    ⟨e3 ++ g3, by rw [j3, k3, List.append_assoc]⟩,
    ⟨e4 ++ g4, by rw [j4, k4, List.append_assoc]⟩,
    ⟨e5 ++ g5, by rw [j5, k5, List.append_assoc]⟩⟩

theorem dimExt_of_dims_eq {a b : DB} (h1 : b.campaigns = a.campaigns)
    (h2 : b.strategies = a.strategies) (h3 : b.placements = a.placements)
    (h4 : b.creatives = a.creatives) (h5 : b.regions = a.regions) : DimExt b a :=
  ⟨⟨[], by simp [h1]⟩, ⟨[], by simp [h2]⟩, ⟨[], by simp [h3]⟩,
    ⟨[], by simp [h4]⟩, ⟨[], by simp [h5]⟩⟩

namespace CampaignService

theorem fc_region_dims (db : DB) (n : String) :
    (∃ e, (find_or_create_region db n).2.regions = db.regions ++ e) ∧
    (find_or_create_region db n).2.campaigns = db.campaigns ∧
    (find_or_create_region db n).2.strategies = db.strategies ∧
    (find_or_create_region db n).2.placements = db.placements ∧
    (find_or_create_region db n).2.creatives = db.creatives := by
  unfold find_or_create_region
  cases db.regions.find? (fun rg => decide (rg.name = n)) with
  | some rg => exact ⟨⟨[], by simp⟩, rfl, rfl, rfl, rfl⟩
  | none => exact ⟨⟨_, rfl⟩, rfl, rfl, rfl, rfl⟩

theorem fc_campaign_dims (db : DB) (cid : ℕ) (n s : String) :
    (∃ e, (find_or_create_campaign db cid n s).2.campaigns = db.campaigns ++ e) ∧
    (find_or_create_campaign db cid n s).2.strategies = db.strategies ∧
    (find_or_create_campaign db cid n s).2.placements = db.placements ∧
    (find_or_create_campaign db cid n s).2.creatives = db.creatives ∧
    (find_or_create_campaign db cid n s).2.regions = db.regions := by
  unfold find_or_create_campaign
  cases db.campaigns.find? (fun c => decide (c.client_id = cid) && decide (c.name = n) &&
      decide (c.source = s)) with
  | some c => exact ⟨⟨[], by simp⟩, rfl, rfl, rfl, rfl⟩
  | none => exact ⟨⟨_, rfl⟩, rfl, rfl, rfl, rfl⟩

theorem fc_strategy_dims (db : DB) (k : ℕ) (n : String) :
    (∃ e, (find_or_create_strategy db k n).2.strategies = db.strategies ++ e) ∧
    (find_or_create_strategy db k n).2.campaigns = db.campaigns ∧
    (find_or_create_strategy db k n).2.placements = db.placements ∧
    (find_or_create_strategy db k n).2.creatives = db.creatives ∧
    (find_or_create_strategy db k n).2.regions = db.regions := by
  unfold find_or_create_strategy
  cases db.strategies.find? (fun st => decide (st.campaign_id = k) && decide (st.name = n)) with
  | some st => exact ⟨⟨[], by simp⟩, rfl, rfl, rfl, rfl⟩
  | none => exact ⟨⟨_, rfl⟩, rfl, rfl, rfl, rfl⟩

theorem fc_placement_dims (db : DB) (k : ℕ) (n : String) :
    (∃ e, (find_or_create_placement db k n).2.placements = db.placements ++ e) ∧
    (find_or_create_placement db k n).2.campaigns = db.campaigns ∧
    (find_or_create_placement db k n).2.strategies = db.strategies ∧
    (find_or_create_placement db k n).2.creatives = db.creatives ∧
    (find_or_create_placement db k n).2.regions = db.regions := by
  unfold find_or_create_placement
  cases db.placements.find? (fun p => decide (p.strategy_id = k) && decide (p.name = n)) with
  | some p => exact ⟨⟨[], by simp⟩, rfl, rfl, rfl, rfl⟩
  | none => exact ⟨⟨_, rfl⟩, rfl, rfl, rfl, rfl⟩

theorem fc_creative_dims (db : DB) (n : String) (pid : ℕ) {cr : Creative} {db' : DB}
    (h : find_or_create_creative db n (Option.some pid) Option.none = .ok (cr, db')) :
    (∃ e, db'.creatives = db.creatives ++ e) ∧
    db'.campaigns = db.campaigns ∧ db'.strategies = db.strategies ∧
    db'.placements = db.placements ∧ db'.regions = db.regions := by
  unfold find_or_create_creative at h
  rw [if_neg (by simp)] at h
  revert h
  split
  · intro h
    cases h
    exact ⟨⟨[], by simp⟩, rfl, rfl, rfl, rfl⟩
  · intro h
    cases h
    exact ⟨⟨_, rfl⟩, rfl, rfl, rfl, rfl⟩

theorem find_or_create_region_found {db : DB} {n : String} {rg : Region}
    (h : db.regions.find? (fun x => decide (x.name = n)) = some rg) :
    find_or_create_region db n = (rg, db) := by
  unfold find_or_create_region
  rw [h]

theorem find_or_create_region_resolved (db : DB) (n : String) :
    (find_or_create_region db n).2.regions.find? (fun x => decide (x.name = n)) =
      some (find_or_create_region db n).1 := by
  unfold find_or_create_region
  cases hf : db.regions.find? (fun x => decide (x.name = n)) with
  | some rg => simpa using hf
  | none =>
    dsimp only
    rw [find?_append_of_none hf]
    simp [List.find?]

theorem find_or_create_region_stable (db db2 : DB) (n : String)
    (hext : ∃ e, db2.regions = (find_or_create_region db n).2.regions ++ e) :
    find_or_create_region db2 n = ((find_or_create_region db n).1, db2) := by
  obtain ⟨e, he⟩ := hext
  apply find_or_create_region_found
  rw [he]
  exact find?_append_of_some (find_or_create_region_resolved db n)

theorem find_or_create_campaign_found {db : DB} {cid : ℕ} {n s : String} {c : Campaign}
    (h : db.campaigns.find? (fun c => decide (c.client_id = cid) && decide (c.name = n) &&
      decide (c.source = s)) = some c) :
    find_or_create_campaign db cid n s = (c, db) := by
  unfold find_or_create_campaign
  rw [h]

theorem find_or_create_campaign_resolved (db : DB) (cid : ℕ) (n s : String) :
    (find_or_create_campaign db cid n s).2.campaigns.find?
        (fun c => decide (c.client_id = cid) && decide (c.name = n) &&
          decide (c.source = s)) =
      some (find_or_create_campaign db cid n s).1 := by
  unfold find_or_create_campaign
  cases hf : db.campaigns.find? (fun c => decide (c.client_id = cid) && decide (c.name = n) &&
      decide (c.source = s)) with
  | some c => simpa using hf
  | none =>
    dsimp only
    rw [find?_append_of_none hf]
    simp [List.find?]

theorem find_or_create_campaign_stable (db db2 : DB) (cid : ℕ) (n s : String)
    (hext : ∃ e, db2.campaigns = (find_or_create_campaign db cid n s).2.campaigns ++ e) :
    find_or_create_campaign db2 cid n s = ((find_or_create_campaign db cid n s).1, db2) := by
  obtain ⟨e, he⟩ := hext
  apply find_or_create_campaign_found
  rw [he]
  exact find?_append_of_some (find_or_create_campaign_resolved db cid n s)

theorem find_or_create_strategy_found {db : DB} {k : ℕ} {n : String} {s : Strategy}
    (h : db.strategies.find? (fun s => decide (s.campaign_id = k) && decide (s.name = n)) =
      some s) :
    find_or_create_strategy db k n = (s, db) := by
  unfold find_or_create_strategy
  rw [h]

theorem find_or_create_strategy_resolved (db : DB) (k : ℕ) (n : String) :
    (find_or_create_strategy db k n).2.strategies.find?
        (fun s => decide (s.campaign_id = k) && decide (s.name = n)) =
      some (find_or_create_strategy db k n).1 := by
  unfold find_or_create_strategy
  cases hf : db.strategies.find? (fun s => decide (s.campaign_id = k) && decide (s.name = n)) with
  | some s => simpa using hf
  | none =>
    dsimp only
    rw [find?_append_of_none hf]
    simp [List.find?]

theorem find_or_create_strategy_stable (db db2 : DB) (k : ℕ) (n : String)
    (hext : ∃ e, db2.strategies = (find_or_create_strategy db k n).2.strategies ++ e) :
    find_or_create_strategy db2 k n = ((find_or_create_strategy db k n).1, db2) := by
  obtain ⟨e, he⟩ := hext
  apply find_or_create_strategy_found
  rw [he]
  exact find?_append_of_some (find_or_create_strategy_resolved db k n)

theorem find_or_create_placement_found {db : DB} {k : ℕ} {n : String} {p : Placement}
    (h : db.placements.find? (fun p => decide (p.strategy_id = k) && decide (p.name = n)) =
      some p) :
    find_or_create_placement db k n = (p, db) := by
  unfold find_or_create_placement
  rw [h]

theorem find_or_create_placement_resolved (db : DB) (k : ℕ) (n : String) :
    (find_or_create_placement db k n).2.placements.find?
        (fun p => decide (p.strategy_id = k) && decide (p.name = n)) =
      some (find_or_create_placement db k n).1 := by
  unfold find_or_create_placement
  cases hf : db.placements.find? (fun p => decide (p.strategy_id = k) && decide (p.name = n)) with
  | some p => simpa using hf
  | none =>
    dsimp only
    rw [find?_append_of_none hf]
    simp [List.find?]

theorem find_or_create_placement_stable (db db2 : DB) (k : ℕ) (n : String)
    (hext : ∃ e, db2.placements = (find_or_create_placement db k n).2.placements ++ e) :
    find_or_create_placement db2 k n = ((find_or_create_placement db k n).1, db2) := by
  obtain ⟨e, he⟩ := hext
  apply find_or_create_placement_found
  rw [he]
  exact find?_append_of_some (find_or_create_placement_resolved db k n)

theorem find_or_create_creative_found {db : DB} {n : String} {pid : ℕ} {cr : Creative}
    (h : db.creatives.find?
        (fun cr => decide (cr.name = n) &&
          (decide ((Option.some pid : Option ℕ) = Option.none) ||
            decide (cr.placement_id = Option.some pid)) &&
          (decide ((Option.none : Option ℕ) = Option.none) ||
            decide (cr.campaign_id = Option.none))) = some cr) :
    find_or_create_creative db n (Option.some pid) Option.none = .ok (cr, db) := by
  unfold find_or_create_creative
  rw [if_neg (by simp)]
  rw [h]

theorem find_or_create_creative_resolved (db : DB) (n : String) (pid : ℕ) {cr : Creative}
    {db' : DB} (h : find_or_create_creative db n (Option.some pid) Option.none = .ok (cr, db')) :
    db'.creatives.find?
        (fun cr => decide (cr.name = n) &&
          (decide ((Option.some pid : Option ℕ) = Option.none) ||
            decide (cr.placement_id = Option.some pid)) &&
          (decide ((Option.none : Option ℕ) = Option.none) ||
            decide (cr.campaign_id = Option.none))) = some cr := by
  unfold find_or_create_creative at h
  rw [if_neg (by simp)] at h
  revert h
  cases hf : db.creatives.find?
      (fun cr => decide (cr.name = n) &&
        (decide ((Option.some pid : Option ℕ) = Option.none) ||
          decide (cr.placement_id = Option.some pid)) &&
        (decide ((Option.none : Option ℕ) = Option.none) ||
          decide (cr.campaign_id = Option.none))) with
  | some cr0 =>
    intro h
    cases h
    exact hf
  | none =>
    intro h
    cases h
    rw [find?_append_of_none hf]
    simp [List.find?]

theorem find_or_create_creative_stable (db db2 : DB) (n : String) (pid : ℕ) {cr : Creative}
    {db' : DB} (h : find_or_create_creative db n (Option.some pid) Option.none = .ok (cr, db'))
    (hext : ∃ e, db2.creatives = db'.creatives ++ e) :
    find_or_create_creative db2 n (Option.some pid) Option.none = .ok (cr, db2) := by
  obtain ⟨e, he⟩ := hext
  apply find_or_create_creative_found
  rw [he]
  exact find?_append_of_some (find_or_create_creative_resolved db n pid h)

set_option maxHeartbeats 1000000 in
theorem create_hierarchy_surfside_stable (db db2 : DB) (cid : ℕ) (crn : String)
    (cn sn pn rn : Option String) {h : Hier} {db1 : DB}
    (heq : create_hierarchy db cid "surfside" crn cn sn pn rn = .ok (h, db1))
    (hext : DimExt db2 db1) :
    create_hierarchy db2 cid "surfside" crn cn sn pn rn = .ok (h, db2) := by
  unfold create_hierarchy at heq ⊢
  cases rn with
  | none =>
    dsimp only at heq ⊢
    rw [if_neg (by decide : ¬ ("surfside" : String) = "facebook"), if_pos rfl] at heq ⊢
    generalize hsn : (if ¬ truthy sn then "Unknown Strategy" else sn.getD "") = sname at heq ⊢
    generalize hpn : (if ¬ truthy pn then "Unknown Placement" else pn.getD "") = pname at heq ⊢
    split at heq
    · exact absurd heq (by simp)
    · rename_i cr dbD hcre
      cases heq
      obtain ⟨⟨e1, x1⟩, ⟨e2, x2⟩, ⟨e3, x3⟩, ⟨e4, x4⟩, ⟨e5, x5⟩⟩ := hext
      obtain ⟨⟨eD, cD⟩, pD1, pD2, pD3, pD4⟩ := fc_creative_dims _ crn _ hcre
      have hC := fc_placement_dims (find_or_create_strategy (find_or_create_campaign db cid "Surfside General" "surfside").2
          (find_or_create_campaign db cid "Surfside General" "surfside").1.id sname).2
        (find_or_create_strategy (find_or_create_campaign db cid "Surfside General" "surfside").2
          (find_or_create_campaign db cid "Surfside General" "surfside").1.id sname).1.id pname
      have hB := fc_strategy_dims (find_or_create_campaign db cid "Surfside General" "surfside").2
        (find_or_create_campaign db cid "Surfside General" "surfside").1.id sname
      rw [find_or_create_campaign_stable db db2 cid "Surfside General" "surfside"
        (by
          refine ⟨e1, ?_⟩
          rw [x1, pD1, hC.2.1, hB.2.1])]
      dsimp only
      rw [find_or_create_strategy_stable (find_or_create_campaign db cid "Surfside General" "surfside").2 db2
        (find_or_create_campaign db cid "Surfside General" "surfside").1.id sname
        (by
          refine ⟨e2, ?_⟩
          rw [x2, pD2, hC.2.2.1])]
      dsimp only
      rw [find_or_create_placement_stable (find_or_create_strategy (find_or_create_campaign db cid "Surfside General" "surfside").2
          (find_or_create_campaign db cid "Surfside General" "surfside").1.id sname).2 db2
        (find_or_create_strategy (find_or_create_campaign db cid "Surfside General" "surfside").2
          (find_or_create_campaign db cid "Surfside General" "surfside").1.id sname).1.id pname
        (by
          refine ⟨e3, ?_⟩
          rw [x3, pD3])]
      dsimp only
      rw [find_or_create_creative_stable (find_or_create_placement (find_or_create_strategy (find_or_create_campaign db cid "Surfside General" "surfside").2
          (find_or_create_campaign db cid "Surfside General" "surfside").1.id sname).2
          (find_or_create_strategy (find_or_create_campaign db cid "Surfside General" "surfside").2
            (find_or_create_campaign db cid "Surfside General" "surfside").1.id sname).1.id pname).2 db2 crn
        (find_or_create_placement (find_or_create_strategy (find_or_create_campaign db cid "Surfside General" "surfside").2
          (find_or_create_campaign db cid "Surfside General" "surfside").1.id sname).2
          (find_or_create_strategy (find_or_create_campaign db cid "Surfside General" "surfside").2
            (find_or_create_campaign db cid "Surfside General" "surfside").1.id sname).1.id
          pname).1.id hcre ⟨e4, by rw [x4, cD, List.append_assoc]⟩]
      try rfl
  | some s =>
    by_cases hs : s ≠ ""
    · dsimp only at heq ⊢
      rw [if_pos hs] at heq ⊢
      dsimp only at heq ⊢
      rw [if_neg (by decide : ¬ ("surfside" : String) = "facebook"), if_pos rfl] at heq ⊢
      generalize hsn : (if ¬ truthy sn then "Unknown Strategy" else sn.getD "") = sname at heq ⊢
      generalize hpn : (if ¬ truthy pn then "Unknown Placement" else pn.getD "") = pname at heq ⊢
      split at heq
      · exact absurd heq (by simp)
      · rename_i cr dbD hcre
        cases heq
        rw [find_or_create_region_stable db db2 s
          (by
            obtain ⟨⟨e1, x1⟩, ⟨e2, x2⟩, ⟨e3, x3⟩, ⟨e4, x4⟩, ⟨e5, x5⟩⟩ := hext
            obtain ⟨⟨eD, cD⟩, pD1, pD2, pD3, pD4⟩ := fc_creative_dims _ crn _ hcre
            refine ⟨e5, ?_⟩
            rw [x5, pD4]
            rw [(fc_placement_dims _ _ pname).2.2.2.2, (fc_strategy_dims _ _ sname).2.2.2.2,
              (fc_campaign_dims _ cid "Surfside General" "surfside").2.2.2.2])]
        dsimp only
        obtain ⟨⟨e1, x1⟩, ⟨e2, x2⟩, ⟨e3, x3⟩, ⟨e4, x4⟩, ⟨e5, x5⟩⟩ := hext
        obtain ⟨⟨eD, cD⟩, pD1, pD2, pD3, pD4⟩ := fc_creative_dims _ crn _ hcre
        have hC := fc_placement_dims (find_or_create_strategy (find_or_create_campaign (find_or_create_region db s).2 cid "Surfside General" "surfside").2
            (find_or_create_campaign (find_or_create_region db s).2 cid "Surfside General" "surfside").1.id sname).2
          (find_or_create_strategy (find_or_create_campaign (find_or_create_region db s).2 cid "Surfside General" "surfside").2
            (find_or_create_campaign (find_or_create_region db s).2 cid "Surfside General" "surfside").1.id sname).1.id pname
        have hB := fc_strategy_dims (find_or_create_campaign (find_or_create_region db s).2 cid "Surfside General" "surfside").2
          (find_or_create_campaign (find_or_create_region db s).2 cid "Surfside General" "surfside").1.id sname
        rw [find_or_create_campaign_stable (find_or_create_region db s).2 db2 cid "Surfside General" "surfside"
          (by
            refine ⟨e1, ?_⟩
            rw [x1, pD1, hC.2.1, hB.2.1])]
        dsimp only
        rw [find_or_create_strategy_stable (find_or_create_campaign (find_or_create_region db s).2 cid "Surfside General" "surfside").2 db2
          (find_or_create_campaign (find_or_create_region db s).2 cid "Surfside General" "surfside").1.id sname
          (by
            refine ⟨e2, ?_⟩
            rw [x2, pD2, hC.2.2.1])]
        dsimp only
        rw [find_or_create_placement_stable (find_or_create_strategy (find_or_create_campaign (find_or_create_region db s).2 cid "Surfside General" "surfside").2
            (find_or_create_campaign (find_or_create_region db s).2 cid "Surfside General" "surfside").1.id sname).2 db2
          (find_or_create_strategy (find_or_create_campaign (find_or_create_region db s).2 cid "Surfside General" "surfside").2
            (find_or_create_campaign (find_or_create_region db s).2 cid "Surfside General" "surfside").1.id sname).1.id pname
          (by
            refine ⟨e3, ?_⟩
            rw [x3, pD3])]
        dsimp only
        rw [find_or_create_creative_stable (find_or_create_placement (find_or_create_strategy (find_or_create_campaign (find_or_create_region db s).2 cid "Surfside General" "surfside").2
            (find_or_create_campaign (find_or_create_region db s).2 cid "Surfside General" "surfside").1.id sname).2
            (find_or_create_strategy (find_or_create_campaign (find_or_create_region db s).2 cid "Surfside General" "surfside").2
              (find_or_create_campaign (find_or_create_region db s).2 cid "Surfside General" "surfside").1.id sname).1.id pname).2 db2 crn
          (find_or_create_placement (find_or_create_strategy (find_or_create_campaign (find_or_create_region db s).2 cid "Surfside General" "surfside").2
            (find_or_create_campaign (find_or_create_region db s).2 cid "Surfside General" "surfside").1.id sname).2
            (find_or_create_strategy (find_or_create_campaign (find_or_create_region db s).2 cid "Surfside General" "surfside").2
              (find_or_create_campaign (find_or_create_region db s).2 cid "Surfside General" "surfside").1.id sname).1.id
            pname).1.id hcre ⟨e4, by rw [x4, cD, List.append_assoc]⟩]
        try rfl
    · dsimp only at heq ⊢
      rw [if_neg hs] at heq ⊢
      dsimp only at heq ⊢
      rw [if_neg (by decide : ¬ ("surfside" : String) = "facebook"), if_pos rfl] at heq ⊢
      generalize hsn : (if ¬ truthy sn then "Unknown Strategy" else sn.getD "") = sname at heq ⊢
      generalize hpn : (if ¬ truthy pn then "Unknown Placement" else pn.getD "") = pname at heq ⊢
      split at heq
      · exact absurd heq (by simp)
      · rename_i cr dbD hcre
        cases heq
        obtain ⟨⟨e1, x1⟩, ⟨e2, x2⟩, ⟨e3, x3⟩, ⟨e4, x4⟩, ⟨e5, x5⟩⟩ := hext
        obtain ⟨⟨eD, cD⟩, pD1, pD2, pD3, pD4⟩ := fc_creative_dims _ crn _ hcre
        have hC := fc_placement_dims (find_or_create_strategy (find_or_create_campaign db cid "Surfside General" "surfside").2
            (find_or_create_campaign db cid "Surfside General" "surfside").1.id sname).2
          (find_or_create_strategy (find_or_create_campaign db cid "Surfside General" "surfside").2
            (find_or_create_campaign db cid "Surfside General" "surfside").1.id sname).1.id pname
        have hB := fc_strategy_dims (find_or_create_campaign db cid "Surfside General" "surfside").2
          (find_or_create_campaign db cid "Surfside General" "surfside").1.id sname
        rw [find_or_create_campaign_stable db db2 cid "Surfside General" "surfside"
          (by
            refine ⟨e1, ?_⟩
            rw [x1, pD1, hC.2.1, hB.2.1])]
        dsimp only
        rw [find_or_create_strategy_stable (find_or_create_campaign db cid "Surfside General" "surfside").2 db2
          (find_or_create_campaign db cid "Surfside General" "surfside").1.id sname
          (by
            refine ⟨e2, ?_⟩
            rw [x2, pD2, hC.2.2.1])]
        dsimp only
        rw [find_or_create_placement_stable (find_or_create_strategy (find_or_create_campaign db cid "Surfside General" "surfside").2
            (find_or_create_campaign db cid "Surfside General" "surfside").1.id sname).2 db2
          (find_or_create_strategy (find_or_create_campaign db cid "Surfside General" "surfside").2
            (find_or_create_campaign db cid "Surfside General" "surfside").1.id sname).1.id pname
          (by
            refine ⟨e3, ?_⟩
            rw [x3, pD3])]
        dsimp only
        rw [find_or_create_creative_stable (find_or_create_placement (find_or_create_strategy (find_or_create_campaign db cid "Surfside General" "surfside").2
            (find_or_create_campaign db cid "Surfside General" "surfside").1.id sname).2
            (find_or_create_strategy (find_or_create_campaign db cid "Surfside General" "surfside").2
              (find_or_create_campaign db cid "Surfside General" "surfside").1.id sname).1.id pname).2 db2 crn
          (find_or_create_placement (find_or_create_strategy (find_or_create_campaign db cid "Surfside General" "surfside").2
            (find_or_create_campaign db cid "Surfside General" "surfside").1.id sname).2
            (find_or_create_strategy (find_or_create_campaign db cid "Surfside General" "surfside").2
              (find_or_create_campaign db cid "Surfside General" "surfside").1.id sname).1.id
            pname).1.id hcre ⟨e4, by rw [x4, cD, List.append_assoc]⟩]
        try rfl

theorem fc_region_wm (db : DB) (n : String) :
    (find_or_create_region db n).2.weekly = db.weekly ∧
    (find_or_create_region db n).2.monthly = db.monthly := by
  unfold find_or_create_region
  cases db.regions.find? (fun rg => decide (rg.name = n)) <;> exact ⟨rfl, rfl⟩

theorem fc_campaign_wm (db : DB) (cid : ℕ) (n s : String) :
    (find_or_create_campaign db cid n s).2.weekly = db.weekly ∧
    (find_or_create_campaign db cid n s).2.monthly = db.monthly := by
  unfold find_or_create_campaign
  cases db.campaigns.find? (fun c => decide (c.client_id = cid) && decide (c.name = n) &&
    decide (c.source = s)) <;> exact ⟨rfl, rfl⟩

theorem fc_strategy_wm (db : DB) (k : ℕ) (n : String) :
    (find_or_create_strategy db k n).2.weekly = db.weekly ∧
    (find_or_create_strategy db k n).2.monthly = db.monthly := by
  unfold find_or_create_strategy
  cases db.strategies.find? (fun st => decide (st.campaign_id = k) && decide (st.name = n)) <;>
    exact ⟨rfl, rfl⟩

theorem fc_placement_wm (db : DB) (k : ℕ) (n : String) :
    (find_or_create_placement db k n).2.weekly = db.weekly ∧
    (find_or_create_placement db k n).2.monthly = db.monthly := by
  unfold find_or_create_placement
  cases db.placements.find? (fun p => decide (p.strategy_id = k) && decide (p.name = n)) <;>
    exact ⟨rfl, rfl⟩

theorem fc_creative_wm (db : DB) (n : String) (pid : ℕ) {cr : Creative} {db' : DB}
    (h : find_or_create_creative db n (Option.some pid) Option.none = .ok (cr, db')) :
    db'.weekly = db.weekly ∧ db'.monthly = db.monthly := by
  unfold find_or_create_creative at h
  rw [if_neg (by simp)] at h
  revert h
  split
  · intro h
    cases h
    exact ⟨rfl, rfl⟩
  · intro h
    cases h
    exact ⟨rfl, rfl⟩

theorem dimExt_fc_region (db : DB) (n : String) : DimExt (find_or_create_region db n).2 db := by
  obtain ⟨he, h1, h2, h3, h4⟩ := fc_region_dims db n
  exact ⟨⟨[], by simp [h1]⟩, ⟨[], by simp [h2]⟩, ⟨[], by simp [h3]⟩, ⟨[], by simp [h4]⟩, he⟩

theorem dimExt_fc_campaign (db : DB) (cid : ℕ) (n s : String) :
    DimExt (find_or_create_campaign db cid n s).2 db := by
  obtain ⟨he, h1, h2, h3, h4⟩ := fc_campaign_dims db cid n s
  exact ⟨he, ⟨[], by simp [h1]⟩, ⟨[], by simp [h2]⟩, ⟨[], by simp [h3]⟩, ⟨[], by simp [h4]⟩⟩

theorem dimExt_fc_strategy (db : DB) (k : ℕ) (n : String) :
    DimExt (find_or_create_strategy db k n).2 db := by
  obtain ⟨he, h1, h2, h3, h4⟩ := fc_strategy_dims db k n
  exact ⟨⟨[], by simp [h1]⟩, he, ⟨[], by simp [h2]⟩, ⟨[], by simp [h3]⟩, ⟨[], by simp [h4]⟩⟩

theorem dimExt_fc_placement (db : DB) (k : ℕ) (n : String) :
    DimExt (find_or_create_placement db k n).2 db := by
  obtain ⟨he, h1, h2, h3, h4⟩ := fc_placement_dims db k n
  exact ⟨⟨[], by simp [h1]⟩, ⟨[], by simp [h2]⟩, he, ⟨[], by simp [h3]⟩, ⟨[], by simp [h4]⟩⟩

theorem dimExt_fc_creative (db : DB) (n : String) (pid : ℕ) {cr : Creative} {db' : DB}
    (h : find_or_create_creative db n (Option.some pid) Option.none = .ok (cr, db')) :
    DimExt db' db := by
  obtain ⟨he, h1, h2, h3, h4⟩ := fc_creative_dims db n pid h
  exact ⟨⟨[], by simp [h1]⟩, ⟨[], by simp [h2]⟩, ⟨[], by simp [h3]⟩, he, ⟨[], by simp [h4]⟩⟩

set_option maxHeartbeats 1000000 in
theorem create_hierarchy_surfside_inv (db : DB) (cid : ℕ) (crn : String)
    (cn sn pn rn : Option String) {h : Hier} {db1 : DB}
    (heq : create_hierarchy db cid "surfside" crn cn sn pn rn = .ok (h, db1)) :
    DimExt db1 db ∧ db1.weekly = db.weekly ∧ db1.monthly = db.monthly := by
  unfold create_hierarchy at heq
  cases rn with
  | none =>
    dsimp only at heq
    rw [if_neg (by decide : ¬ ("surfside" : String) = "facebook"), if_pos rfl] at heq
    generalize hsn : (if ¬ truthy sn then "Unknown Strategy" else sn.getD "") = sname at heq
    generalize hpn : (if ¬ truthy pn then "Unknown Placement" else pn.getD "") = pname at heq
    split at heq
    · exact absurd heq (by simp)
    · rename_i cr dbD hcre
      cases heq
      refine ⟨dimExt_trans (dimExt_trans (dimExt_trans
          (dimExt_fc_campaign db cid "Surfside General" "surfside")
          (dimExt_fc_strategy _ _ sname)) (dimExt_fc_placement _ _ pname))
          (dimExt_fc_creative _ crn _ hcre), ?_, ?_⟩
      · rw [(fc_creative_wm _ crn _ hcre).1, (fc_placement_wm _ _ pname).1,
          (fc_strategy_wm _ _ sname).1, (fc_campaign_wm db cid "Surfside General" "surfside").1]
      · rw [(fc_creative_wm _ crn _ hcre).2, (fc_placement_wm _ _ pname).2,
          (fc_strategy_wm _ _ sname).2, (fc_campaign_wm db cid "Surfside General" "surfside").2]
  | some s =>
    by_cases hs : s ≠ ""
    · dsimp only at heq
      rw [if_pos hs] at heq
      dsimp only at heq
      rw [if_neg (by decide : ¬ ("surfside" : String) = "facebook"), if_pos rfl] at heq
      generalize hsn : (if ¬ truthy sn then "Unknown Strategy" else sn.getD "") = sname at heq
      generalize hpn : (if ¬ truthy pn then "Unknown Placement" else pn.getD "") = pname at heq
      split at heq
      · exact absurd heq (by simp)
      · rename_i cr dbD hcre
        cases heq
        refine ⟨dimExt_trans (dimExt_trans (dimExt_trans (dimExt_trans
            (dimExt_fc_region db s)
            (dimExt_fc_campaign _ cid "Surfside General" "surfside"))
            (dimExt_fc_strategy _ _ sname)) (dimExt_fc_placement _ _ pname))
            (dimExt_fc_creative _ crn _ hcre), ?_, ?_⟩
        · rw [(fc_creative_wm _ crn _ hcre).1, (fc_placement_wm _ _ pname).1,
            (fc_strategy_wm _ _ sname).1,
            (fc_campaign_wm _ cid "Surfside General" "surfside").1, (fc_region_wm db s).1]
        · rw [(fc_creative_wm _ crn _ hcre).2, (fc_placement_wm _ _ pname).2,
            (fc_strategy_wm _ _ sname).2,
            (fc_campaign_wm _ cid "Surfside General" "surfside").2, (fc_region_wm db s).2]
    · dsimp only at heq
      rw [if_neg hs] at heq
      dsimp only at heq
      rw [if_neg (by decide : ¬ ("surfside" : String) = "facebook"), if_pos rfl] at heq
      generalize hsn : (if ¬ truthy sn then "Unknown Strategy" else sn.getD "") = sname at heq
      generalize hpn : (if ¬ truthy pn then "Unknown Placement" else pn.getD "") = pname at heq
      split at heq
      · exact absurd heq (by simp)
      · rename_i cr dbD hcre
        cases heq
        refine ⟨dimExt_trans (dimExt_trans (dimExt_trans
            (dimExt_fc_campaign db cid "Surfside General" "surfside")
            (dimExt_fc_strategy _ _ sname)) (dimExt_fc_placement _ _ pname))
            (dimExt_fc_creative _ crn _ hcre), ?_, ?_⟩
        · rw [(fc_creative_wm _ crn _ hcre).1, (fc_placement_wm _ _ pname).1,
            (fc_strategy_wm _ _ sname).1, (fc_campaign_wm db cid "Surfside General" "surfside").1]
        · rw [(fc_creative_wm _ crn _ hcre).2, (fc_placement_wm _ _ pname).2,
            (fc_strategy_wm _ _ sname).2, (fc_campaign_wm db cid "Surfside General" "surfside").2]

end CampaignService
namespace LoaderService

theorem resolveHier_of_ok {db : DB} {cid : ℕ} {r : NRec} {h : Hier} {db1 : DB}
    (heq : create_hierarchy db cid "surfside" r.creative_name (Option.some r.campaign_name)
      (Option.some r.strategy_name) (Option.some r.placement_name) r.region_name =
      .ok (h, db1)) :
    resolveHier db cid r = h := by
  unfold resolveHier
  rw [heq]

theorem factKeyT_of_ok {db : DB} {cid : ℕ} {r : NRec} {h : Hier} {db1 : DB}
    (heq : create_hierarchy db cid "surfside" r.creative_name (Option.some r.campaign_name)
      (Option.some r.strategy_name) (Option.some r.placement_name) r.region_name =
      .ok (h, db1)) :
    factKeyT db cid r =
      { client_id := cid, date := r.date, creative_id := h.creative.id, source := "surfside",
        campaign_id := h.campaign.map Campaign.id, strategy_id := h.strategy.map Strategy.id,
        placement_id := h.placement.map Placement.id,
        region_id := h.region.map Region.id } := by
  unfold factKeyT
  rw [resolveHier_of_ok heq]

theorem cpmOf_congr {d db : DB} (h1 : d.cpms = db.cpms) (h2 : d.now = db.now)
    (cid : ℕ) (s : String) : cpmOf d cid s = cpmOf db cid s := by
  unfold cpmOf ClientService.get_current_cpm
  rw [h1, h2]

theorem metricsOf_congr {d db : DB} (h1 : d.cpms = db.cpms) (h2 : d.now = db.now)
    (cid : ℕ) (r : NRec) : metricsOf d cid r = metricsOf db cid r := by
  unfold metricsOf
  rw [cpmOf_congr h1 h2]

theorem load_one_surfside_inv (t : DB) (cid idx : ℕ) (r : NRec) {t' : DB}
    (heq : load_one t cid idx r "surfside" = .ok t') :
    ∃ h db1,
      create_hierarchy t cid "surfside" r.creative_name (Option.some r.campaign_name)
          (Option.some r.strategy_name) (Option.some r.placement_name) r.region_name =
        .ok (h, db1) ∧
      resolveHier t cid r = h ∧
      db1.facts = t.facts ∧ db1.staging = t.staging ∧ db1.cpms = t.cpms ∧ db1.now = t.now ∧
      DimExt db1 t ∧ db1.weekly = t.weekly ∧ db1.monthly = t.monthly ∧
      t'.campaigns = db1.campaigns ∧ t'.strategies = db1.strategies ∧
      t'.placements = db1.placements ∧ t'.creatives = db1.creatives ∧
      t'.regions = db1.regions ∧ t'.staging = db1.staging ∧ t'.cpms = db1.cpms ∧
      t'.now = db1.now ∧ t'.weekly = db1.weekly ∧ t'.monthly = db1.monthly ∧
      ((∃ x, db1.facts.find? (keyPredOf (factKeyT t cid r)) = some x ∧
          t'.facts = updateFirst (keyPredOf (factKeyT t cid r))
            (factUpdate r (metricsOf t cid r)) db1.facts ∧
          t'.nextId = db1.nextId) ∨
        (db1.facts.find? (keyPredOf (factKeyT t cid r)) = Option.none ∧
          t'.facts = db1.facts ++
            [mkFact db1.nextId cid r (metricsOf t cid r) (h.campaign.map Campaign.id)
              (h.strategy.map Strategy.id) (h.placement.map Placement.id)
              (h.region.map Region.id) h.creative.id "surfside"] ∧
          t'.nextId = db1.nextId + 1)) := by
  have hok := load_one_ok_not_fail heq
  unfold load_one at heq
  obtain ⟨h, db1, hch, hcamp, hfr⟩ := create_hierarchy_surfside_ok t cid
    r.creative_name (Option.some r.campaign_name) (Option.some r.strategy_name)
    (Option.some r.placement_name) r.region_name
  rw [hch] at heq
  dsimp only at heq
  rw [if_neg (fail_cond_neg idx r _ hok)] at heq
  have hinv := create_hierarchy_surfside_inv t cid r.creative_name (Option.some r.campaign_name)
    (Option.some r.strategy_name) (Option.some r.placement_name) r.region_name hch
  rw [factKeyPred_eq_keyPredOf, ← factKeyT_of_ok hch] at heq
  rw [show MetricsCalculator.calculate_all_metrics r.impressions r.clicks r.conversions
      r.conversion_revenue (cpmOf t cid "surfside") = metricsOf t cid r from rfl] at heq
  refine ⟨h, db1, hch, resolveHier_of_ok hch, hfr.1, hfr.2.1, hfr.2.2.1, hfr.2.2.2,
    hinv.1, hinv.2.1, hinv.2.2, ?_⟩
  cases hfind : db1.facts.find? (keyPredOf (factKeyT t cid r)) with
  | some x =>
    rw [hfind] at heq
    dsimp only at heq
    cases heq
    exact ⟨rfl, rfl, rfl, rfl, rfl, rfl, rfl, rfl, rfl, rfl,
      Or.inl ⟨x, rfl, rfl, rfl⟩⟩
  | none =>
    rw [hfind] at heq
    dsimp only at heq
    cases heq
    exact ⟨rfl, rfl, rfl, rfl, rfl, rfl, rfl, rfl, rfl, rfl,
      Or.inr ⟨rfl, rfl, rfl⟩⟩

theorem load_one_surfside_hit (s : DB) (cid idx : ℕ) (r : NRec) {h : Hier}
    (hok : verbosePrinted idx = true → r.impressions ≠ 0 ∧ r.clicks ≠ 0)
    (hres : create_hierarchy s cid "surfside" r.creative_name (Option.some r.campaign_name)
      (Option.some r.strategy_name) (Option.some r.placement_name) r.region_name =
      .ok (h, s))
    (hfind : (s.facts.find? (keyPredOf (factKeyT s cid r))).isSome) :
    load_one s cid idx r "surfside" =
      .ok { s with
            facts := updateFirst (keyPredOf (factKeyT s cid r))
              (factUpdate r (metricsOf s cid r)) s.facts } := by
  unfold load_one
  rw [hres]
  dsimp only
  rw [if_neg (fail_cond_neg idx r _ hok)]
  rw [factKeyPred_eq_keyPredOf, ← factKeyT_of_ok hres]
  obtain ⟨x, hx⟩ := Option.isSome_iff_exists.mp hfind
  rw [hx]
  rfl

theorem find?_isSome_append_left {α : Type} {p : α → Bool} {l l' : List α}
    (h : (l.find? p).isSome) : (((l ++ l').find? p).isSome) := by
  obtain ⟨x, hx⟩ := Option.isSome_iff_exists.mp h
  rw [find?_append_of_some hx]
  rfl

theorem loadStep_surfside_props (base : DB) (cid : ℕ) (a : LoadResult) (p : ℕ × NRec)
    (hok : verbosePrinted p.1 = true → p.2.impressions ≠ 0 ∧ p.2.clicks ≠ 0) :
    ∃ db', load_one a.db cid p.1 p.2 "surfside" = .ok db' ∧
      loadStep base cid "surfside" a p = { a with db := db', loaded := a.loaded + 1 } := by
  obtain ⟨db', heq, _⟩ := load_one_surfside_ok a.db cid p.1 p.2 hok
  exact ⟨db', heq, by simp [loadStep, heq]⟩

theorem loader_surfside_fold2 (ps : List (ℕ × NRec)) :
    ∀ (a : LoadResult) (base : DB) (cid : ℕ),
      (∀ p ∈ ps, verbosePrinted p.1 = true → p.2.impressions ≠ 0 ∧ p.2.clicks ≠ 0) →
      DimExt (ps.foldl (loadStep base cid "surfside") a).db a.db ∧
      (ps.foldl (loadStep base cid "surfside") a).db.weekly = a.db.weekly ∧
      (ps.foldl (loadStep base cid "surfside") a).db.monthly = a.db.monthly := by
  induction ps with
  | nil => exact fun a base cid hok => ⟨dimExt_refl a.db, rfl, rfl⟩
  | cons p rest ih =>
    intro a base cid hok
    obtain ⟨db', heq, hstep⟩ := loadStep_surfside_props base cid a p
      (hok p (List.mem_cons_self _ _))
    obtain ⟨h, db1, hch, hh, hf1, hs1, hc1, hn1, hde, hw1, hm1, tc, ts, tp, tcr, trg,
      tst, tcp, tnw, tw, tm, hcases⟩ := load_one_surfside_inv a.db cid p.1 p.2 heq
    rw [List.foldl_cons, hstep]
    obtain ⟨i1, i2, i3⟩ := ih { a with db := db', loaded := a.loaded + 1 } base cid
      (fun q hq => hok q (List.mem_cons_of_mem _ hq))
    have hde' : DimExt db' a.db :=
      dimExt_trans hde (dimExt_of_dims_eq tc ts tp tcr trg)
    exact ⟨dimExt_trans hde' i1, by rw [i2, tw, hw1], by rw [i3, tm, hm1]⟩

theorem run1_find_preserve (ps : List (ℕ × NRec)) :
    ∀ (a : LoadResult) (base : DB) (cid : ℕ) (k : FactKey),
      (∀ p ∈ ps, verbosePrinted p.1 = true → p.2.impressions ≠ 0 ∧ p.2.clicks ≠ 0) →
      ((a.db.facts.find? (keyPredOf k)).isSome) →
      (((ps.foldl (loadStep base cid "surfside") a).db.facts.find? (keyPredOf k)).isSome) := by
  induction ps with
  | nil => exact fun a base cid k hok h => h
  | cons p rest ih =>
    intro a base cid k hok hsome
    obtain ⟨db', heq, hstep⟩ := loadStep_surfside_props base cid a p
      (hok p (List.mem_cons_self _ _))
    obtain ⟨h, db1, hch, hh, hf1, hs1, hc1, hn1, hde, hw1, hm1, tc, ts, tp, tcr, trg,
      tst, tcp, tnw, tw, tm, hcases⟩ := load_one_surfside_inv a.db cid p.1 p.2 heq
    rw [List.foldl_cons, hstep]
    apply ih { a with db := db', loaded := a.loaded + 1 } base cid k
      (fun q hq => hok q (List.mem_cons_of_mem _ hq))
    show ((db'.facts.find? (keyPredOf k)).isSome)
    cases hcases with
    | inl hupd =>
      obtain ⟨x, hx, hfacts, _⟩ := hupd
      rw [hfacts]
      exact find?_isSome_updateFirst (fun f => keyPredOf_factUpdate k p.2 _ f)
        (by rw [hf1]; exact hsome)
    | inr hins =>
      obtain ⟨hnone, hfacts, _⟩ := hins
      rw [hfacts]
      exact find?_isSome_append_left (by rw [hf1]; exact hsome)

theorem run1_keys_nodup (ps : List (ℕ × NRec)) :
    ∀ (a : LoadResult) (base : DB) (cid : ℕ),
      (∀ p ∈ ps, verbosePrinted p.1 = true → p.2.impressions ≠ 0 ∧ p.2.clicks ≠ 0) →
      (a.db.facts.map keyOfFact).Nodup →
      ((ps.foldl (loadStep base cid "surfside") a).db.facts.map keyOfFact).Nodup := by
  induction ps with
  | nil => exact fun a base cid hok h => h
  | cons p rest ih =>
    intro a base cid hok hnd
    obtain ⟨db', heq, hstep⟩ := loadStep_surfside_props base cid a p
      (hok p (List.mem_cons_self _ _))
    obtain ⟨h, db1, hch, hh, hf1, hs1, hc1, hn1, hde, hw1, hm1, tc, ts, tp, tcr, trg,
      tst, tcp, tnw, tw, tm, hcases⟩ := load_one_surfside_inv a.db cid p.1 p.2 heq
    rw [List.foldl_cons, hstep]
    apply ih { a with db := db', loaded := a.loaded + 1 } base cid
      (fun q hq => hok q (List.mem_cons_of_mem _ hq))
    show ((db'.facts.map keyOfFact).Nodup)
    cases hcases with
    | inl hupd =>
      obtain ⟨x, hx, hfacts, _⟩ := hupd
      rw [hfacts, map_updateFirst (fun f => keyOfFact_factUpdate p.2 _ f), hf1]
      exact hnd
    | inr hins =>
      obtain ⟨hnone, hfacts, _⟩ := hins
      rw [hfacts, List.map_append, hf1]
      refine List.Nodup.append hnd (by simp) ?_
      intro k1 hk1 hk2
      simp only [List.map_cons, List.map_nil, List.mem_singleton] at hk2
      rw [List.mem_map] at hk1
      obtain ⟨f, hf, hkf⟩ := hk1
      rw [hf1] at hnone
      rw [List.find?_eq_none] at hnone
      apply hnone f hf
      rw [keyPredOf_iff, hkf, hk2, keyOfFact_mkFact, factKeyT_of_ok hch]

theorem load_one_establishes_done (t : DB) (cid idx : ℕ) (r : NRec) {t' : DB}
    (heq : load_one t cid idx r "surfside" = .ok t') :
    updateFirst (keyPredOf (factKeyT t cid r)) (factUpdate r (metricsOf t cid r)) t'.facts
        = t'.facts ∧
    ((t'.facts.find? (keyPredOf (factKeyT t cid r))).isSome) := by
  obtain ⟨h, db1, hch, hh, hf1, hs1, hc1, hn1, hde, hw1, hm1, tc, ts, tp, tcr, trg,
    tst, tcp, tnw, tw, tm, hcases⟩ := load_one_surfside_inv t cid idx r heq
  cases hcases with
  | inl hupd =>
    obtain ⟨x, hx, hfacts, _⟩ := hupd
    have hpx : keyPredOf (factKeyT t cid r) x = true := List.find?_some hx
    have hfound : (t'.facts.find? (keyPredOf (factKeyT t cid r))) =
        some (factUpdate r (metricsOf t cid r) x) := by
      rw [hfacts]
      exact find?_updateFirst_of_found hx (by rw [keyPredOf_factUpdate]; exact hpx)
    refine ⟨updateFirst_of_self hfound ?_, by rw [hfound]; rfl⟩
    exact factUpdate_factUpdate r (metricsOf t cid r) r (metricsOf t cid r) x
  | inr hins =>
    obtain ⟨hnone, hfacts, _⟩ := hins
    have hkey : keyOfFact (mkFact db1.nextId cid r (metricsOf t cid r)
        (h.campaign.map Campaign.id) (h.strategy.map Strategy.id)
        (h.placement.map Placement.id) (h.region.map Region.id) h.creative.id "surfside") =
        factKeyT t cid r := by
      rw [keyOfFact_mkFact, factKeyT_of_ok hch]
    have hpnew : keyPredOf (factKeyT t cid r) (mkFact db1.nextId cid r (metricsOf t cid r)
        (h.campaign.map Campaign.id) (h.strategy.map Strategy.id)
        (h.placement.map Placement.id) (h.region.map Region.id) h.creative.id "surfside") =
        true := by
      rw [keyPredOf_iff, hkey]
    have hfound : (t'.facts.find? (keyPredOf (factKeyT t cid r))) =
        some (mkFact db1.nextId cid r (metricsOf t cid r)
          (h.campaign.map Campaign.id) (h.strategy.map Strategy.id)
          (h.placement.map Placement.id) (h.region.map Region.id) h.creative.id "surfside") := by
      rw [hfacts, find?_append_of_none hnone]
      simp [List.find?, hpnew]
    refine ⟨?_, by rw [hfound]; rfl⟩
    rw [hfacts, updateFirst_append_right hnone]
    simp only [updateFirst, hpnew, if_true]
    rfl

theorem load_one_preserves_done (t : DB) (cid idx : ℕ) (r' : NRec) {t' : DB}
    (heq : load_one t cid idx r' "surfside" = .ok t') (k : FactKey) (u : Fact → Fact)
    (hukeep : ∀ f g, keyPredOf g (u f) = keyPredOf g f)
    (hne : factKeyT t cid r' ≠ k)
    (hdone : updateFirst (keyPredOf k) u t.facts = t.facts)
    (hsome : (t.facts.find? (keyPredOf k)).isSome) :
    updateFirst (keyPredOf k) u t'.facts = t'.facts ∧
    ((t'.facts.find? (keyPredOf k)).isSome) := by
  obtain ⟨h, db1, hch, hh, hf1, hs1, hc1, hn1, hde, hw1, hm1, tc, ts, tp, tcr, trg,
    tst, tcp, tnw, tw, tm, hcases⟩ := load_one_surfside_inv t cid idx r' heq
  have hdisj : ∀ f, ¬ (keyPredOf k f = true ∧ keyPredOf (factKeyT t cid r') f = true) := by
    intro f ⟨h1, h2⟩
    rw [keyPredOf_iff] at h1 h2
    exact hne (h2 ▸ h1)
  cases hcases with
  | inl hupd =>
    obtain ⟨x, hx, hfacts, _⟩ := hupd
    constructor
    · rw [hfacts, hf1]
      rw [updateFirst_comm hdisj
        (fun f => hukeep f (factKeyT t cid r'))
        (fun f => keyPredOf_factUpdate k r' (metricsOf t cid r') f), hdone]
    · rw [hfacts]
      exact find?_isSome_updateFirst
        (fun f => keyPredOf_factUpdate k r' (metricsOf t cid r') f) (by rw [hf1]; exact hsome)
  | inr hins =>
    obtain ⟨hnone, hfacts, _⟩ := hins
    have hpnew : keyPredOf k (mkFact db1.nextId cid r' (metricsOf t cid r')
        (h.campaign.map Campaign.id) (h.strategy.map Strategy.id)
        (h.placement.map Placement.id) (h.region.map Region.id) h.creative.id "surfside") =
        false := by
      rw [← Bool.not_eq_true]
      intro hcontra
      rw [keyPredOf_iff, keyOfFact_mkFact, ← factKeyT_of_ok hch] at hcontra
      exact hne hcontra
    constructor
    · rw [hfacts, hf1, updateFirst_append_left hsome, hdone]
    · rw [hfacts]
      exact find?_isSome_append_left (by rw [hf1]; exact hsome)

theorem factKeyT_stable_load_one (t : DB) (cid idx : ℕ) (r : NRec) {t' : DB}
    (heq : load_one t cid idx r "surfside" = .ok t') (d : DB) (hext : DimExt d t') :
    create_hierarchy d cid "surfside" r.creative_name (Option.some r.campaign_name)
        (Option.some r.strategy_name) (Option.some r.placement_name) r.region_name =
      .ok (resolveHier t cid r, d) ∧
    factKeyT d cid r = factKeyT t cid r := by
  obtain ⟨h, db1, hch, hh, hf1, hs1, hc1, hn1, hde, hw1, hm1, tc, ts, tp, tcr, trg,
    tst, tcp, tnw, tw, tm, hcases⟩ := load_one_surfside_inv t cid idx r heq
  have hext1 : DimExt d db1 :=
    dimExt_trans (dimExt_of_dims_eq tc ts tp tcr trg) hext
  have hst := create_hierarchy_surfside_stable t d cid r.creative_name
    (Option.some r.campaign_name) (Option.some r.strategy_name)
    (Option.some r.placement_name) r.region_name hch hext1
  rw [hh]
  refine ⟨hst, ?_⟩
  rw [factKeyT_of_ok hst, factKeyT_of_ok hch]

theorem run1_proc (ps : List (ℕ × NRec)) :
    ∀ (a : LoadResult) (base : DB) (cid : ℕ),
      (∀ q ∈ ps, verbosePrinted q.1 = true → q.2.impressions ≠ 0 ∧ q.2.clicks ≠ 0) →
      ∀ p ∈ ps,
      create_hierarchy ((ps.foldl (loadStep base cid "surfside") a).db) cid "surfside"
          p.2.creative_name (Option.some p.2.campaign_name) (Option.some p.2.strategy_name)
          (Option.some p.2.placement_name) p.2.region_name =
        .ok (resolveHier ((ps.foldl (loadStep base cid "surfside") a).db) cid p.2,
          (ps.foldl (loadStep base cid "surfside") a).db) ∧
      ((((ps.foldl (loadStep base cid "surfside") a).db).facts.find?
        (keyPredOf
          (factKeyT ((ps.foldl (loadStep base cid "surfside") a).db) cid p.2))).isSome) := by
  induction ps with
  | nil =>
    intro a base cid hok p hp
    simp at hp
  | cons p0 rest ih =>
    intro a base cid hok p hp
    obtain ⟨db', heq, hstep⟩ := loadStep_surfside_props base cid a p0
      (hok p0 (List.mem_cons_self _ _))
    rw [List.foldl_cons, hstep]
    cases hp with
    | head =>
      have hext := (loader_surfside_fold2 rest
        { a with db := db', loaded := a.loaded + 1 } base cid
        (fun q hq => hok q (List.mem_cons_of_mem _ hq))).1
      have hst := factKeyT_stable_load_one a.db cid p0.1 p0.2 heq
        ((rest.foldl (loadStep base cid "surfside")
          { a with db := db', loaded := a.loaded + 1 }).db) hext
      have hres : resolveHier ((rest.foldl (loadStep base cid "surfside")
          { a with db := db', loaded := a.loaded + 1 }).db) cid p0.2 =
          resolveHier a.db cid p0.2 :=
        resolveHier_of_ok hst.1
      constructor
      · rw [hres]
        exact hst.1
      · rw [hst.2]
        apply run1_find_preserve rest { a with db := db', loaded := a.loaded + 1 } base cid _
          (fun q hq => hok q (List.mem_cons_of_mem _ hq))
        exact (load_one_establishes_done a.db cid p0.1 p0.2 heq).2
    | tail _ hp' =>
      exact ih { a with db := db', loaded := a.loaded + 1 } base cid
        (fun q hq => hok q (List.mem_cons_of_mem _ hq)) p hp'

theorem run1_done_preserve (ps2 : List (ℕ × NRec)) :
    ∀ (a : LoadResult) (base : DB) (cid : ℕ) (k : FactKey) (u : Fact → Fact),
      (∀ q ∈ ps2, verbosePrinted q.1 = true → q.2.impressions ≠ 0 ∧ q.2.clicks ≠ 0) →
      (∀ f g, keyPredOf g (u f) = keyPredOf g f) →
      (∀ p' ∈ ps2, factKeyT ((ps2.foldl (loadStep base cid "surfside") a).db) cid p'.2 ≠ k) →
      updateFirst (keyPredOf k) u a.db.facts = a.db.facts →
      ((a.db.facts.find? (keyPredOf k)).isSome) →
      updateFirst (keyPredOf k) u ((ps2.foldl (loadStep base cid "surfside") a).db).facts =
          ((ps2.foldl (loadStep base cid "surfside") a).db).facts ∧
      ((((ps2.foldl (loadStep base cid "surfside") a).db).facts.find?
        (keyPredOf k)).isSome) := by
  induction ps2 with
  | nil =>
    intro a base cid k u hok hukeep hne hdone hsome
    exact ⟨hdone, hsome⟩
  | cons p' rest ih =>
    intro a base cid k u hok hukeep hne hdone hsome
    obtain ⟨db', heq, hstep⟩ := loadStep_surfside_props base cid a p'
      (hok p' (List.mem_cons_self _ _))
    rw [List.foldl_cons, hstep] at hne ⊢
    have hext := (loader_surfside_fold2 rest
      { a with db := db', loaded := a.loaded + 1 } base cid
      (fun q hq => hok q (List.mem_cons_of_mem _ hq))).1
    have hkeq := (factKeyT_stable_load_one a.db cid p'.1 p'.2 heq
      ((rest.foldl (loadStep base cid "surfside")
        { a with db := db', loaded := a.loaded + 1 }).db) hext).2
    have hne0 : factKeyT a.db cid p'.2 ≠ k := by
      rw [← hkeq]
      exact hne p' (List.mem_cons_self _ _)
    have hd := load_one_preserves_done a.db cid p'.1 p'.2 heq k u hukeep hne0 hdone hsome
    exact ih { a with db := db', loaded := a.loaded + 1 } base cid k u
      (fun q hq => hok q (List.mem_cons_of_mem _ hq)) hukeep
      (fun q hq => hne q (List.mem_cons_of_mem _ hq)) hd.1 hd.2

theorem run1_lastw (ps1 : List (ℕ × NRec)) (p : ℕ × NRec) (ps2 : List (ℕ × NRec))
    (a : LoadResult) (base : DB) (cid : ℕ)
    (hok : ∀ q ∈ ps1 ++ p :: ps2,
      verbosePrinted q.1 = true → q.2.impressions ≠ 0 ∧ q.2.clicks ≠ 0)
    (hne : ∀ p' ∈ ps2,
      factKeyT (((ps1 ++ p :: ps2).foldl (loadStep base cid "surfside") a).db) cid p'.2 ≠
      factKeyT (((ps1 ++ p :: ps2).foldl (loadStep base cid "surfside") a).db) cid p.2) :
    updateFirst
        (keyPredOf (factKeyT (((ps1 ++ p :: ps2).foldl (loadStep base cid "surfside") a).db)
          cid p.2))
        (factUpdate p.2
          (metricsOf (((ps1 ++ p :: ps2).foldl (loadStep base cid "surfside") a).db) cid p.2))
        (((ps1 ++ p :: ps2).foldl (loadStep base cid "surfside") a).db).facts =
      (((ps1 ++ p :: ps2).foldl (loadStep base cid "surfside") a).db).facts := by
  have hok2 : ∀ q ∈ ps2, verbosePrinted q.1 = true →
      q.2.impressions ≠ 0 ∧ q.2.clicks ≠ 0 :=
    fun q hq => hok q (List.mem_append.2 (Or.inr (List.mem_cons_of_mem _ hq)))
  rw [List.foldl_append, List.foldl_cons] at hne ⊢
  obtain ⟨db', heq, hstep⟩ := loadStep_surfside_props base cid
    (ps1.foldl (loadStep base cid "surfside") a) p
    (hok p (List.mem_append.2 (Or.inr (List.mem_cons_self _ _))))
  rw [hstep] at hne ⊢
  obtain ⟨h, db1, hch, hh, hf1, hs1, hc1, hn1, hde, hw1, hm1, tc, ts, tp, tcr, trg,
    tst, tcp, tnw, tw, tm, hcases⟩ :=
    load_one_surfside_inv (ps1.foldl (loadStep base cid "surfside") a).db cid p.1 p.2 heq
  have hext := (loader_surfside_fold2 ps2
    { ps1.foldl (loadStep base cid "surfside") a with
      db := db', loaded := (ps1.foldl (loadStep base cid "surfside") a).loaded + 1 }
    base cid hok2).1
  have hkeq := (factKeyT_stable_load_one (ps1.foldl (loadStep base cid "surfside") a).db cid
    p.1 p.2 heq ((ps2.foldl (loadStep base cid "surfside")
      { ps1.foldl (loadStep base cid "surfside") a with
        db := db', loaded := (ps1.foldl (loadStep base cid "surfside") a).loaded + 1 }).db)
    hext).2
  have hfold := loader_surfside_fold ps2
    { ps1.foldl (loadStep base cid "surfside") a with
      db := db', loaded := (ps1.foldl (loadStep base cid "surfside") a).loaded + 1 } base cid
    hok2
  have hcpms : ((ps2.foldl (loadStep base cid "surfside")
      { ps1.foldl (loadStep base cid "surfside") a with
        db := db', loaded := (ps1.foldl (loadStep base cid "surfside") a).loaded + 1 }).db).cpms
      = (ps1.foldl (loadStep base cid "surfside") a).db.cpms := by
    rw [hfold.2.2.2.1]
    show db'.cpms = _
    rw [tcp, hc1]
  have hnow : ((ps2.foldl (loadStep base cid "surfside")
      { ps1.foldl (loadStep base cid "surfside") a with
        db := db', loaded := (ps1.foldl (loadStep base cid "surfside") a).loaded + 1 }).db).now
      = (ps1.foldl (loadStep base cid "surfside") a).db.now := by
    rw [hfold.2.2.2.2.1]
    show db'.now = _
    rw [tnw, hn1]
  have hmeq := metricsOf_congr hcpms hnow cid p.2
  rw [hkeq, hmeq]
  have hinit := load_one_establishes_done
    (ps1.foldl (loadStep base cid "surfside") a).db cid p.1 p.2 heq
  have hne2 : ∀ p' ∈ ps2,
      factKeyT ((ps2.foldl (loadStep base cid "surfside")
        { ps1.foldl (loadStep base cid "surfside") a with
          db := db', loaded := (ps1.foldl (loadStep base cid "surfside") a).loaded + 1 }).db)
        cid p'.2 ≠ factKeyT (ps1.foldl (loadStep base cid "surfside") a).db cid p.2 := by
    intro p' hp'
    rw [← hkeq]
    exact hne p' hp'
  exact (run1_done_preserve ps2
    { ps1.foldl (loadStep base cid "surfside") a with
      db := db', loaded := (ps1.foldl (loadStep base cid "surfside") a).loaded + 1 } base cid
    (factKeyT (ps1.foldl (loadStep base cid "surfside") a).db cid p.2)
    (factUpdate p.2 (metricsOf (ps1.foldl (loadStep base cid "surfside") a).db cid p.2))
    hok2 (fun f g => keyPredOf_factUpdate g p.2 _ f) hne2 hinit.1 hinit.2).1

theorem keyPredOf_congr {a b : Fact} (k : FactKey) (h : keyOfFact a = keyOfFact b) :
    keyPredOf k a = keyPredOf k b := by
  simp [keyPredOf, h]

theorem factsRel_refl {α : Type} (resfacts : List Fact) (kT : α → FactKey) (rest : List α) :
    ∀ l : List Fact, List.Forall₂ (FactsRel resfacts kT rest) l l := by
  intro l
  induction l with
  | nil => exact List.Forall₂.nil
  | cons a t ih => exact List.Forall₂.cons ⟨rfl, rfl, Or.inl rfl⟩ ih

theorem factsRel_nil_eq {α : Type} {resfacts : List Fact} {kT : α → FactKey} {l m : List Fact}
    (h : List.Forall₂ (FactsRel resfacts kT []) l m) : l = m := by
  induction h with
  | nil => rfl
  | cons hrel htail ih =>
    obtain ⟨_, _, hd⟩ := hrel
    cases hd with
    | inl he => rw [he, ih]
    | inr hw =>
      obtain ⟨r', hr', _⟩ := hw
      simp at hr'

theorem factsRel_find_isSome {α : Type} {resfacts : List Fact} {kT : α → FactKey}
    {rest : List α} {l m : List Fact} (h : List.Forall₂ (FactsRel resfacts kT rest) l m) (k : FactKey) :
    ((m.find? (keyPredOf k)).isSome) → ((l.find? (keyPredOf k)).isSome) := by
  induction h with
  | nil => exact fun h => h
  | cons hrel htail ih =>
    rename_i a b l' m'
    intro hsome
    by_cases hpb : keyPredOf k b = true
    · have hpa : keyPredOf k a = true := by rw [keyPredOf_congr k hrel.1]; exact hpb
      simp [List.find?, hpa]
    · have hpa : ¬ keyPredOf k a = true := by rw [keyPredOf_congr k hrel.1]; exact hpb
      rw [Bool.not_eq_true] at hpa hpb
      simp only [List.find?, hpa, hpb] at hsome ⊢
      exact ih hsome

theorem factsRel_downgrade {α : Type} {resfacts : List Fact} {kT : α → FactKey} {r : α}
    {rest : List α} :
    ∀ {l m : List Fact}, ¬ (kT r) ∈ (m.map keyOfFact) →
      List.Forall₂ (FactsRel resfacts kT (r :: rest)) l m →
      List.Forall₂ (FactsRel resfacts kT rest) l m := by
  intro l m hnotin h
  induction h with
  | nil => exact List.Forall₂.nil
  | cons hrel htail ih =>
    rename_i a b l' m'
    simp only [List.map_cons, List.mem_cons, not_or] at hnotin
    refine List.Forall₂.cons ?_ (ih hnotin.2)
    obtain ⟨hk, hid, hd⟩ := hrel
    refine ⟨hk, hid, ?_⟩
    cases hd with
    | inl he => exact Or.inl he
    | inr hw =>
      obtain ⟨r', hr', hfindw⟩ := hw
      cases List.mem_cons.mp hr' with
      | inl hr'r =>
        exfalso
        subst hr'r
        have hpb := List.find?_some hfindw
        rw [keyPredOf_iff] at hpb
        exact hnotin.1 hpb.symm
      | inr hr'' => exact Or.inr ⟨r', hr'', hfindw⟩

theorem factsRel_update {α : Type} {resfacts : List Fact} {kT : α → FactKey} {r : α}
    {rest : List α} {u : Fact → Fact}
    (hu_keys : ∀ f, keyOfFact (u f) = keyOfFact f)
    (hu_id : ∀ f, (u f).id = f.id)
    (hu_eqk : ∀ a b, keyOfFact a = keyOfFact b → a.id = b.id → u a = u b)
    (hnd : (resfacts.map keyOfFact).Nodup)
    (hcase : (∃ r' ∈ rest, kT r' = kT r) ∨
      updateFirst (keyPredOf (kT r)) u resfacts = resfacts) :
    ∀ {l m : List Fact}, List.Forall₂ (FactsRel resfacts kT (r :: rest)) l m →
      ∀ (mpre : List Fact), resfacts = mpre ++ m →
      mpre.find? (keyPredOf (kT r)) = none →
      List.Forall₂ (FactsRel resfacts kT rest) (updateFirst (keyPredOf (kT r)) u l) m := by
  intro l m h
  induction h with
  | nil =>
    intro mpre hres hpre
    exact List.Forall₂.nil
  | cons hrel htail ih =>
    rename_i a b l' m'
    intro mpre hres hpre
    by_cases hpa : keyPredOf (kT r) a = true
    · have hpb : keyPredOf (kT r) b = true := by
        rw [← keyPredOf_congr (kT r) hrel.1]
        exact hpa
      simp only [updateFirst, hpa, if_true]
      have hfind : resfacts.find? (keyPredOf (kT r)) = some b := by
        rw [hres, find?_append_of_none hpre]
        simp [List.find?, hpb]
      have hnotin : ¬ (kT r) ∈ (m'.map keyOfFact) := by
        rw [hres] at hnd
        simp only [List.map_append, List.map_cons] at hnd
        have h2 := (List.nodup_append.mp hnd).2.1
        rw [List.nodup_cons] at h2
        intro hmem
        apply h2.1
        rw [show keyOfFact b = kT r from keyPredOf_iff.mp hpb]
        exact hmem
      refine List.Forall₂.cons ?_ (factsRel_downgrade hnotin htail)
      refine ⟨by rw [hu_keys]; exact hrel.1, by rw [hu_id]; exact hrel.2.1, ?_⟩
      cases hcase with
      | inl hw =>
        obtain ⟨r', hr', hk'⟩ := hw
        exact Or.inr ⟨r', hr', by rw [hk']; exact hfind⟩
      | inr hdone =>
        left
        have hupd : updateFirst (keyPredOf (kT r)) u resfacts = mpre ++ u b :: m' := by
          rw [hres, updateFirst_append_right hpre]
          simp [updateFirst, hpb]
        have h2 : mpre ++ u b :: m' = mpre ++ b :: m' := hupd.symm.trans (hdone.trans hres)
        have h3 := List.append_cancel_left h2
        have hub : u b = b := by injection h3
        rw [hu_eqk a b hrel.1 hrel.2.1, hub]
    · have hpb : ¬ keyPredOf (kT r) b = true := by
        rw [← keyPredOf_congr (kT r) hrel.1]
        exact hpa
      simp only [updateFirst, hpa, Bool.false_eq_true, if_false]
      refine List.Forall₂.cons ?_ (ih (mpre ++ [b]) ?_ ?_)
      · obtain ⟨hk, hid, hd⟩ := hrel
        refine ⟨hk, hid, ?_⟩
        cases hd with
        | inl he => exact Or.inl he
        | inr hw =>
          obtain ⟨r', hr', hfindw⟩ := hw
          cases List.mem_cons.mp hr' with
          | inl hr'r =>
            exfalso
            subst hr'r
            exact hpb (List.find?_some hfindw)
          | inr hr'' => exact Or.inr ⟨r', hr'', hfindw⟩
      · rw [hres]
        simp
      · rw [find?_append_of_none hpre]
        simp only [List.find?]
        rw [Bool.not_eq_true] at hpb
        rw [hpb]

theorem factUpdate_id (r : NRec) (m : MetricsCalculator.AllMetrics) (f : Fact) :
    (factUpdate r m f).id = f.id := rfl

end LoaderService

theorem DB_ext {d d' : DB} (h1 : d.campaigns = d'.campaigns)
    (h2 : d.strategies = d'.strategies) (h3 : d.placements = d'.placements)
    (h4 : d.creatives = d'.creatives) (h5 : d.regions = d'.regions)
    (h6 : d.facts = d'.facts) (h7 : d.cpms = d'.cpms) (h8 : d.weekly = d'.weekly)
    (h9 : d.monthly = d'.monthly) (h10 : d.staging = d'.staging) (h11 : d.now = d'.now)
    (h12 : d.nextId = d'.nextId) : d = d' := by
  cases d
  cases d'
  simp_all

namespace LoaderService

theorem run2_master (RES : DB) (cid : ℕ) (rs2 : List (ℕ × NRec))
    (hok : ∀ q ∈ rs2, verbosePrinted q.1 = true → q.2.impressions ≠ 0 ∧ q.2.clicks ≠ 0)
    (hproc : ∀ p ∈ rs2,
      create_hierarchy RES cid "surfside" p.2.creative_name (Option.some p.2.campaign_name)
          (Option.some p.2.strategy_name) (Option.some p.2.placement_name) p.2.region_name =
        .ok (resolveHier RES cid p.2, RES) ∧
      ((RES.facts.find? (keyPredOf (factKeyT RES cid p.2))).isSome))
    (hlw : ∀ rs2a p rs2b, rs2 = rs2a ++ p :: rs2b →
      (∀ p' ∈ rs2b, factKeyT RES cid p'.2 ≠ factKeyT RES cid p.2) →
      updateFirst (keyPredOf (factKeyT RES cid p.2)) (factUpdate p.2 (metricsOf RES cid p.2))
        RES.facts = RES.facts)
    (hnd : (RES.facts.map keyOfFact).Nodup) :
    ∀ (a : LoadResult) (base2 : DB),
      a.db.campaigns = RES.campaigns → a.db.strategies = RES.strategies →
      a.db.placements = RES.placements → a.db.creatives = RES.creatives →
      a.db.regions = RES.regions → a.db.cpms = RES.cpms → a.db.now = RES.now →
      a.db.staging = RES.staging → a.db.weekly = RES.weekly → a.db.monthly = RES.monthly →
      a.db.nextId = RES.nextId →
      List.Forall₂
        (FactsRel RES.facts (fun q : ℕ × NRec => factKeyT RES cid q.2) rs2)
        a.db.facts RES.facts →
      rs2.foldl (loadStep base2 cid "surfside") a =
        { db := RES, loaded := a.loaded + rs2.length, failed := a.failed } := by
  induction rs2 with
  | nil =>
    intro a base2 e1 e2 e3 e4 e5 e6 e7 e8 e9 e10 e11 hrel
    have hfacts : a.db.facts = RES.facts := factsRel_nil_eq hrel
    have hdb : a.db = RES := DB_ext e1 e2 e3 e4 e5 hfacts e6 e9 e10 e8 e7 e11
    exact (by rw [hdb] :
      ({ db := a.db, loaded := a.loaded + ([] : List (ℕ × NRec)).length,
         failed := a.failed } : LoadResult) =
      { db := RES, loaded := a.loaded + ([] : List (ℕ × NRec)).length, failed := a.failed })
  | cons p rest ih =>
    intro a base2 e1 e2 e3 e4 e5 e6 e7 e8 e9 e10 e11 hrel
    have hpr := hproc p (List.mem_cons_self p rest)
    have hst := create_hierarchy_surfside_stable RES a.db cid p.2.creative_name
      (Option.some p.2.campaign_name) (Option.some p.2.strategy_name)
      (Option.some p.2.placement_name) p.2.region_name hpr.1
      (dimExt_of_dims_eq e1 e2 e3 e4 e5)
    have hres2 : resolveHier a.db cid p.2 = resolveHier RES cid p.2 := resolveHier_of_ok hst
    have hkeq : factKeyT a.db cid p.2 = factKeyT RES cid p.2 := by
      unfold factKeyT
      rw [hres2]
    have hmeq : metricsOf a.db cid p.2 = metricsOf RES cid p.2 := metricsOf_congr e6 e7 cid p.2
    have hfind : ((a.db.facts.find? (keyPredOf (factKeyT a.db cid p.2))).isSome) := by
      rw [hkeq]
      exact factsRel_find_isSome hrel _ hpr.2
    have hload := load_one_surfside_hit a.db cid p.1 p.2
      (hok p (List.mem_cons_self _ _)) hst hfind
    have hstepeq : loadStep base2 cid "surfside" a p =
        { a with
          db := { a.db with
                  facts := updateFirst (keyPredOf (factKeyT RES cid p.2))
                    (factUpdate p.2 (metricsOf RES cid p.2)) a.db.facts },
          loaded := a.loaded + 1 } := by
      rw [hkeq, hmeq] at hload
      simp [loadStep, hload]
    rw [List.foldl_cons, hstepeq]
    have hcase : (∃ p' ∈ rest, factKeyT RES cid p'.2 = factKeyT RES cid p.2) ∨
        updateFirst (keyPredOf (factKeyT RES cid p.2))
          (factUpdate p.2 (metricsOf RES cid p.2)) RES.facts = RES.facts := by
      by_cases hex : ∃ p' ∈ rest, factKeyT RES cid p'.2 = factKeyT RES cid p.2
      · exact Or.inl hex
      · refine Or.inr (hlw [] p rest rfl ?_)
        push_neg at hex
        exact hex
    have hrel' : List.Forall₂
        (FactsRel RES.facts (fun q : ℕ × NRec => factKeyT RES cid q.2) rest)
        (updateFirst (keyPredOf (factKeyT RES cid p.2))
          (factUpdate p.2 (metricsOf RES cid p.2)) a.db.facts) RES.facts := by
      refine factsRel_update (fun f => keyOfFact_factUpdate p.2 _ f)
        (fun f => factUpdate_id p.2 _ f)
        (fun x y hk hid => factUpdate_eq_of_key hk hid) hnd hcase hrel [] ?_ ?_
      · rw [List.nil_append]
      · rfl
    have hproc2 : ∀ p' ∈ rest,
        create_hierarchy RES cid "surfside" p'.2.creative_name
            (Option.some p'.2.campaign_name) (Option.some p'.2.strategy_name)
            (Option.some p'.2.placement_name) p'.2.region_name =
          .ok (resolveHier RES cid p'.2, RES) ∧
        ((RES.facts.find? (keyPredOf (factKeyT RES cid p'.2))).isSome) :=
      fun p' hp' => hproc p' (List.mem_cons_of_mem _ hp')
    have hlw2 : ∀ rs2a p' rs2b, rest = rs2a ++ p' :: rs2b →
        (∀ p'' ∈ rs2b, factKeyT RES cid p''.2 ≠ factKeyT RES cid p'.2) →
        updateFirst (keyPredOf (factKeyT RES cid p'.2))
          (factUpdate p'.2 (metricsOf RES cid p'.2)) RES.facts = RES.facts :=
      fun rs2a p' rs2b hsplit hne =>
        hlw (p :: rs2a) p' rs2b (by rw [hsplit, List.cons_append]) hne
    have hout := ih (fun q hq => hok q (List.mem_cons_of_mem _ hq)) hproc2 hlw2
      { a with
        db := { a.db with
                facts := updateFirst (keyPredOf (factKeyT RES cid p.2))
                  (factUpdate p.2 (metricsOf RES cid p.2)) a.db.facts },
        loaded := a.loaded + 1 } base2 e1 e2 e3 e4 e5 e6 e7 e8 e9 e10 e11 hrel'
    rw [hout]
    have hlen : a.loaded + 1 + rest.length = a.loaded + (p :: rest).length := by
      simp [List.length_cons]
      omega
    rw [show ({ a with
        db := { a.db with
                facts := updateFirst (keyPredOf (factKeyT RES cid p.2))
                  (factUpdate p.2 (metricsOf RES cid p.2)) a.db.facts },
        loaded := a.loaded + 1 } : LoadResult).loaded = a.loaded + 1 from rfl, hlen]

end LoaderService
/-- C5: dimension resolution is idempotent (a second resolution of the
same scope and name returns the same entity and leaves the session
unchanged), and re-loading the same normalized surfside batch against the
committed state is the identity: every record hits its existing fact row
by the full uniqueness key and overwrites it with identical values, no
fact row or dimension entity is duplicated, and the loaded/failed counts
repeat.  Assumptions: the fact table's uniqueness constraint holds on the
starting state (no two rows share the full key), and no record of the
batch trips the verbose-print `TypeError` (zero impressions or zero
clicks at a printed index), which would fail the record in both runs. -/
theorem c5_loader_idempotent :
    (∀ (db : DB) (cid : ℕ) (n s : String),
      find_or_create_campaign (find_or_create_campaign db cid n s).2 cid n s =
        ((find_or_create_campaign db cid n s).1, (find_or_create_campaign db cid n s).2)) ∧
    (∀ (db : DB) (k : ℕ) (n : String),
      find_or_create_strategy (find_or_create_strategy db k n).2 k n =
        ((find_or_create_strategy db k n).1, (find_or_create_strategy db k n).2)) ∧
    (∀ (db : DB) (k : ℕ) (n : String),
      find_or_create_placement (find_or_create_placement db k n).2 k n =
        ((find_or_create_placement db k n).1, (find_or_create_placement db k n).2)) ∧
    (∀ (db : DB) (n : String) (pid : ℕ) (cr : Creative) (db' : DB),
      find_or_create_creative db n (Option.some pid) Option.none = .ok (cr, db') →
      find_or_create_creative db' n (Option.some pid) Option.none = .ok (cr, db')) ∧
    (∀ (db base base2 : DB) (cid : ℕ) (rs : List NRec),
      (∀ p ∈ rs.enum, verbosePrinted p.1 = true →
        p.2.impressions ≠ 0 ∧ p.2.clicks ≠ 0) →
      (db.facts.map keyOfFact).Nodup →
      load_daily_metrics (load_daily_metrics db base cid rs "surfside").db base2 cid rs
          "surfside" =
        { db := (load_daily_metrics db base cid rs "surfside").db, loaded := rs.length,
          failed := 0 }) := by
  refine ⟨?_, ?_, ?_, ?_, ?_⟩
  · intro db cid n s
    exact find_or_create_campaign_stable db _ cid n s ⟨[], (List.append_nil _).symm⟩
  · intro db k n
    exact find_or_create_strategy_stable db _ k n ⟨[], (List.append_nil _).symm⟩
  · intro db k n
    exact find_or_create_placement_stable db _ k n ⟨[], (List.append_nil _).symm⟩
  · intro db n pid cr db' h
    exact find_or_create_creative_stable db db' n pid h ⟨[], (List.append_nil _).symm⟩
  · intro db base base2 cid rs hok hnd
    have hndres := run1_keys_nodup rs.enum { db := db, loaded := 0, failed := 0 } base cid
      hok hnd
    have hproc := run1_proc rs.enum { db := db, loaded := 0, failed := 0 } base cid hok
    have h := run2_master ((rs.enum.foldl (loadStep base cid "surfside")
        { db := db, loaded := 0, failed := 0 }).db) cid rs.enum hok hproc
      (fun rs2a p rs2b hsplit hne => by
        rw [hsplit] at hne ⊢
        exact run1_lastw rs2a p rs2b { db := db, loaded := 0, failed := 0 } base cid
          (fun q hq => hok q (hsplit.symm ▸ hq)) hne)
      hndres
      { db := (rs.enum.foldl (loadStep base cid "surfside")
          { db := db, loaded := 0, failed := 0 }).db, loaded := 0, failed := 0 } base2
      rfl rfl rfl rfl rfl rfl rfl rfl rfl rfl rfl
      (factsRel_refl _ _ _ _)
    unfold load_daily_metrics
    rw [h]
    simp

theorem c5_loader_idempotent_witness :
    let db0 : DB := { campaigns := [], strategies := [], placements := [], creatives := [],
                      regions := [], facts := [], cpms := [], weekly := [], monthly := [],
                      staging := [], now := 0, nextId := 1 }
    let cr0 : Creative := { id := 1, placement_id := Option.some 5,
                            campaign_id := Option.none, name := "c" }
    let db1 : DB := { db0 with creatives := [cr0], nextId := 2 }
    let r0 : NRec := { date := Date.mk 2024 1 2, campaign_name := "C",
                       strategy_name := "S", placement_name := "P", creative_name := "K",
                       impressions := 1, clicks := 1, conversions := 0,
                       conversion_revenue := 0, ctr := Option.none }
    (find_or_create_creative db0 "c" (Option.some 5) Option.none = .ok (cr0, db1) ∧
      find_or_create_creative db1 "c" (Option.some 5) Option.none = .ok (cr0, db1)) ∧
    ((∀ p ∈ ([r0] : List NRec).enum, verbosePrinted p.1 = true →
        p.2.impressions ≠ 0 ∧ p.2.clicks ≠ 0) ∧
      (db0.facts.map keyOfFact).Nodup ∧
      load_daily_metrics (load_daily_metrics db0 db0 1 [r0] "surfside").db db0 1 [r0]
          "surfside" =
        { db := (load_daily_metrics db0 db0 1 [r0] "surfside").db, loaded := 1,
          failed := 0 }) := by
  intro db0 cr0 db1 r0
  have hcr : find_or_create_creative db0 "c" (Option.some 5) Option.none = .ok (cr0, db1) :=
    rfl
  have hok0 : ∀ p ∈ ([r0] : List NRec).enum, verbosePrinted p.1 = true →
      p.2.impressions ≠ 0 ∧ p.2.clicks ≠ 0 := by decide
  have hnd0 : ((db0.facts.map keyOfFact).Nodup) := by simp
  exact ⟨⟨hcr, c5_loader_idempotent.2.2.2.1 db0 "c" 5 cr0 db1 hcr⟩,
    ⟨hok0, hnd0, c5_loader_idempotent.2.2.2.2 db0 db0 db0 1 [r0] hok0 hnd0⟩⟩

theorem factsInRange_eq_of_facts (db' db : DB) (h : db'.facts = db.facts)
    (cid : ℕ) (lo hi : Date) : factsInRange db' cid lo hi = factsInRange db cid lo hi := by
  unfold factsInRange
  rw [h]

theorem top_campaigns_data_eq (db' db : DB) (h : db'.campaigns = db.campaigns)
    (fs : List Fact) : top_campaigns_data db' fs = top_campaigns_data db fs := by
  unfold top_campaigns_data campaignJoin
  rw [h]

theorem top_creatives_data_eq (db' db : DB) (h : db'.creatives = db.creatives)
    (fs : List Fact) : top_creatives_data db' fs = top_creatives_data db fs := by
  unfold top_creatives_data creativeJoin
  rw [h]

theorem weekSummaryOf_eq (db' db : DB) (h1 : db'.facts = db.facts)
    (h2 : db'.campaigns = db.campaigns) (h3 : db'.creatives = db.creatives)
    (cid : ℕ) (ws : Date) (w0 : WeeklySummary) :
    weekSummaryOf db' cid ws w0 = weekSummaryOf db cid ws w0 := by
  unfold weekSummaryOf
  dsimp only
  rw [factsInRange_eq_of_facts db' db h1, top_campaigns_data_eq db' db h2,
    top_creatives_data_eq db' db h3]

theorem weekSummaryOf_newWeek (db : DB) (cid : ℕ) (ws : Date) :
    weekSummaryOf db cid ws (newWeekSummary db cid ws) = newWeekSummary db cid ws := by
  simp only [weekSummaryOf, newWeekSummary]

theorem weekSummaryOf_idem (db : DB) (cid : ℕ) (ws : Date) (w0 : WeeklySummary) :
    weekSummaryOf db cid ws (weekSummaryOf db cid ws w0) = weekSummaryOf db cid ws w0 := by
  simp only [weekSummaryOf]

theorem aggregate_week_noop (db : DB) (cid : ℕ) (ws : Date) (w' : WeeklySummary)
    (hW : weekSummaryOf db cid ws w' = w')
    (hfind : db.weekly.find? (wpred cid ws) = some w')
    (h : ¬ sumImpressions (factsInRange db cid ws (addDays ws 6)) = 0) :
    aggregate_week db cid ws = (some w', db) := by
  rw [aggregate_week, if_neg h, hfind]
  simp only [hW]
  rw [updateFirst_of_self hfind rfl]

theorem monthSummaryOf_eq (db' db : DB) (h1 : db'.facts = db.facts)
    (h2 : db'.campaigns = db.campaigns) (h3 : db'.creatives = db.creatives)
    (cid : ℕ) (y m : ℕ) (w0 : MonthlySummary) :
    monthSummaryOf db' cid y m w0 = monthSummaryOf db cid y m w0 := by
  unfold monthSummaryOf
  dsimp only
  rw [factsInRange_eq_of_facts db' db h1, top_campaigns_data_eq db' db h2,
    top_creatives_data_eq db' db h3]

theorem monthSummaryOf_newMonth (db : DB) (cid : ℕ) (y m : ℕ) :
    monthSummaryOf db cid y m (newMonthSummary db cid y m) = newMonthSummary db cid y m := by
  simp only [monthSummaryOf, newMonthSummary]

theorem monthSummaryOf_idem (db : DB) (cid : ℕ) (y m : ℕ) (w0 : MonthlySummary) :
    monthSummaryOf db cid y m (monthSummaryOf db cid y m w0) = monthSummaryOf db cid y m w0 := by
  simp only [monthSummaryOf]

theorem aggregate_month_noop (db : DB) (cid : ℕ) (y m : ℕ) (w' : MonthlySummary)
    (hW : monthSummaryOf db cid y m w' = w')
    (hfind : db.monthly.find? (mpred cid ⟨y, m, 1⟩) = some w')
    (h : ¬ sumImpressions (factsInRange db cid ⟨y, m, 1⟩ (monthEndOf y m)) = 0) :
    aggregate_month db cid y m = (some w', db) := by
  rw [aggregate_month, if_neg h, hfind]
  simp only [hW]
  rw [updateFirst_of_self hfind rfl]

set_option maxHeartbeats 2000000 in
/-- C7 (confirmed): re-running the aggregator for an already-summarized
(client, period) against unchanged fact rows returns the same summary and
leaves the database state identical — the existing row is overwritten in
place with the same values, no second row appears for the key and nothing
is merged. -/
theorem c7_aggregator_rerun_idempotent :
    (∀ (db : DB) (cid : ℕ) (ws : Date),
      aggregate_week ((aggregate_week db cid ws).2) cid ws = aggregate_week db cid ws) ∧
    (∀ (db : DB) (cid : ℕ) (y m : ℕ),
      aggregate_month ((aggregate_month db cid y m).2) cid y m = aggregate_month db cid y m) := by
  constructor
  · intro db cid ws
    by_cases h : sumImpressions (factsInRange db cid ws (addDays ws 6)) = 0
    · have h2 : (aggregate_week db cid ws).2 = db := by simp [aggregate_week, h]
      rw [h2]
    · cases hf : db.weekly.find? (wpred cid ws) with
      | some w0 =>
        have hrun1 : aggregate_week db cid ws = (some (weekSummaryOf db cid ws w0), { db with weekly := updateFirst (wpred cid ws) (fun _ => weekSummaryOf db cid ws w0) db.weekly }) := by
          simp [aggregate_week, h, hf]
        have hw0 : wpred cid ws w0 = true := List.find?_some hf
        have hp : wpred cid ws (weekSummaryOf db cid ws w0) = true := by
          simpa [wpred, weekSummaryOf] using hw0
        have hfind1 : ({ db with weekly := updateFirst (wpred cid ws) (fun _ => weekSummaryOf db cid ws w0) db.weekly } : DB).weekly.find? (wpred cid ws) = some (weekSummaryOf db cid ws w0) :=
          find?_updateFirst_of_found hf hp
        have hsnd : (aggregate_week db cid ws).2 = { db with weekly := updateFirst (wpred cid ws) (fun _ => weekSummaryOf db cid ws w0) db.weekly } := by rw [hrun1]
        calc aggregate_week ((aggregate_week db cid ws).2) cid ws
            = aggregate_week { db with weekly := updateFirst (wpred cid ws) (fun _ => weekSummaryOf db cid ws w0) db.weekly } cid ws := by rw [hsnd]
          _ = (some (weekSummaryOf db cid ws w0), { db with weekly := updateFirst (wpred cid ws) (fun _ => weekSummaryOf db cid ws w0) db.weekly }) :=
              aggregate_week_noop _ cid ws _ ((weekSummaryOf_eq _ db rfl rfl rfl cid ws _).trans (weekSummaryOf_idem db cid ws w0)) hfind1 h
          _ = aggregate_week db cid ws := hrun1.symm
      | none =>
        have hrun1 : aggregate_week db cid ws = (some (newWeekSummary db cid ws), { db with weekly := db.weekly ++ [newWeekSummary db cid ws], nextId := db.nextId + 1 }) := by
          simp [aggregate_week, h, hf]
        have hp : wpred cid ws (newWeekSummary db cid ws) = true := by
          simp [wpred, newWeekSummary]
        have hfind1 : ({ db with weekly := db.weekly ++ [newWeekSummary db cid ws], nextId := db.nextId + 1 } : DB).weekly.find? (wpred cid ws) = some (newWeekSummary db cid ws) := by
          show (db.weekly ++ [newWeekSummary db cid ws]).find? (wpred cid ws) = _
          rw [find?_append_of_none hf]
          simp [List.find?, hp]
        have hsnd : (aggregate_week db cid ws).2 = { db with weekly := db.weekly ++ [newWeekSummary db cid ws], nextId := db.nextId + 1 } := by rw [hrun1]
        calc aggregate_week ((aggregate_week db cid ws).2) cid ws
            = aggregate_week { db with weekly := db.weekly ++ [newWeekSummary db cid ws], nextId := db.nextId + 1 } cid ws := by rw [hsnd]
          _ = (some (newWeekSummary db cid ws), { db with weekly := db.weekly ++ [newWeekSummary db cid ws], nextId := db.nextId + 1 }) :=
              aggregate_week_noop _ cid ws _ ((weekSummaryOf_eq _ db rfl rfl rfl cid ws _).trans (weekSummaryOf_newWeek db cid ws)) hfind1 h
          _ = aggregate_week db cid ws := hrun1.symm
  · intro db cid y m
    by_cases h : sumImpressions (factsInRange db cid ⟨y, m, 1⟩ (monthEndOf y m)) = 0
    · have h2 : (aggregate_month db cid y m).2 = db := by simp [aggregate_month, h]
      rw [h2]
    · cases hf : db.monthly.find? (mpred cid ⟨y, m, 1⟩) with
      | some w0 =>
        have hrun1 : aggregate_month db cid y m = (some (monthSummaryOf db cid y m w0), { db with monthly := updateFirst (mpred cid ⟨y, m, 1⟩) (fun _ => monthSummaryOf db cid y m w0) db.monthly }) := by
          simp [aggregate_month, h, hf]
        have hw0 : mpred cid ⟨y, m, 1⟩ w0 = true := List.find?_some hf
        have hp : mpred cid ⟨y, m, 1⟩ (monthSummaryOf db cid y m w0) = true := by
          simpa [mpred, monthSummaryOf] using hw0
        have hfind1 : ({ db with monthly := updateFirst (mpred cid ⟨y, m, 1⟩) (fun _ => monthSummaryOf db cid y m w0) db.monthly } : DB).monthly.find? (mpred cid ⟨y, m, 1⟩) = some (monthSummaryOf db cid y m w0) :=
          find?_updateFirst_of_found hf hp
        have hsnd : (aggregate_month db cid y m).2 = { db with monthly := updateFirst (mpred cid ⟨y, m, 1⟩) (fun _ => monthSummaryOf db cid y m w0) db.monthly } := by rw [hrun1]
        calc aggregate_month ((aggregate_month db cid y m).2) cid y m
            = aggregate_month { db with monthly := updateFirst (mpred cid ⟨y, m, 1⟩) (fun _ => monthSummaryOf db cid y m w0) db.monthly } cid y m := by rw [hsnd]
          _ = (some (monthSummaryOf db cid y m w0), { db with monthly := updateFirst (mpred cid ⟨y, m, 1⟩) (fun _ => monthSummaryOf db cid y m w0) db.monthly }) :=
              aggregate_month_noop _ cid y m _ ((monthSummaryOf_eq _ db rfl rfl rfl cid y m _).trans (monthSummaryOf_idem db cid y m w0)) hfind1 h
          _ = aggregate_month db cid y m := hrun1.symm
      | none =>
        have hrun1 : aggregate_month db cid y m = (some (newMonthSummary db cid y m), { db with monthly := db.monthly ++ [newMonthSummary db cid y m], nextId := db.nextId + 1 }) := by
          simp [aggregate_month, h, hf]
        have hp : mpred cid ⟨y, m, 1⟩ (newMonthSummary db cid y m) = true := by
          simp [mpred, newMonthSummary]
        have hfind1 : ({ db with monthly := db.monthly ++ [newMonthSummary db cid y m], nextId := db.nextId + 1 } : DB).monthly.find? (mpred cid ⟨y, m, 1⟩) = some (newMonthSummary db cid y m) := by
          show (db.monthly ++ [newMonthSummary db cid y m]).find? (mpred cid ⟨y, m, 1⟩) = _
          rw [find?_append_of_none hf]
          simp [List.find?, hp]
        have hsnd : (aggregate_month db cid y m).2 = { db with monthly := db.monthly ++ [newMonthSummary db cid y m], nextId := db.nextId + 1 } := by rw [hrun1]
        calc aggregate_month ((aggregate_month db cid y m).2) cid y m
            = aggregate_month { db with monthly := db.monthly ++ [newMonthSummary db cid y m], nextId := db.nextId + 1 } cid y m := by rw [hsnd]
          _ = (some (newMonthSummary db cid y m), { db with monthly := db.monthly ++ [newMonthSummary db cid y m], nextId := db.nextId + 1 }) :=
              aggregate_month_noop _ cid y m _ ((monthSummaryOf_eq _ db rfl rfl rfl cid y m _).trans (monthSummaryOf_newMonth db cid y m)) hfind1 h
          _ = aggregate_month db cid y m := hrun1.symm

/-- C6 (witness): the amended theorem applied to an empty database. -/
theorem c6_aggregator_none_and_sums_witness :
    let db : DB := { campaigns := [], strategies := [], placements := [],
                     creatives := [], regions := [], facts := [], cpms := [],
                     weekly := [], monthly := [], staging := [], now := 0,
                     nextId := 1 }
    sumImpressions (factsInRange db 1 ⟨2024, 1, 1⟩ (addDays ⟨2024, 1, 1⟩ 6)) = 0 ∧
    (aggregate_week db 1 ⟨2024, 1, 1⟩).2 = db :=
  ⟨by decide, ((c6_aggregator_none_and_sums.1 _ 1 ⟨2024, 1, 1⟩).2.1) (by decide)⟩

attribute [local semireducible] Rat.inv Rat.mul Rat.add Rat.sub in
/-- C3 (counterexample): the claimed scenario — a 3-record surfside batch
with one record missing the creative name — does not play out as stated:
`transform_surfside_record` defaults a missing creative name to
`"General Creative"`, so validation yields 3 valid and 0 invalid records
and the run ends with status `"success"`, `records_loaded = 3` and
`records_failed = 0`, not `"partial"` with 2/1. -/
theorem c3_counterexample :
    let r1 : RawRecord := [("Event Date", "2024-01-02"), ("Strategy Name", "Alpha"),
      ("Placement Name", "P1"), ("Creative Name", "C1"), ("Impressions", "100"),
      ("Clicks", "5"), ("Conversions", "1"), ("Conversion Value", "10")]
    let r2 : RawRecord := [("Event Date", "2024-01-02"), ("Strategy Name", "Alpha"),
      ("Placement Name", "P1"), ("Creative Name", "C2"), ("Impressions", "200"),
      ("Clicks", "8"), ("Conversions", "2"), ("Conversion Value", "25")]
    let r3 : RawRecord := [("Event Date", "2024-01-02"), ("Strategy Name", "Beta"),
      ("Placement Name", "P2"), ("Impressions", "50"),
      ("Clicks", "1"), ("Conversions", "0"), ("Conversion Value", "0")]
    let db0 : DB := { campaigns := [], strategies := [], placements := [],
                      creatives := [], regions := [], facts := [], cpms := [],
                      weekly := [], monthly := [], staging := [], now := 0,
                      nextId := 1 }
    (validate_and_transform [r1, r2, r3]).1.length = 3 ∧
    (validate_and_transform [r1, r2, r3]).2.length = 0 ∧
    (run_etl_pipeline db0 1 [r1, r2, r3]).status = "success" ∧
    (run_etl_pipeline db0 1 [r1, r2, r3]).records_loaded = 3 ∧
    (run_etl_pipeline db0 1 [r1, r2, r3]).records_failed = 0 ∧
    (run_etl_pipeline db0 1 [r1, r2, r3]).status ≠ "partial" := by
  decide

/-- C3 (amended): the claimed scenario is corrected — a missing creative
name is defaulted, not rejected — while the original general status rule
is kept as stated: when validation leaves no valid record the run is
`"failed"` with `records_loaded = 0` and every raw record counted as
failed; otherwise the run is `"success"` exactly when there are zero
invalid and zero loader-failed records, `"partial"` when some records
loaded and some failed or were invalid, and `"failed"` when nothing
loaded.  `records_loaded` is the loader count over the aggregated batch
and `records_failed` is the loader-failed count plus the invalid count. -/
theorem c3_run_status_machine :
    ∀ (db : DB) (cid : ℕ) (raws : List RawRecord),
      ((validate_and_transform raws).1 = [] →
        (run_etl_pipeline db cid raws).status = "failed" ∧
        (run_etl_pipeline db cid raws).records_loaded = 0 ∧
        (run_etl_pipeline db cid raws).records_failed = raws.length) ∧
      ((validate_and_transform raws).1 ≠ [] →
        ((run_etl_pipeline db cid raws).status = "success" ↔
          (load_daily_metrics
          { db with staging := db.staging ++ aggregate_records (validate_and_transform raws).1 }
          db cid (aggregate_records (validate_and_transform raws).1) "surfside").failed = 0 ∧ (validate_and_transform raws).2.length = 0) ∧
        ((run_etl_pipeline db cid raws).status = "partial" ↔
          ¬ ((load_daily_metrics
          { db with staging := db.staging ++ aggregate_records (validate_and_transform raws).1 }
          db cid (aggregate_records (validate_and_transform raws).1) "surfside").failed = 0 ∧ (validate_and_transform raws).2.length = 0) ∧
          0 < (load_daily_metrics
          { db with staging := db.staging ++ aggregate_records (validate_and_transform raws).1 }
          db cid (aggregate_records (validate_and_transform raws).1) "surfside").loaded) ∧
        ((run_etl_pipeline db cid raws).status = "failed" ↔
          ¬ ((load_daily_metrics
          { db with staging := db.staging ++ aggregate_records (validate_and_transform raws).1 }
          db cid (aggregate_records (validate_and_transform raws).1) "surfside").failed = 0 ∧ (validate_and_transform raws).2.length = 0) ∧
          (load_daily_metrics
          { db with staging := db.staging ++ aggregate_records (validate_and_transform raws).1 }
          db cid (aggregate_records (validate_and_transform raws).1) "surfside").loaded = 0) ∧
        (run_etl_pipeline db cid raws).records_loaded = (load_daily_metrics
          { db with staging := db.staging ++ aggregate_records (validate_and_transform raws).1 }
          db cid (aggregate_records (validate_and_transform raws).1) "surfside").loaded ∧
        (run_etl_pipeline db cid raws).records_failed =
          (load_daily_metrics
          { db with staging := db.staging ++ aggregate_records (validate_and_transform raws).1 }
          db cid (aggregate_records (validate_and_transform raws).1) "surfside").failed + (validate_and_transform raws).2.length) :=
  run_etl_machine

theorem c3_run_status_machine_witness :
    let r1 : RawRecord := [("Event Date", "2024-01-03"), ("Strategy Name", "Gamma"),
      ("Placement Name", "P3"), ("Creative Name", "C3"), ("Impressions", "10"),
      ("Clicks", "1"), ("Conversions", "0"), ("Conversion Value", "0")]
    let db0 : DB := { campaigns := [], strategies := [], placements := [],
                      creatives := [], regions := [], facts := [], cpms := [],
                      weekly := [], monthly := [], staging := [], now := 0,
                      nextId := 1 }
    (validate_and_transform ([] : List RawRecord)).1 = [] ∧
    (run_etl_pipeline db0 1 ([] : List RawRecord)).status = "failed" ∧
    (validate_and_transform [r1]).1 ≠ [] ∧
    ((run_etl_pipeline db0 1 [r1]).status = "success" ↔
      (load_daily_metrics
      { db0 with staging := db0.staging ++ aggregate_records (validate_and_transform [r1]).1 }
      db0 1 (aggregate_records (validate_and_transform [r1]).1) "surfside").failed = 0 ∧
      (validate_and_transform [r1]).2.length = 0) := by
  intro r1 db0
  exact ⟨by decide, ((c3_run_status_machine db0 1 []).1 (by decide)).1, by decide,
    ((c3_run_status_machine db0 1 [r1]).2 (by decide)).1⟩

/-- C4: `aggregate_records` produces exactly one record per distinct
(date, campaign, strategy, placement, creative) key present in the input,
whose summed fields equal the per-key sums of the input, so grand totals
over the batch are preserved; and in `run_etl_pipeline` the aggregated
batch (not the raw valid records) is what gets appended to staging before
loading — provided no aggregated record trips the loader's verbose-print
`TypeError` (zero impressions or zero clicks at a printed index), whose
handler rolls the session back and with it the flushed staging rows. -/
theorem c4_aggregate_records_spec :
    (∀ (rs : List NRec) (k : Date × String × String × String × String),
      keyCount k (aggregate_records rs) = min 1 (keyCount k rs) ∧
      keySums k (aggregate_records rs) = keySums k rs) ∧
    (∀ rs : List NRec, totalSums (aggregate_records rs) = totalSums rs) ∧
    (∀ (db : DB) (cid : ℕ) (raws : List RawRecord),
      (validate_and_transform raws).1 ≠ [] →
      (∀ p ∈ (aggregate_records (validate_and_transform raws).1).enum,
        verbosePrinted p.1 = true → p.2.impressions ≠ 0 ∧ p.2.clicks ≠ 0) →
      (run_etl_pipeline db cid raws).db.staging =
        db.staging ++ aggregate_records (validate_and_transform raws).1) := by
  refine ⟨fun rs k => ⟨?_, ?_⟩, fun rs => ?_, fun db cid raws hv hok => ?_⟩
  · have h := foldl_aggInsert_keyCount rs [] k
    simpa [aggregate_records, keyCount] using h
  · have h := foldl_aggInsert_keySums rs [] k
    simpa [aggregate_records, keySums] using h
  · have h := foldl_aggInsert_totalSums rs []
    simpa [aggregate_records, totalSums] using h
  · unfold run_etl_pipeline
    dsimp only
    rw [if_neg hv]
    obtain ⟨_, _, hstg, _, _, _⟩ := load_daily_metrics_surfside
      { db with staging := db.staging ++ aggregate_records (validate_and_transform raws).1 }
      db cid (aggregate_records (validate_and_transform raws).1) hok
    split_ifs <;> simpa using hstg

attribute [local semireducible] Rat.inv Rat.mul Rat.add Rat.sub in
theorem c4_aggregate_records_spec_witness :
    let r1 : RawRecord := [("Event Date", "2024-01-04"), ("Strategy Name", "Delta"),
      ("Placement Name", "P4"), ("Creative Name", "C4"), ("Impressions", "3"),
      ("Clicks", "1"), ("Conversions", "0"), ("Conversion Value", "0")]
    let db0 : DB := { campaigns := [], strategies := [], placements := [],
                      creatives := [], regions := [], facts := [], cpms := [],
                      weekly := [], monthly := [], staging := [], now := 0,
                      nextId := 1 }
    (validate_and_transform [r1]).1 ≠ [] ∧
    (∀ p ∈ (aggregate_records (validate_and_transform [r1]).1).enum,
      verbosePrinted p.1 = true → p.2.impressions ≠ 0 ∧ p.2.clicks ≠ 0) ∧
    (run_etl_pipeline db0 1 [r1]).db.staging =
      db0.staging ++ aggregate_records (validate_and_transform [r1]).1 := by
  intro r1 db0
  exact ⟨by decide, by decide, c4_aggregate_records_spec.2.2 db0 1 [r1] (by decide) (by decide)⟩

/-- C10: every fact row produced by the surfside loader carries a null
campaign id — any fact in the resulting session is either a pre-existing
row of the working state, a row of the committed base state the session is
rolled back to when a record fails, or campaignless; `create_hierarchy`
for surfside returns no campaign in the hierarchy tuple while parenting
the resolved strategy under a `"Surfside General"` campaign row; and the
top-campaigns join (`DailyMetrics.campaign_id == Campaign.id`) discards
exactly the fact rows with a null campaign id, so surfside-loaded rows
never contribute to a top-campaigns snapshot. -/
theorem c10_surfside_facts_campaignless :
    (∀ (db base : DB) (cid : ℕ) (rs : List NRec),
      ∀ f ∈ (load_daily_metrics db base cid rs "surfside").db.facts,
        f ∈ db.facts ∨ f ∈ base.facts ∨ f.campaign_id = Option.none) ∧
    (∀ (db : DB) (cid : ℕ) (crn : String) (cn sn pn rn : Option String),
      ∃ strat plc cr rg db1,
        create_hierarchy db cid "surfside" crn cn sn pn rn =
          .ok ({ campaign := Option.none, strategy := Option.some strat,
                 placement := Option.some plc, creative := cr, region := rg }, db1) ∧
        ∃ camp, camp ∈ db1.campaigns ∧ camp.id = strat.campaign_id ∧
          camp.name = "Surfside General") ∧
    (∀ (db : DB) (fs : List Fact),
      campaignJoin db (fs.filter (fun f => f.campaign_id.isSome)) = campaignJoin db fs) := by
  refine ⟨load_daily_metrics_facts, create_hierarchy_surfside_parent, fun db fs => ?_⟩
  induction fs with
  | nil => rfl
  | cons f fs ih =>
    cases hc : f.campaign_id with
    | none =>
      simp only [campaignJoin, List.filter_cons, hc, Option.isSome_none,
        Bool.false_eq_true, if_false, List.filterMap_cons] at *
      exact ih
    | some cid =>
      simp only [campaignJoin, List.filter_cons, hc, Option.isSome_some,
        if_true, List.filterMap_cons] at *
      cases (db.campaigns.find? (fun c => decide (c.id = cid))).map
          (fun c => (c.name, f)) with
      | none => exact ih
      | some nf => rw [ih]

theorem c10_surfside_facts_campaignless_witness :
    let f0 : Fact := { id := 1, client_id := 1, date := Date.mk 2024 1 2,
                       campaign_id := Option.some 7, strategy_id := Option.none,
                       placement_id := Option.none, creative_id := 2,
                       region_id := Option.none, source := "surfside",
                       impressions := 1, clicks := 0, conversions := 0,
                       conversion_revenue := 0, ctr := Option.none, spend := 0,
                       cpc := Option.none, cpa := Option.none, roas := Option.none }
    let db0 : DB := { campaigns := [], strategies := [], placements := [],
                      creatives := [], regions := [], facts := [f0], cpms := [],
                      weekly := [], monthly := [], staging := [], now := 0,
                      nextId := 8 }
    f0 ∈ db0.facts ∨ f0 ∈ db0.facts ∨ f0.campaign_id = Option.none := by
  intro f0 db0
  exact c10_surfside_facts_campaignless.1 db0 db0 1 [] f0 (List.mem_singleton.2 rfl)

end Dashboard
